import Mathlib

/-!
A shallow embedding of the task femtoDreamTripletTaskTrackTrackTrack.

The task `femtoDreamTripletTaskTrackTrackTrack` builds three-particle
correlation functions.  This file embeds the task in Lean:

* single-precision and double-precision numbers are rationals (`ℚ`); NaN,
  infinities and rounding are outside the model;
* unsigned bit masks are natural numbers, combined with `&&&`;
* a table is a list of rows, in table order;
* histogram fills and accumulator calls are collected, in program order, in
  a list of `Fill` events;
* code that lives outside the translated file (kinematics, close-pair
  rejection, pair cleaner, binning, PDG data base, combination iterators) is
  either a field of `Collaborators` or a definition whose doc comment says
  that it is modelled from the specification.
-/

namespace FemtoDream

/-! ## Data model -/

/-- Modelled from the spec: the numeric value of the type tag "track"
(`aod::femtodreamparticle::ParticleType::kTrack`); the enumeration is declared
outside the translated file. -/
def kTrack : Nat := 0

/-- One row of `aod::FDParticles` (joined with `aod::FDMCLabels` in the Monte
Carlo process functions, where `mcPt` is `fdMCParticle().pt()`). -/
structure FDParticle where
  globalIndex : Int
  fdCollisionId : Int
  pt : ℚ
  eta : ℚ
  phi : ℚ
  partType : Nat
  cut : Nat
  pidcut : Nat
  tempFitVar : ℚ
  mcPt : ℚ
deriving DecidableEq

/-- One row of `aod::FDCollisions` (joined with `aod::FDColMasks` in the masked
process functions). -/
structure FDCollision where
  globalIndex : Int
  posZ : ℚ
  multNtr : Int
  multV0M : ℚ
  magField : ℚ
  sphericity : ℚ
  bitmaskTrackOne : Nat
  bitmaskTrackTwo : Nat
  bitmaskTrackThree : Nat
deriving DecidableEq

/-- The configurables of the task together with its process switches; the
default of every field is the default written in the source. -/
structure Config where
  confSphericityMin : ℚ := 6 / 10
  confSphericityMax : ℚ := 1
  ConfUseOLD_possiblyWrong_CPR : Bool := true
  ConfTracksInMixedEvent : ℚ := 1
  ConfMaxpT : ℚ := 405 / 100
  ConfMinpT : ℚ := 3 / 10
  ConfRejectEtaAt0 : ℚ := 2 / 100
  ConfMaxDCAxy : ℚ := -1 / 10
  ConfMinDCAxy : ℚ := 1 / 10
  ConfPIDthrMom : ℚ := 1
  ConfAtWhichRadiiToCut : Int := 1
  ConfAtWhichTPCRadii : ℚ := 85
  ConfTPCPIDBit : Nat := 16
  ConfTPCTOFPIDBit : Nat := 8
  ConfIsMC : Bool := false
  ConfUse3D : Bool := false
  ConfDCACutPtDep : Bool := false
  ConfPDGCodePart : Int := 2212
  ConfCutPart : Nat := 5542474
  ConfMaxQ3ForkStarPlots : ℚ := 4 / 10
  ConfNEventsMix : Int := 5
  ConfIsCPR : Bool := true
  ConfFillCPRQA : Bool := false
  ConfCPRPlotPerRadii : Bool := false
  ConfCPRdeltaPhiMax : ℚ := 1 / 100
  ConfCPRdeltaEtaMax : ℚ := 1 / 100
  ConfMaxQ3IncludedInCPRPlots : ℚ := 8
  doprocessSameEvent : Bool := true
  doprocessSameEventMasked : Bool := false
  doprocessSameEventMC : Bool := false
  doprocessSameEventMCMasked : Bool := false
  doprocessMixedEvent : Bool := true
  doprocessMixedEventMasked : Bool := false
  doprocessMixedEventMC : Bool := false
  doprocessMixedEventMCMasked : Bool := false

/-- One entry of `workflows.devices`: the device name and its option list,
every option value read as a number. -/
structure DeviceSpec where
  name : String
  options : List (String × ℚ)

/-- The functions the task calls but does not define.  Each field stands for
the value the named function returns; histograms filled inside these
functions are not part of the `Fill` trace of the task. -/
structure Collaborators where
  /-- The expression node `nexp`. -/
  nexp : ℚ → ℚ
  /-- The function `FemtoDreamMath::getQ3(p1, m1, p2, m2, p3, m3)`. -/
  getQ3 : FDParticle → ℚ → FDParticle → ℚ → FDParticle → ℚ → ℚ
  /-- The function `FemtoDreamMath::getkstar(p1, m1, p2, m2)`. -/
  getkstar : FDParticle → ℚ → FDParticle → ℚ → ℚ
  /-- The call `pairCloseRejectionSE.isClosePair(p1, p2, parts, magField, Q3)`. -/
  isClosePairSE : FDParticle → FDParticle → List FDParticle → ℚ → ℚ → Bool
  /-- The call `pairCloseRejectionME.isClosePair(p1, p2, parts, magField, Q3)`. -/
  isClosePairME : FDParticle → FDParticle → List FDParticle → ℚ → ℚ → Bool
  /-- The call `pairCleaner.isCleanPair(p1, p2, parts)`. -/
  isCleanPair : FDParticle → FDParticle → List FDParticle → Bool
  /-- The call `colBinning.getBin({posZ, mult})`. -/
  getBin : ℚ → Int → Int
  /-- The lookup `TDatabasePDG::Instance()->GetParticle(code)->Mass()`. -/
  pdgMass : Int → ℚ
  /-- The iterator `soa::selfCombinations(colBinning, ConfNEventsMix, -1, cols, cols, cols)`,
  as the list of collision triples it yields. -/
  selfCombinations : Int → List FDCollision →
    List (FDCollision × FDCollision × FDCollision)
  /-- The helper `containsNameValuePair(device.options, name, value)`. -/
  containsNameValuePair : List (String × ℚ) → String → ℚ → Bool
  /-- The number of bits of `aod::femtodreamcollision::BitMaskType`, that is
  `8 * sizeof(BitMaskType)`. -/
  bitMaskWidth : Nat

/-- The data members of the task that `init` sets and the process functions
read. -/
structure Task where
  cfg : Config
  MaskBit : Nat
  mMassOne : ℚ
  mMassTwo : ℚ
  mMassThree : ℚ

/-- A histogram fill or an accumulator call issued by the task itself.  The
constructors carry the values passed to the call; `isMC` is the template
argument of `fillQA` and `setTriplet`. -/
inductive Fill where
  | hSECollisionBins (bin : Int)
  | hMECollisionBins (bin : Int)
  | eventHistoQA (isMC : Bool) (col : FDCollision)
  | trackHistoSelectedParts (isMC : Bool) (part : FDParticle) (mult : Int) (cent : ℚ)
  | trackHistoALLSelectedParts (isMC : Bool) (part : FDParticle) (mult : Int) (cent : ℚ)
  | hMazzachi (gen : ℚ) (rel : ℚ)
  | NumberOfTacksPassingSelection (n : Int)
  | phiVSdPhiSE (phi : ℚ) (dphi : ℚ)
  | phiVSdPhiME (phi : ℚ) (dphi : ℚ)
  | phiBelowQ3 (phi : ℚ)
  | particle_pT_in_Triplet_SE (pt1 pt2 pt3 Q3 : ℚ)
  | particle_pT_in_Triplet_ME (pt1 pt2 pt3 Q3 : ℚ)
  | sameEventContSetTriplet (isMC : Bool) (p1 p2 p3 : FDParticle) (mult : Int) (Q3 : ℚ)
  | mixedEventContSetTriplet (isMC : Bool) (p1 p2 p3 : FDParticle) (mult : Int) (Q3 : ℚ)
  | hCentrality (cent : ℚ) (Q3 : ℚ)
  | kstartkstarLargestLargest (x y : ℚ)
  | kstartkstarLargestSmallest (x y : ℚ)
  | kstartkstarLargestLargestME (x y : ℚ)
  | kstartkstarLargestSmallestME (x y : ℚ)
  | hTripletsPerEventBelow14 (n : Int)

/-- Whether a fill is a `sameEventCont.setTriplet` call. -/
def Fill.isSameEventCont : Fill → Bool
  | .sameEventContSetTriplet _ _ _ _ _ _ => true
  | _ => false

/-- Whether a fill is a `mixedEventCont.setTriplet` call. -/
def Fill.isMixedEventCont : Fill → Bool
  | .mixedEventContSetTriplet _ _ _ _ _ _ => true
  | _ => false

/-- Whether a fill belongs to the event-level bookkeeping of `fillCollision`. -/
def Fill.isEventLevel : Fill → Bool
  | .hSECollisionBins _ => true
  | .eventHistoQA _ _ => true
  | _ => false

/-! ## Particle selection -/

/-- Modelled from the spec: the expression helper `ncheckbit(node, bit)`, true
when every bit of `bit` is set in `node`. -/
def ncheckbit (node bit : Nat) : Bool := (node &&& bit) == bit

/-- The partition expression `SelectedParts` evaluated on one particle.  The
quotient `0.013f / pt` is the rational quotient, so `pt = 0` (where the
program divides by zero) is outside the faithful domain of the model. -/
def SelectedParts (ext : Collaborators) (cfg : Config) (p : FDParticle) : Bool :=
  (p.partType == kTrack) &&
  (if p.pt * (ext.nexp p.eta + ext.nexp (-1 * p.eta)) / 2 ≤ cfg.ConfPIDthrMom
    then ncheckbit p.pidcut cfg.ConfTPCPIDBit
    else ncheckbit p.pidcut cfg.ConfTPCTOFPIDBit) &&
  ncheckbit p.cut cfg.ConfCutPart &&
  decide (p.pt < cfg.ConfMaxpT) &&
  decide (p.pt > cfg.ConfMinpT) &&
  (if cfg.ConfDCACutPtDep
    then decide (|p.tempFitVar| ≤ 4 / 1000 + (13 / 1000) / p.pt)
    else decide (p.tempFitVar ≥ cfg.ConfMinDCAxy) &&
      decide (p.tempFitVar ≤ cfg.ConfMaxDCAxy))

/-- The partition expression `SelectedPartsMC` evaluated on one particle. -/
def SelectedPartsMC (ext : Collaborators) (cfg : Config) (p : FDParticle) : Bool :=
  (p.partType == kTrack) &&
  (if p.pt * (ext.nexp p.eta + ext.nexp (-1 * p.eta)) / 2 ≤ cfg.ConfPIDthrMom
    then ncheckbit p.pidcut cfg.ConfTPCPIDBit
    else ncheckbit p.pidcut cfg.ConfTPCTOFPIDBit) &&
  ncheckbit p.cut cfg.ConfCutPart &&
  decide (p.pt < cfg.ConfMaxpT) &&
  decide (p.pt > cfg.ConfMinpT) &&
  (if cfg.ConfDCACutPtDep
    then decide (|p.tempFitVar| ≤ 4 / 1000 + (13 / 1000) / p.pt)
    else decide (p.tempFitVar ≥ cfg.ConfMinDCAxy) &&
      decide (p.tempFitVar ≤ cfg.ConfMaxDCAxy))

/-- Modelled from the spec: `partition->sliceByCached(fdCollisionId, id, cache)`,
the rows of the partition that belong to collision `id`, in table order. -/
def sliceByCached (sel : FDParticle → Bool) (parts : List FDParticle) (id : Int) :
    List FDParticle :=
  (parts.filter sel).filter (fun p => p.fdCollisionId == id)

/-! ## Combination iterators -/

/-- All pairs of a list taken at strictly increasing positions. -/
def strictlyUpperPairs {α : Type} : List α → List (α × α)
  | [] => []
  | x :: xs => xs.map (fun y => (x, y)) ++ strictlyUpperPairs xs

/-- Modelled from the spec: `combinations(CombinationsStrictlyUpperIndexPolicy(t, t, t))`,
the triples of rows of one table taken at strictly increasing positions
("strict index ordering, no repeats, no permutations"), in lexicographic
order of the positions. -/
def combinationsStrictlyUpperIndex {α : Type} : List α → List (α × α × α)
  | [] => []
  | x :: xs =>
    (strictlyUpperPairs xs).map (fun yz => (x, yz.1, yz.2)) ++
      combinationsStrictlyUpperIndex xs

/-- Modelled from the spec: `combinations(CombinationsFullIndexPolicy(t1, t2, t3))`,
the full Cartesian product of three tables ("every particle-1 × particle-2 ×
particle-3 combination"), in lexicographic order of the positions. -/
def combinationsFullIndex {α : Type} (t1 t2 t3 : List α) : List (α × α × α) :=
  t1.flatMap fun a => t2.flatMap fun b => t3.map fun c => (a, b, c)

/-! ## Same-event processing -/

/-- The state carried through the triplet loop of `doSameEvent`: the fills
issued so far and the local counter `numberOfTriplets`. -/
structure LoopState where
  fills : List Fill
  numberOfTriplets : Int

/-- The array `tempkij` after `std::sort(tempkij, tempkij + 3)`. -/
def sortedKij (k12 k13 k23 : ℚ) : List ℚ :=
  List.insertionSort (fun a b => a ≤ b) [k12, k13, k23]

/-- The member function `fillCollision<isMC>(col)`. -/
def fillCollision (ext : Collaborators) (isMC : Bool) (col : FDCollision)
    (fills : List Fill) : List Fill :=
  fills ++ [Fill.hSECollisionBins (ext.getBin col.posZ col.multNtr),
    Fill.eventHistoQA isMC col]

/-- One pass through the body of the triplet loop of `doSameEvent`; a
`continue` returns the state unchanged. -/
def sameEventTriplet (ext : Collaborators) (task : Task) (isMC : Bool)
    (parts : List FDParticle) (magFieldTesla : ℚ) (multCol : Int) (centCol : ℚ)
    (st : LoopState) (t : FDParticle × FDParticle × FDParticle) : LoopState :=
  let p1 := t.1
  let p2 := t.2.1
  let p3 := t.2.2
  let Q3 := ext.getQ3 p1 task.mMassOne p2 task.mMassTwo p3 task.mMassThree
  if task.cfg.ConfIsCPR && ext.isClosePairSE p1 p2 parts magFieldTesla Q3 then st
  else if task.cfg.ConfIsCPR && ext.isClosePairSE p2 p3 parts magFieldTesla Q3 then st
  else if task.cfg.ConfIsCPR && ext.isClosePairSE p1 p3 parts magFieldTesla Q3 then st
  else if !ext.isCleanPair p1 p2 parts then st
  else if !ext.isCleanPair p2 p3 parts then st
  else if !ext.isCleanPair p1 p3 parts then st
  else
    let tempkij := sortedKij (ext.getkstar p1 task.mMassOne p2 task.mMassTwo)
      (ext.getkstar p1 task.mMassOne p3 task.mMassThree)
      (ext.getkstar p2 task.mMassTwo p3 task.mMassThree)
    { fills := st.fills ++
        [Fill.phiVSdPhiSE p1.phi (p1.phi - p2.phi),
         Fill.phiVSdPhiSE p2.phi (p2.phi - p3.phi),
         Fill.phiVSdPhiSE p3.phi (p3.phi - p1.phi)] ++
        (if Q3 < 8 / 10 then
          [Fill.phiBelowQ3 p1.phi, Fill.phiBelowQ3 p2.phi, Fill.phiBelowQ3 p3.phi]
         else []) ++
        [Fill.particle_pT_in_Triplet_SE p1.pt p2.pt p3.pt Q3,
         Fill.sameEventContSetTriplet isMC p1 p2 p3 multCol Q3,
         Fill.hCentrality centCol Q3] ++
        (if Q3 < task.cfg.ConfMaxQ3ForkStarPlots then
          [Fill.kstartkstarLargestLargest (tempkij.getD 1 0) (tempkij.getD 2 0),
           Fill.kstartkstarLargestSmallest (tempkij.getD 0 0) (tempkij.getD 2 0)]
         else []),
      numberOfTriplets :=
        if Q3 < 14 / 10 then st.numberOfTriplets + 1 else st.numberOfTriplets }

/-- The member function `doSameEvent<isMC>`: the fills it appends to `fills`. -/
def doSameEvent (ext : Collaborators) (task : Task) (isMC : Bool)
    (groupSelectedParts parts : List FDParticle) (magFieldTesla : ℚ) (multCol : Int)
    (centCol : ℚ) (fills : List Fill) : List Fill :=
  let numberOfTracksPassingSelection : Int := groupSelectedParts.length
  let fills1 := fills ++
    groupSelectedParts.map (fun part => Fill.trackHistoSelectedParts isMC part multCol centCol)
  let fills2 := fills1 ++ [Fill.NumberOfTacksPassingSelection numberOfTracksPassingSelection]
  let st := (combinationsStrictlyUpperIndex groupSelectedParts).foldl
    (sameEventTriplet ext task isMC parts magFieldTesla multCol centCol) ⟨fills2, 0⟩
  st.fills ++ [Fill.hTripletsPerEventBelow14 st.numberOfTriplets]

/-- The process function `processSameEvent`; `table` is the particle table the
partition `SelectedParts` is bound to, `parts` the table passed to the
function. -/
def processSameEvent (ext : Collaborators) (task : Task) (col : FDCollision)
    (table parts : List FDParticle) (fills : List Fill) : List Fill :=
  let fills1 := fillCollision ext false col fills
  let thegroupSelectedParts := sliceByCached (SelectedParts ext task.cfg) table col.globalIndex
  let fills2 := fills1 ++ thegroupSelectedParts.map
    (fun part => Fill.trackHistoALLSelectedParts false part col.multNtr col.multV0M)
  if thegroupSelectedParts.length < 3 then fills2
  else doSameEvent ext task false thegroupSelectedParts parts col.magField col.multNtr
    col.multV0M fills2

/-- The process function `processSameEventMasked`. -/
def processSameEventMasked (ext : Collaborators) (task : Task) (col : FDCollision)
    (table parts : List FDParticle) (fills : List Fill) : List Fill :=
  let fills1 := fillCollision ext false col fills
  let thegroupSelectedParts := sliceByCached (SelectedParts ext task.cfg) table col.globalIndex
  let fills2 := fills1 ++ thegroupSelectedParts.map
    (fun part => Fill.trackHistoALLSelectedParts false part col.multNtr col.multV0M)
  if thegroupSelectedParts.length < 3 then fills2
  else doSameEvent ext task false thegroupSelectedParts parts col.magField col.multNtr
    col.multV0M fills2

/-- The process function `processSameEventMC`. -/
def processSameEventMC (ext : Collaborators) (task : Task) (col : FDCollision)
    (table parts : List FDParticle) (fills : List Fill) : List Fill :=
  let fills1 := fillCollision ext false col fills
  let thegroupSelectedParts := sliceByCached (SelectedPartsMC ext task.cfg) table col.globalIndex
  let fills2 := fills1 ++ thegroupSelectedParts.flatMap
    (fun part => [Fill.trackHistoALLSelectedParts true part col.multNtr col.multV0M,
      Fill.hMazzachi part.mcPt ((part.pt - part.mcPt) / part.mcPt)])
  if thegroupSelectedParts.length < 3 then fills2
  else doSameEvent ext task true thegroupSelectedParts parts col.magField col.multNtr
    col.multV0M fills2

/-- The process function `processSameEventMCMasked`. -/
def processSameEventMCMasked (ext : Collaborators) (task : Task) (col : FDCollision)
    (table parts : List FDParticle) (fills : List Fill) : List Fill :=
  let fills1 := fillCollision ext false col fills
  let thegroupSelectedParts := sliceByCached (SelectedPartsMC ext task.cfg) table col.globalIndex
  let fills2 := fills1 ++ thegroupSelectedParts.flatMap
    (fun part => [Fill.trackHistoALLSelectedParts true part col.multNtr col.multV0M,
      Fill.hMazzachi part.mcPt ((part.pt - part.mcPt) / part.mcPt)])
  if thegroupSelectedParts.length < 3 then fills2
  else doSameEvent ext task true thegroupSelectedParts parts col.magField col.multNtr
    col.multV0M fills2

/-! ## Mixed-event processing -/

/-- One pass through the body of the triplet loop of `doMixedEvent`. -/
def mixedEventTriplet (ext : Collaborators) (task : Task) (isMC : Bool)
    (parts : List FDParticle) (magFieldTesla : ℚ) (multCol : Int)
    (fills : List Fill) (t : FDParticle × FDParticle × FDParticle) : List Fill :=
  let p1 := t.1
  let p2 := t.2.1
  let p3 := t.2.2
  let Q3 := ext.getQ3 p1 task.mMassOne p2 task.mMassTwo p3 task.mMassThree
  if task.cfg.ConfIsCPR && ext.isClosePairME p1 p2 parts magFieldTesla Q3 then fills
  else if task.cfg.ConfIsCPR && ext.isClosePairME p2 p3 parts magFieldTesla Q3 then fills
  else if task.cfg.ConfIsCPR && ext.isClosePairME p1 p3 parts magFieldTesla Q3 then fills
  else
    let tempkij := sortedKij (ext.getkstar p1 task.mMassOne p2 task.mMassTwo)
      (ext.getkstar p1 task.mMassOne p3 task.mMassThree)
      (ext.getkstar p2 task.mMassTwo p3 task.mMassThree)
    fills ++
      [Fill.particle_pT_in_Triplet_ME p1.pt p2.pt p3.pt Q3,
       Fill.phiVSdPhiME p1.phi (p1.phi - p2.phi),
       Fill.phiVSdPhiME p2.phi (p2.phi - p3.phi),
       Fill.phiVSdPhiME p3.phi (p3.phi - p1.phi)] ++
      (if Q3 < task.cfg.ConfMaxQ3ForkStarPlots then
        [Fill.kstartkstarLargestLargestME (tempkij.getD 1 0) (tempkij.getD 2 0),
         Fill.kstartkstarLargestSmallestME (tempkij.getD 0 0) (tempkij.getD 2 0)]
       else []) ++
      [Fill.mixedEventContSetTriplet isMC p1 p2 p3 multCol Q3]

/-- The member function `doMixedEvent<isMC>`: the fills it appends to `fills`. -/
def doMixedEvent (ext : Collaborators) (task : Task) (isMC : Bool)
    (groupPartsOne groupPartsTwo groupPartsThree parts : List FDParticle)
    (magFieldTesla : ℚ) (multCol : Int) (fills : List Fill) : List Fill :=
  (combinationsFullIndex groupPartsOne groupPartsTwo groupPartsThree).foldl
    (mixedEventTriplet ext task isMC parts magFieldTesla multCol) fills

/-- The body of the collision-triple loop, which the four mixed-event process
functions share word for word up to the partition (`sel`) and the template
argument `isMC`. -/
def mixedEventCollisionTriple (ext : Collaborators) (task : Task) (isMC : Bool)
    (sel : FDParticle → Bool) (table parts : List FDParticle) (fills : List Fill)
    (c : FDCollision × FDCollision × FDCollision) : List Fill :=
  let collision1 := c.1
  let collision2 := c.2.1
  let collision3 := c.2.2
  let multiplicityCol := collision1.multNtr
  let fills1 := fills ++
    [Fill.hMECollisionBins (ext.getBin collision1.posZ multiplicityCol)]
  let groupPartsOne := sliceByCached sel table collision1.globalIndex
  let groupPartsTwo := sliceByCached sel table collision2.globalIndex
  let groupPartsThree := sliceByCached sel table collision3.globalIndex
  let magFieldTesla1 := collision1.magField
  let magFieldTesla2 := collision2.magField
  let magFieldTesla3 := collision3.magField
  if magFieldTesla1 ≠ magFieldTesla2 ∨ magFieldTesla2 ≠ magFieldTesla3 ∨
      magFieldTesla1 ≠ magFieldTesla3 then fills1
  else doMixedEvent ext task isMC groupPartsOne groupPartsTwo groupPartsThree parts
    magFieldTesla1 multiplicityCol fills1

/-- The partition expression `PartitionMaskedCol1` evaluated on one collision. -/
def PartitionMaskedCol1 (task : Task) (col : FDCollision) : Bool :=
  (decide (task.cfg.ConfTracksInMixedEvent = 1) &&
      (col.bitmaskTrackOne &&& task.MaskBit) == task.MaskBit) ||
  (decide (task.cfg.ConfTracksInMixedEvent = 2) &&
      (col.bitmaskTrackTwo &&& task.MaskBit) == task.MaskBit) ||
  (decide (task.cfg.ConfTracksInMixedEvent = 3) &&
      (col.bitmaskTrackThree &&& task.MaskBit) == task.MaskBit)

/-- The process function `processMixedEvent`. -/
def processMixedEvent (ext : Collaborators) (task : Task) (cols : List FDCollision)
    (table parts : List FDParticle) (fills : List Fill) : List Fill :=
  (ext.selfCombinations task.cfg.ConfNEventsMix cols).foldl
    (mixedEventCollisionTriple ext task false (SelectedParts ext task.cfg) table parts) fills

/-- The process function `processMixedEventMasked`. -/
def processMixedEventMasked (ext : Collaborators) (task : Task) (cols : List FDCollision)
    (table parts : List FDParticle) (fills : List Fill) : List Fill :=
  (ext.selfCombinations task.cfg.ConfNEventsMix (cols.filter (PartitionMaskedCol1 task))).foldl
    (mixedEventCollisionTriple ext task false (SelectedParts ext task.cfg) table parts) fills

/-- The process function `processMixedEventMC`. -/
def processMixedEventMC (ext : Collaborators) (task : Task) (cols : List FDCollision)
    (table parts : List FDParticle) (fills : List Fill) : List Fill :=
  (ext.selfCombinations task.cfg.ConfNEventsMix cols).foldl
    (mixedEventCollisionTriple ext task true (SelectedPartsMC ext task.cfg) table parts) fills

/-- The process function `processMixedEventMCMasked`. -/
def processMixedEventMCMasked (ext : Collaborators) (task : Task) (cols : List FDCollision)
    (table parts : List FDParticle) (fills : List Fill) : List Fill :=
  (ext.selfCombinations task.cfg.ConfNEventsMix (cols.filter (PartitionMaskedCol1 task))).foldl
    (mixedEventCollisionTriple ext task true (SelectedPartsMC ext task.cfg) table parts) fills

/-! ## Initialisation -/

/-- The ways in which `init` ends without returning. -/
inductive InitFailure where
  /-- The call `mask.set(index)` with `index` beyond the width of the bitset. -/
  | maskIndexOutOfRange
  /-- A message logged with `LOG(fatal)`. -/
  | fatal (msg : String)
deriving DecidableEq

/-- The test `device.name.find("femto-dream-triplet-task-track-track-track") != npos`. -/
def deviceNameMatches (device : DeviceSpec) : Bool :=
  decide ("femto-dream-triplet-task-track-track-track".toList <:+: device.name.toList)

/-- The conjunction of the eight `containsNameValuePair` tests of `init`. -/
def deviceOptionsMatch (ext : Collaborators) (cfg : Config) (device : DeviceSpec) : Bool :=
  ext.containsNameValuePair device.options "ConfCutPart" cfg.ConfCutPart &&
  ext.containsNameValuePair device.options "ConfTPCPIDBit" cfg.ConfTPCPIDBit &&
  ext.containsNameValuePair device.options "ConfTPCTOFPIDBit" cfg.ConfTPCTOFPIDBit &&
  ext.containsNameValuePair device.options "ConfPIDthrMom" cfg.ConfPIDthrMom &&
  ext.containsNameValuePair device.options "ConfMaxpT" cfg.ConfMaxpT &&
  ext.containsNameValuePair device.options "ConfMinpT" cfg.ConfMinpT &&
  ext.containsNameValuePair device.options "ConfMaxDCAxy" cfg.ConfMaxDCAxy &&
  ext.containsNameValuePair device.options "ConfMinDCAxy" cfg.ConfMinDCAxy

/-- The device loop of `init`: the value of `index` at the `break`, or `none`
when the loop ends without a match. -/
def findMaskIndex (ext : Collaborators) (cfg : Config) : List DeviceSpec → Nat → Option Nat
  | [], _ => none
  | device :: devices, index =>
    if deviceNameMatches device then
      if deviceOptionsMatch ext cfg device then some index
      else findMaskIndex ext cfg devices (index + 1)
    else findMaskIndex ext cfg devices index

/-- The condition of the last `if` of `init`. -/
def processSwitchConflict (cfg : Config) : Bool :=
  (cfg.doprocessSameEvent && cfg.doprocessSameEventMasked) ||
  (cfg.doprocessMixedEvent && cfg.doprocessMixedEventMasked) ||
  (cfg.doprocessSameEventMC && cfg.doprocessSameEventMCMasked) ||
  (cfg.doprocessMixedEventMC && cfg.doprocessMixedEventMCMasked)

/-- The last statement of `init`: the configuration-conflict check. -/
def checkProcessSwitches (cfg : Config) : Except InitFailure Unit :=
  if processSwitchConflict cfg then
    throw (InitFailure.fatal "Normal and masked processing cannot be activated simultaneously!")
  else pure ()

/-- The member function `init`, restricted to the data members it sets (the
histogram registrations fill nothing).  `MaskBit` starts as `-1`, all bits
set. -/
def init (ext : Collaborators) (cfg : Config) (devices : List DeviceSpec) :
    Except InitFailure Task := do
  let mMassOne := ext.pdgMass cfg.ConfPDGCodePart
  let mMassTwo := ext.pdgMass cfg.ConfPDGCodePart
  let mMassThree := ext.pdgMass cfg.ConfPDGCodePart
  let MaskBit ← match findMaskIndex ext cfg devices 0 with
    | none => pure (2 ^ ext.bitMaskWidth - 1)
    | some index =>
      if index < ext.bitMaskWidth then pure (2 ^ index)
      else throw InitFailure.maskIndexOutOfRange
  checkProcessSwitches cfg
  pure ⟨cfg, MaskBit, mMassOne, mMassTwo, mMassThree⟩

/-- The collision filter `EventSphericity`. -/
def EventSphericity (cfg : Config) (col : FDCollision) : Bool :=
  decide (col.sphericity ≥ cfg.confSphericityMin) &&
  decide (col.sphericity ≤ cfg.confSphericityMax)

/-- One data frame: its collision table and its particle table. -/
structure DataFrame where
  cols : List FDCollision
  table : List FDParticle

/-- Modelled from the spec: the framework hands one data frame to every
enabled process function ("independently toggleable processing entry
points"), the same-event functions once per filtered collision with the
particles grouped to that collision, the mixed-event functions once with the
filtered collision table. -/
def processDataFrame (ext : Collaborators) (task : Task) (fills : List Fill)
    (df : DataFrame) : List Fill :=
  let cols := df.cols.filter (EventSphericity task.cfg)
  let grouped := fun (col : FDCollision) =>
    df.table.filter (fun p => p.fdCollisionId == col.globalIndex)
  let perCollision := fun (enabled : Bool)
      (process : FDCollision → List FDParticle → List FDParticle → List Fill → List Fill)
      (fs : List Fill) =>
    if enabled then cols.foldl (fun acc col => process col df.table (grouped col) acc) fs else fs
  let perFrame := fun (enabled : Bool)
      (process : List FDCollision → List FDParticle → List FDParticle → List Fill → List Fill)
      (fs : List Fill) =>
    if enabled then process cols df.table df.table fs else fs
  fills
    |> perCollision task.cfg.doprocessSameEvent (processSameEvent ext task)
    |> perCollision task.cfg.doprocessSameEventMasked (processSameEventMasked ext task)
    |> perCollision task.cfg.doprocessSameEventMC (processSameEventMC ext task)
    |> perCollision task.cfg.doprocessSameEventMCMasked (processSameEventMCMasked ext task)
    |> perFrame task.cfg.doprocessMixedEvent (processMixedEvent ext task)
    |> perFrame task.cfg.doprocessMixedEventMasked (processMixedEventMasked ext task)
    |> perFrame task.cfg.doprocessMixedEventMC (processMixedEventMC ext task)
    |> perFrame task.cfg.doprocessMixedEventMCMasked (processMixedEventMCMasked ext task)

/-- Modelled from the spec: one run of the task.  `init` runs first; a failure
of `init` ends the run "before any event is processed", otherwise the data
frames are processed in order. -/
def runTask (ext : Collaborators) (cfg : Config) (devices : List DeviceSpec)
    (frames : List DataFrame) : Except InitFailure (List Fill) :=
  match init ext cfg devices with
  | .error e => .error e
  | .ok task => .ok (frames.foldl (processDataFrame ext task) [])

/-! ## Derived notions used in the statements and proofs -/

/-- The fills that one pass of the triplet loop of `doSameEvent` issues when no
`continue` is taken. -/
def sameEventAcceptedFills (ext : Collaborators) (task : Task) (isMC : Bool)
    (multCol : Int) (centCol : ℚ) (p1 p2 p3 : FDParticle) : List Fill :=
  let Q3 := ext.getQ3 p1 task.mMassOne p2 task.mMassTwo p3 task.mMassThree
  let tempkij := sortedKij (ext.getkstar p1 task.mMassOne p2 task.mMassTwo)
    (ext.getkstar p1 task.mMassOne p3 task.mMassThree)
    (ext.getkstar p2 task.mMassTwo p3 task.mMassThree)
  [Fill.phiVSdPhiSE p1.phi (p1.phi - p2.phi),
   Fill.phiVSdPhiSE p2.phi (p2.phi - p3.phi),
   Fill.phiVSdPhiSE p3.phi (p3.phi - p1.phi)] ++
  ((if Q3 < 8 / 10 then
    [Fill.phiBelowQ3 p1.phi, Fill.phiBelowQ3 p2.phi, Fill.phiBelowQ3 p3.phi]
   else []) ++
  ([Fill.particle_pT_in_Triplet_SE p1.pt p2.pt p3.pt Q3,
    Fill.sameEventContSetTriplet isMC p1 p2 p3 multCol Q3,
    Fill.hCentrality centCol Q3] ++
  (if Q3 < task.cfg.ConfMaxQ3ForkStarPlots then
    [Fill.kstartkstarLargestLargest (tempkij.getD 1 0) (tempkij.getD 2 0),
     Fill.kstartkstarLargestSmallest (tempkij.getD 0 0) (tempkij.getD 2 0)]
   else [])))

/-- The fills that one pass of the triplet loop of `doMixedEvent` issues when
no `continue` is taken. -/
def mixedEventAcceptedFills (ext : Collaborators) (task : Task) (isMC : Bool)
    (multCol : Int) (p1 p2 p3 : FDParticle) : List Fill :=
  let Q3 := ext.getQ3 p1 task.mMassOne p2 task.mMassTwo p3 task.mMassThree
  let tempkij := sortedKij (ext.getkstar p1 task.mMassOne p2 task.mMassTwo)
    (ext.getkstar p1 task.mMassOne p3 task.mMassThree)
    (ext.getkstar p2 task.mMassTwo p3 task.mMassThree)
  [Fill.particle_pT_in_Triplet_ME p1.pt p2.pt p3.pt Q3,
   Fill.phiVSdPhiME p1.phi (p1.phi - p2.phi),
   Fill.phiVSdPhiME p2.phi (p2.phi - p3.phi),
   Fill.phiVSdPhiME p3.phi (p3.phi - p1.phi)] ++
  ((if Q3 < task.cfg.ConfMaxQ3ForkStarPlots then
    [Fill.kstartkstarLargestLargestME (tempkij.getD 1 0) (tempkij.getD 2 0),
     Fill.kstartkstarLargestSmallestME (tempkij.getD 0 0) (tempkij.getD 2 0)]
   else []) ++
  [Fill.mixedEventContSetTriplet isMC p1 p2 p3 multCol Q3])

/-- Whether the close-pair rejection of a triplet loop takes a `continue`,
given the engine `close` (`isClosePairSE` or `isClosePairME` of the
collaborators). -/
def closePairRejected (close : FDParticle → FDParticle → List FDParticle → ℚ → ℚ → Bool)
    (task : Task) (parts : List FDParticle) (magFieldTesla Q3 : ℚ)
    (p1 p2 p3 : FDParticle) : Bool :=
  task.cfg.ConfIsCPR &&
    (close p1 p2 parts magFieldTesla Q3 || close p2 p3 parts magFieldTesla Q3 ||
      close p1 p3 parts magFieldTesla Q3)

/-- Whether the track cleaning of `doSameEvent` passes for all three pairs. -/
def cleanTriplet (ext : Collaborators) (parts : List FDParticle)
    (p1 p2 p3 : FDParticle) : Bool :=
  ext.isCleanPair p1 p2 parts && ext.isCleanPair p2 p3 parts && ext.isCleanPair p1 p3 parts

/-- Every cut of `SelectedParts` except the two cuts on pT: the type tag, the
PID pattern of the momentum regime, the cut mask and the DCA criterion. -/
def otherCuts (ext : Collaborators) (cfg : Config) (p : FDParticle) : Bool :=
  (p.partType == kTrack) &&
  (if p.pt * (ext.nexp p.eta + ext.nexp (-1 * p.eta)) / 2 ≤ cfg.ConfPIDthrMom
    then ncheckbit p.pidcut cfg.ConfTPCPIDBit
    else ncheckbit p.pidcut cfg.ConfTPCTOFPIDBit) &&
  ncheckbit p.cut cfg.ConfCutPart &&
  (if cfg.ConfDCACutPtDep
    then decide (|p.tempFitVar| ≤ 4 / 1000 + (13 / 1000) / p.pt)
    else decide (p.tempFitVar ≥ cfg.ConfMinDCAxy) &&
      decide (p.tempFitVar ≤ cfg.ConfMaxDCAxy))

/-- The condition under which the configuration-conflict check of `init`
reports: one of the four pairs of process switches has both switches on. -/
def bothSwitchesOn (cfg : Config) : Prop :=
  (cfg.doprocessSameEvent = true ∧ cfg.doprocessSameEventMasked = true) ∨
  (cfg.doprocessMixedEvent = true ∧ cfg.doprocessMixedEventMasked = true) ∨
  (cfg.doprocessSameEventMC = true ∧ cfg.doprocessSameEventMCMasked = true) ∨
  (cfg.doprocessMixedEventMC = true ∧ cfg.doprocessMixedEventMCMasked = true)

/-! ## Concrete inputs -/

/-- A concrete set of collaborators: constant kinematics, no close pairs, a
cleaner that rejects identical rows, and an event mixer that yields the
collision triples at strictly increasing positions. -/
def demoExt : Collaborators where
  nexp := fun _ => 1
  getQ3 := fun _ _ _ _ _ _ => 35 / 100
  getkstar := fun _ _ _ _ => 2 / 10
  isClosePairSE := fun _ _ _ _ _ => false
  isClosePairME := fun _ _ _ _ _ => false
  isCleanPair := fun p1 p2 _ => !decide (p1 = p2)
  getBin := fun _ _ => 0
  pdgMass := fun _ => 938 / 1000
  selfCombinations := fun _ cols => combinationsStrictlyUpperIndex cols
  containsNameValuePair := fun _ _ _ => false
  bitMaskWidth := 32

/-- The configuration of the worked selector example: the defaults with the
DCA window [-0.1, 0.1]. -/
def demoCfg : Config := { ConfMinDCAxy := -1 / 10, ConfMaxDCAxy := 1 / 10 }

/-- A task state as `init` leaves it for `demoCfg` when no device matches. -/
def demoTask : Task := ⟨demoCfg, 2 ^ 32 - 1, 938 / 1000, 938 / 1000, 938 / 1000⟩

/-- A particle of collision `col` at table row `row` that passes `demoCfg`:
pT = 0.5, DCA = 0.05, cut mask equal to `ConfCutPart`, both PID patterns set. -/
def demoParticle (row col : Int) : FDParticle :=
  ⟨row, col, 1 / 2, 0, 0, kTrack, 5542474, 24, 5 / 100, 1 / 2⟩

/-- A collision with index `id` and magnetic field `magField`. -/
def demoCollision (id : Int) (magField : ℚ) : FDCollision :=
  ⟨id, 0, 10, 50, magField, 8 / 10, 0, 0, 0⟩

/-! ## Further derived notions and concrete inputs -/

/-- Whether a fill goes to `hTripletsPerEventBelow14`. -/
def Fill.isTripletsPerEventBelow14 : Fill → Bool
  | .hTripletsPerEventBelow14 _ => true
  | _ => false

/-- Whether a fill goes to `kstartkstarLargestLargest`. -/
def Fill.isKstarLargestLargest : Fill → Bool
  | .kstartkstarLargestLargest _ _ => true
  | _ => false

/-- Whether a fill goes to `kstartkstarLargestSmallest`. -/
def Fill.isKstarLargestSmallest : Fill → Bool
  | .kstartkstarLargestSmallest _ _ => true
  | _ => false

/-- Whether one pass of the triplet loop of `doSameEvent` reaches its fills:
no `continue` of the close-pair rejection and none of the track cleaning. -/
def sameEventAccepted (ext : Collaborators) (task : Task) (parts : List FDParticle)
    (magFieldTesla : ℚ) (t : FDParticle × FDParticle × FDParticle) : Bool :=
  !closePairRejected ext.isClosePairSE task parts magFieldTesla
      (ext.getQ3 t.1 task.mMassOne t.2.1 task.mMassTwo t.2.2 task.mMassThree) t.1 t.2.1 t.2.2 &&
    cleanTriplet ext parts t.1 t.2.1 t.2.2

/-- The demo particle moved onto the PID threshold: with `demoExt` its momentum
estimate is pT = 1 = ConfPIDthrMom, and only the TPC pattern (16) is set. -/
def thresholdParticle : FDParticle := { demoParticle 0 0 with pt := 1, pidcut := 16 }

/-- The demo task with close-pair rejection switched off. -/
def demoTaskNoCPR : Task :=
  ⟨{ demoCfg with ConfIsCPR := false }, 2 ^ 32 - 1, 938 / 1000, 938 / 1000, 938 / 1000⟩

/-- The collision bitmask for `k` particles of interest: `bitmaskTrackOne`,
`bitmaskTrackTwo` or `bitmaskTrackThree` for k = 1, 2, 3. -/
def bitmaskTrack (col : FDCollision) (k : Nat) : Nat :=
  if k = 1 then col.bitmaskTrackOne
  else if k = 2 then col.bitmaskTrackTwo
  else col.bitmaskTrackThree

/-- Modelled from the spec: the configuration mode `radiiMode` of the close-pair
rejection engine, "radiiMode ∈ (atVertex, averaged, atGivenRadii)". -/
inductive RadiiMode where
  | atVertex
  | averaged
  | atGivenRadii
deriving DecidableEq

/-- Modelled from the spec: a place where the two trajectories are compared,
"a configured set of radial positions inside the tracking detector (or a
single fixed reference: PV, or an eta/phi-averaged proxy)". -/
inductive EvalPoint where
  | primaryVertex
  | averagedProxy
  | radius (r : ℚ)

/-- Modelled from the spec: the close-pair rejection engine
(`FemtoDreamDetaDphiStar`, defined outside the translated file): its
configured mode, radii and thresholds, the flag choosing the legacy or the
corrected formula, and the propagation of one trajectory in a magnetic field
to an evaluation point, which gives the pseudorapidity and, by either
formula, the curvature-corrected azimuth of that trajectory. -/
structure DetaDphiStar where
  radiiMode : RadiiMode
  radii : List ℚ
  deltaPhiMax : ℚ
  deltaEtaMax : ℚ
  useLegacyFormula : Bool
  etaAt : FDParticle → ℚ → EvalPoint → ℚ
  phiStarLegacy : FDParticle → ℚ → EvalPoint → ℚ
  phiStarCorrected : FDParticle → ℚ → EvalPoint → ℚ

/-- Modelled from the spec: the places evaluated in the configured mode. -/
def DetaDphiStar.evalPoints (e : DetaDphiStar) : List EvalPoint :=
  match e.radiiMode with
  | .atVertex => [EvalPoint.primaryVertex]
  | .averaged => [EvalPoint.averagedProxy]
  | .atGivenRadii => e.radii.map EvalPoint.radius

/-- Modelled from the spec: the curvature-corrected azimuth by the formula
"chosen by a configuration flag". -/
def DetaDphiStar.phiStar (e : DetaDphiStar) (p : FDParticle) (magField : ℚ)
    (x : EvalPoint) : ℚ :=
  if e.useLegacyFormula then e.phiStarLegacy p magField x else e.phiStarCorrected p magField x

/-- Modelled from the spec: `isClosePair(p1, p2, particlePool, magneticField, Q3)`:
"propagate both particle trajectories using the supplied magnetic field to
estimate Δη and Δφ* between them; if both |Δη| and |Δφ*| fall below configured
thresholds at any evaluated radius (or the single evaluated point, depending
on mode), the pair is flagged close and the call returns true".  The
diagnostic histograms, the only use of `Q3`, are not modelled. -/
def DetaDphiStar.isClosePair (e : DetaDphiStar) (p1 p2 : FDParticle)
    (_parts : List FDParticle) (magField _Q3 : ℚ) : Bool :=
  e.evalPoints.any fun x =>
    decide (|e.etaAt p1 magField x - e.etaAt p2 magField x| < e.deltaEtaMax) &&
    decide (|e.phiStar p1 magField x - e.phiStar p2 magField x| < e.deltaPhiMax)

/-! ## Notions for the sorted k* diagnostics -/

/-- Whether a fill goes to `kstartkstarLargestLargestME`. -/
def Fill.isKstarLargestLargestME : Fill → Bool
  | .kstartkstarLargestLargestME _ _ => true
  | _ => false

/-- Whether a fill goes to `kstartkstarLargestSmallestME`. -/
def Fill.isKstarLargestSmallestME : Fill → Bool
  | .kstartkstarLargestSmallestME _ _ => true
  | _ => false

/-- The smallest of three values. -/
def minimumKij (a b c : ℚ) : ℚ := min a (min b c)

/-- The largest of three values. -/
def maximumKij (a b c : ℚ) : ℚ := max a (max b c)

/-- The median of three values. -/
def medianKij (a b c : ℚ) : ℚ := max (min a b) (min (max a b) c)

/-- Whether one pass of the triplet loop of `doMixedEvent` reaches its fills:
no `continue` of the close-pair rejection. -/
def mixedEventAccepted (ext : Collaborators) (task : Task) (parts : List FDParticle)
    (magFieldTesla : ℚ) (t : FDParticle × FDParticle × FDParticle) : Bool :=
  !closePairRejected ext.isClosePairME task parts magFieldTesla
      (ext.getQ3 t.1 task.mMassOne t.2.1 task.mMassTwo t.2.2 task.mMassThree) t.1 t.2.1 t.2.2

end FemtoDream

/-! ## utilsMcGen.h: matching of generated B+ decays -/

namespace hf_mc_gen

/-- One row of the generated-particle table, reduced to the column that
`fillMcMatchGenBplus` reads. -/
structure McParticle where
  pdgCode : Int
deriving DecidableEq

/-- What one call of `RecoDecay::isMatchedMCGen` leaves behind: the value it
returns and the contents of its output arguments `sign` and
`listIndexDaughters`. -/
structure MatchResult where
  matched : Bool
  sign : Int
  listIndexDaughters : List Int

/-- The constants and the helper that `fillMcMatchGenBplus` uses and that are
declared outside the translated file.  `isMatchedMCGen mcParticles candidate
pdgParticle arrPdgDaughters acceptAntiParticles depthMax` stands for the call
of `RecoDecay::isMatchedMCGen`; its value is a truth value, as the translated
file assigns it to `bool matched` and tests it in `if`. -/
structure Environment where
  kBPlus : Int
  kD0 : Int
  kPiPlus : Int
  kKPlus : Int
  BplusToD0Pi : Nat
  isMatchedMCGen : List McParticle → McParticle → Int → List Int → Bool → Int → MatchResult

/-- The conversion of an `int` to `int8_t`. -/
def toInt8 (x : Int) : Int := (x + 128) % 256 - 128

/-- The access `mcParticles.rawIteratorAt(i)`; an index outside the table has
no defined result. -/
def rawIteratorAt (mcParticles : List McParticle) (i : Int) : Option McParticle :=
  if 0 ≤ i then mcParticles[i.toNat]? else none

/-- The loop over `arrayDaughterB` of `fillMcMatchGenBplus`: the value of
`indexGenD0` after the loop, started with the value `indexGenD0`.  The
assignment converts the truth value of the call to `int`. -/
def daughterLoop (env : Environment) (mcParticles : List McParticle) :
    List Int → Int → Option Int
  | [], indexGenD0 => some indexGenD0
  | iD :: rest, indexGenD0 =>
    match rawIteratorAt mcParticles iD with
    | none => none
    | some candDaughterMC =>
      if |candDaughterMC.pdgCode| = env.kD0 then
        daughterLoop env mcParticles rest
          (if (env.isMatchedMCGen mcParticles candDaughterMC env.kD0
              [-env.kKPlus, env.kPiPlus] true 1).matched then 1 else 0)
      else daughterLoop env mcParticles rest indexGenD0

/-- The body of the particle loop of `fillMcMatchGenBplus`: the row
(flag, origin) written for `particle`. -/
def matchGenBplus (env : Environment) (mcParticles : List McParticle)
    (particle : McParticle) : Option (Int × Int) :=
  let origin : Int := 0
  let resultB := env.isMatchedMCGen mcParticles particle env.kBPlus
    [-env.kD0, env.kPiPlus] true 1
  if resultB.matched then
    match daughterLoop env mcParticles resultB.listIndexDaughters (-1) with
    | none => none
    | some indexGenD0 =>
      if indexGenD0 > -1 then
        some (toInt8 (resultB.sign * 2 ^ env.BplusToD0Pi), origin)
      else some (0, origin)
  else some (0, origin)

/-- The function `fillMcMatchGenBplus`: the rows written to `rowMcMatchGen`,
in order. -/
def fillMcMatchGenBplus (env : Environment) (mcParticles : List McParticle) :
    Option (List (Int × Int)) :=
  mcParticles.mapM (matchGenBplus env mcParticles)

/-- A generated B+ (row 0) with the daughters D0bar (row 1) and pi+ (row 2);
the D0bar has no daughters. -/
def demoParticles : List McParticle := [⟨521⟩, ⟨-421⟩, ⟨211⟩]

/-- An environment with the PDG codes of B+, D0, pi+, K+ and a matching helper
that matches the B+ of `demoParticles` as B+ -> D0bar pi+ and matches nothing
else: the D0bar is not matched as D0bar -> K+ pi-. -/
def demoEnv : Environment where
  kBPlus := 521
  kD0 := 421
  kPiPlus := 211
  kKPlus := 321
  BplusToD0Pi := 0
  isMatchedMCGen := fun _ candidate pdgParticle _ _ _ =>
    if candidate.pdgCode = 521 ∧ pdgParticle = 521 then ⟨true, 1, [1, 2]⟩ else ⟨false, 0, []⟩

end hf_mc_gen

/-! ## jetsubstructureoutput.cxx: output of jets and of counters -/

namespace JetSubstructureOutputTask

/-- One row of a jet table joined with its substructure table, reduced to the
columns the task reads. -/
structure Jet where
  globalIndex : Int
  pt : ℚ
  phi : ℚ
  eta : ℚ
  y : ℚ
  r : Int
  tracksIds : List Int
  energyMother : List ℚ
  ptLeading : List ℚ
  ptSubLeading : List ℚ
  theta : List ℚ
  nSub2DR : ℚ
  nSub1 : ℚ
  nSub2 : ℚ
  pairPt : List ℚ
  pairEnergy : List ℚ
  pairTheta : List ℚ

/-- One collision, reduced to the columns `analyseCharged` reads. -/
structure JetCollision where
  posZ : ℚ
  centrality : ℚ
  eventSel : Int

/-- The configurables and data members that `analyseCharged` reads, with the
helper `jetfindingutilities::isInEtaAcceptance`, which is declared outside the
translated file. -/
structure JetConfig where
  jetRadiiValues : List ℚ
  jetEtaMin : ℚ
  jetEtaMax : ℚ
  trackEtaMin : ℚ
  trackEtaMax : ℚ
  isInEtaAcceptance : Jet → ℚ → ℚ → ℚ → ℚ → Bool

/-- One row written to one of the three output tables of `analyseCharged`. -/
inductive Row where
  | collisionOutput (posZ centrality : ℚ) (eventSel : Int)
  | jetOutput (collisionIndex dummy : Int) (pt phi eta y : ℚ) (r : Int) (nTracks : Nat)
  | jetSubstructureOutput (jetIndex : Int) (energyMother ptLeading ptSubLeading theta : List ℚ)
      (nSub2DR nSub1 nSub2 : ℚ) (pairPt pairEnergy pairTheta : List ℚ)

/-- Whether a row belongs to the collision output table. -/
def Row.isCollisionOutput : Row → Bool
  | .collisionOutput _ _ _ => true
  | _ => false

/-- Whether a row belongs to the jet output table. -/
def Row.isJetOutput : Row → Bool
  | .jetOutput _ _ _ _ _ _ _ _ => true
  | _ => false

/-- The output of the task: all rows written so far, in program order, and
the map `jetMapping` as a list of (key, value) pairs. -/
structure Output where
  log : List Row
  jetMapping : List (Int × Int)

/-- The cursor `table.lastIndex()` of the table selected by `isRow`: the index
of the last row written to it, -1 for an empty table. -/
def lastIndex (isRow : Row → Bool) (log : List Row) : Int :=
  ((log.filter isRow).length : Int) - 1

/-- The call `jetMapping.insert(std::make_pair(key, value))`, which keeps an
entry that is already present. -/
def mapInsert (jetMapping : List (Int × Int)) (key value : Int) : List (Int × Int) :=
  if jetMapping.any (fun kv => kv.1 == key) then jetMapping else jetMapping ++ [(key, value)]

/-- The value of `round(x)`: the nearest integer, halves away from zero. -/
def roundHalfAway (x : ℚ) : Int :=
  if 0 ≤ x then ⌊x + 1 / 2⌋ else ⌈x - 1 / 2⌉

/-- The member function `fillJetTables`. -/
def fillJetTables (jet : Jet) (collisionIndex : Int) (out : Output) : Output :=
  let log1 := out.log ++
    [Row.jetOutput collisionIndex collisionIndex jet.pt jet.phi jet.eta jet.y jet.r
      jet.tracksIds.length]
  let log2 := log1 ++
    [Row.jetSubstructureOutput (lastIndex Row.isJetOutput log1) jet.energyMother jet.ptLeading
      jet.ptSubLeading jet.theta jet.nSub2DR jet.nSub1 jet.nSub2 jet.pairPt jet.pairEnergy
      jet.pairTheta]
  { log := log2,
    jetMapping := mapInsert out.jetMapping jet.globalIndex (lastIndex Row.isJetOutput log1) }

/-- The variables that live across the loops of `analyseCharged`. -/
structure ChargedState where
  out : Output
  nJetInCollision : Int
  collisionIndex : Int

/-- One pass of the loop over `jetRadiiValues` in `analyseCharged`. -/
def radiusStep (isMc : Bool) (collision : JetCollision) (jet : Jet) (s : ChargedState)
    (jetRadiiValue : ℚ) : ChargedState :=
  if jet.r = roundHalfAway (jetRadiiValue * 100) then
    let s1 : ChargedState :=
      if !isMc then
        let s0 : ChargedState :=
          if s.nJetInCollision = 0 then
            let log1 := s.out.log ++
              [Row.collisionOutput collision.posZ collision.centrality collision.eventSel]
            { s with out := { s.out with log := log1 },
                     collisionIndex := lastIndex Row.isCollisionOutput log1 }
          else s
        { s0 with nJetInCollision := s0.nJetInCollision + 1 }
      else s
    { s1 with out := fillJetTables jet s1.collisionIndex s1.out }
  else s

/-- One pass of the loop over `jets` in `analyseCharged`. -/
def jetStep (cfg : JetConfig) (isMc : Bool) (collision : JetCollision) (jetPtMin : ℚ)
    (s : ChargedState) (jet : Jet) : ChargedState :=
  if jet.pt < jetPtMin then s
  else if !cfg.isInEtaAcceptance jet cfg.jetEtaMin cfg.jetEtaMax cfg.trackEtaMin
      cfg.trackEtaMax then s
  else cfg.jetRadiiValues.foldl (radiusStep isMc collision jet) s

/-- The member function `analyseCharged<isMc>`: the output after the call. -/
def analyseCharged (cfg : JetConfig) (isMc : Bool) (collision : JetCollision)
    (jets : List Jet) (out : Output) (jetPtMin : ℚ) : Output :=
  (jets.foldl (jetStep cfg isMc collision jetPtMin) ⟨out, 0, -1⟩).out

/-- Whether a jet passes the filters of `analyseCharged` for the radius
`jetRadiiValue`. -/
def jetPasses (cfg : JetConfig) (jetPtMin : ℚ) (jet : Jet) (jetRadiiValue : ℚ) : Prop :=
  jet.pt ≥ jetPtMin ∧
  cfg.isInEtaAcceptance jet cfg.jetEtaMin cfg.jetEtaMax cfg.trackEtaMin cfg.trackEtaMax = true ∧
  jet.r = roundHalfAway (jetRadiiValue * 100)

/-- The invariant of the loops of `analyseCharged<false>`, relative to the
output `out0` before the call: nothing is written while `nJetInCollision` is
0; afterwards the rows written start with the one collision row and every jet
row carries the index of that row. -/
def DataInvariant (out0 : Output) (collision : JetCollision) (s : ChargedState) : Prop :=
  0 ≤ s.nJetInCollision ∧
  ∃ new, s.out.log = out0.log ++ new ∧
    (s.nJetInCollision = 0 → new = []) ∧
    (s.nJetInCollision ≠ 0 →
      s.collisionIndex = ((out0.log.filter Row.isCollisionOutput).length : Int) ∧
      new.head? = some (Row.collisionOutput collision.posZ collision.centrality
        collision.eventSel) ∧
      new.filter Row.isCollisionOutput =
        [Row.collisionOutput collision.posZ collision.centrality collision.eventSel] ∧
      ∀ ci d pt phi eta y r n, Row.jetOutput ci d pt phi eta y r n ∈ new →
        ci = ((out0.log.filter Row.isCollisionOutput).length : Int))

/-- The invariant of the loops of `analyseCharged<true>`, relative to the
output `out0` before the call: no collision row is written and every jet row
carries the collision index -1. -/
def McInvariant (out0 : Output) (s : ChargedState) : Prop :=
  s.collisionIndex = -1 ∧
  ∃ new, s.out.log = out0.log ++ new ∧
    new.filter Row.isCollisionOutput = [] ∧
    ∀ ci d pt phi eta y r n, Row.jetOutput ci d pt phi eta y r n ∈ new → ci = -1

/-! ### processCountBCs

The `int` counters and vector entries are unbounded integers here: signed
overflow has no defined behaviour in the source language, so the embedding
describes every execution that has one. An index outside a vector or a span
makes the embedding return `none`. -/

/-- The three values of `aod::evsel::EventSelectionFlags` that
`processCountBCs` names; the enumeration is declared outside the translated
file. -/
structure EventSelectionFlags where
  kIsTriggerTVX : Nat
  kNoITSROFrameBorder : Nat
  kNoTimeFrameBorder : Nat

/-- One row of `aod::JBCs`, reduced to the accessor the task calls. -/
structure JBC where
  selection_bit : Nat → Bool

/-- One row of `aod::BCCounts`. -/
structure BCCount where
  readCounts : List Int
  readCountsWithTVX : List Int
  readCountsWithTVXAndITSROFBAndNoTFB : List Int

/-- The three counters of the loop over `bcs`. -/
structure BCCounters where
  readBCCounter : Int
  readBCWithTVXCounter : Int
  readBCWithTVXAndITSROFBAndNoTFBCounter : Int

/-- One pass of the loop over `bcs` in `processCountBCs`. -/
def countStep (flags : EventSelectionFlags) (c : BCCounters) (bc : JBC) : BCCounters :=
  let c1 := { c with readBCCounter := c.readBCCounter + 1 }
  if bc.selection_bit flags.kIsTriggerTVX then
    let c2 := { c1 with readBCWithTVXCounter := c1.readBCWithTVXCounter + 1 }
    if bc.selection_bit flags.kNoITSROFrameBorder &&
        bc.selection_bit flags.kNoTimeFrameBorder then
      { c2 with readBCWithTVXAndITSROFBAndNoTFBCounter :=
          c2.readBCWithTVXAndITSROFBAndNoTFBCounter + 1 }
    else c2
  else c1

/-- The three vectors and the counter that live across the loop over
`bcCounts`. -/
structure PreviousCounts where
  previousReadCounts : List Int
  previousReadCountsWithTVX : List Int
  previousReadCountsWithTVXAndITSROFBAndNoTFB : List Int
  iPreviousDataFrame : Int

/-- The statement `v[i] += span[i]`; both indices have to exist. -/
def addAt (v span : List Int) (i : Nat) : Option (List Int) :=
  match v[i]?, span[i]? with
  | some a, some b => some (v.set i (a + b))
  | _, _ => none

/-- One pass of the loop over `i` in `processCountBCs`. -/
def indexStep (bcCount : BCCount) (s : Option PreviousCounts) (i : Nat) :
    Option PreviousCounts :=
  match s with
  | none => none
  | some p =>
    match addAt p.previousReadCounts bcCount.readCounts i,
        addAt p.previousReadCountsWithTVX bcCount.readCountsWithTVX i,
        addAt p.previousReadCountsWithTVXAndITSROFBAndNoTFB
          bcCount.readCountsWithTVXAndITSROFBAndNoTFB i with
    | some v1, some v2, some v3 =>
      some { p with previousReadCounts := v1, previousReadCountsWithTVX := v2,
                    previousReadCountsWithTVXAndITSROFBAndNoTFB := v3 }
    | _, _, _ => none

/-- One pass of the loop over `bcCounts` in `processCountBCs`. -/
def bcCountStep (s : Option PreviousCounts) (bcCount : BCCount) : Option PreviousCounts :=
  match s with
  | none => none
  | some p =>
    let q : Option PreviousCounts :=
      if p.iPreviousDataFrame = 0 then
        some { p with
          previousReadCounts := p.previousReadCounts ++ bcCount.readCounts,
          previousReadCountsWithTVX := p.previousReadCountsWithTVX ++ bcCount.readCountsWithTVX,
          previousReadCountsWithTVXAndITSROFBAndNoTFB :=
            p.previousReadCountsWithTVXAndITSROFBAndNoTFB ++
              bcCount.readCountsWithTVXAndITSROFBAndNoTFB }
      else
        (List.range p.previousReadCounts.length).foldl (indexStep bcCount) (some p)
    q.map (fun r => { r with iPreviousDataFrame := r.iPreviousDataFrame + 1 })

/-- The process function `processCountBCs`: the rows written to
`storedBCCountsTable`, or `none` when an index is out of range. -/
def processCountBCs (flags : EventSelectionFlags) (bcs : List JBC) (bcCounts : List BCCount) :
    Option (List (List Int × List Int × List Int)) :=
  let c := bcs.foldl (countStep flags) ⟨0, 0, 0⟩
  match bcCounts.foldl bcCountStep (some ⟨[], [], [], 0⟩) with
  | none => none
  | some p =>
    some [(p.previousReadCounts ++ [c.readBCCounter],
      p.previousReadCountsWithTVX ++ [c.readBCWithTVXCounter],
      p.previousReadCountsWithTVXAndITSROFBAndNoTFB ++
        [c.readBCWithTVXAndITSROFBAndNoTFBCounter])]

/-- The element-wise sums of one column over the rows of `bcCounts`, for the
common length `L`. -/
def columnSums (L : Nat) (column : BCCount → List Int) (bcCounts : List BCCount) : List Int :=
  (List.range L).map (fun i => (bcCounts.map (fun r => (column r).getD i 0)).sum)

/-- The state of `v` after `k` passes of the loop over `i`. -/
def partialSum (v span : List Int) (k : Nat) : List Int :=
  (List.range v.length).map
    (fun i => if i < k then v.getD i 0 + span.getD i 0 else v.getD i 0)

/-- Two BCs: the first has all three selection bits, the second none. -/
def demoBCs : List JBC := [⟨fun _ => true⟩, ⟨fun _ => false⟩]

/-- Two rows of `aod::BCCounts` with vectors of length 1. -/
def demoBCCounts : List BCCount := [⟨[1], [1], [0]⟩, ⟨[2], [1], [1]⟩]

end JetSubstructureOutputTask

/-! ## femtoDreamTripletTaskTrackTrackTrack.cxx: theorems -/

namespace FemtoDream

/-! ## Facts about the combination iterators -/

theorem length_strictlyUpperPairs {α : Type} (l : List α) :
    (strictlyUpperPairs l).length = l.length.choose 2 := by
  induction l with
  | nil => rfl
  | cons x xs ih =>
    simp [strictlyUpperPairs, ih, Nat.choose_succ_succ, Nat.add_comm]

theorem length_combinationsStrictlyUpperIndex {α : Type} (l : List α) :
    (combinationsStrictlyUpperIndex l).length = l.length.choose 3 := by
  induction l with
  | nil => rfl
  | cons x xs ih =>
    simp [combinationsStrictlyUpperIndex, ih, length_strictlyUpperPairs,
      Nat.choose_succ_succ, Nat.add_comm]

theorem choose_three_eq (n : Nat) : n.choose 3 = n * (n - 1) * (n - 2) / 6 := by
  rw [Nat.choose_eq_descFactorial_div_factorial]
  simp [Nat.descFactorial, Nat.factorial]
  ring_nf

theorem map_strictlyUpperPairs {α β : Type} (f : α → β) (l : List α) :
    strictlyUpperPairs (l.map f) = (strictlyUpperPairs l).map (fun ab => (f ab.1, f ab.2)) := by
  induction l with
  | nil => rfl
  | cons x xs ih => simp [strictlyUpperPairs, ih, Function.comp_def]

theorem map_combinationsStrictlyUpperIndex {α β : Type} (f : α → β) (l : List α) :
    combinationsStrictlyUpperIndex (l.map f) =
      (combinationsStrictlyUpperIndex l).map (fun t => (f t.1, f t.2.1, f t.2.2)) := by
  induction l with
  | nil => rfl
  | cons x xs ih =>
    simp [combinationsStrictlyUpperIndex, ih, map_strictlyUpperPairs, Function.comp_def]

theorem mem_of_mem_strictlyUpperPairs {α : Type} (l : List α) (a b : α)
    (h : (a, b) ∈ strictlyUpperPairs l) : a ∈ l ∧ b ∈ l := by
  induction l with
  | nil => simp [strictlyUpperPairs] at h
  | cons x xs ih =>
    simp only [strictlyUpperPairs, List.mem_append, List.mem_map, Prod.mk.injEq] at h
    rcases h with ⟨y, hy, rfl, rfl⟩ | h
    · exact ⟨List.mem_cons_self _ _, List.mem_cons_of_mem _ hy⟩
    · exact ⟨List.mem_cons_of_mem _ (ih h).1, List.mem_cons_of_mem _ (ih h).2⟩

theorem mem_of_mem_combinationsStrictlyUpperIndex {α : Type} (l : List α) (a b c : α)
    (h : (a, b, c) ∈ combinationsStrictlyUpperIndex l) : a ∈ l ∧ b ∈ l ∧ c ∈ l := by
  induction l with
  | nil => simp [combinationsStrictlyUpperIndex] at h
  | cons x xs ih =>
    simp only [combinationsStrictlyUpperIndex, List.mem_append, List.mem_map,
      Prod.mk.injEq] at h
    rcases h with ⟨⟨y, z⟩, hyz, rfl, rfl, rfl⟩ | h
    · have := mem_of_mem_strictlyUpperPairs xs y z hyz
      exact ⟨List.mem_cons_self _ _, List.mem_cons_of_mem _ this.1,
        List.mem_cons_of_mem _ this.2⟩
    · have := ih h
      exact ⟨List.mem_cons_of_mem _ this.1, List.mem_cons_of_mem _ this.2.1,
        List.mem_cons_of_mem _ this.2.2⟩

theorem nodup_strictlyUpperPairs {α : Type} (l : List α) (hl : l.Nodup) :
    (strictlyUpperPairs l).Nodup := by
  induction l with
  | nil => simp [strictlyUpperPairs]
  | cons x xs ih =>
    rw [List.nodup_cons] at hl
    simp only [strictlyUpperPairs]
    refine List.Nodup.append ?_ (ih hl.2) ?_
    · exact hl.2.map (fun a b hab => (Prod.mk.inj hab).2)
    · intro ab h1 h2
      obtain ⟨y, _, rfl⟩ := List.mem_map.1 h1
      exact hl.1 (mem_of_mem_strictlyUpperPairs xs x y h2).1

theorem nodup_combinationsStrictlyUpperIndex {α : Type} (l : List α) (hl : l.Nodup) :
    (combinationsStrictlyUpperIndex l).Nodup := by
  induction l with
  | nil => simp [combinationsStrictlyUpperIndex]
  | cons x xs ih =>
    rw [List.nodup_cons] at hl
    simp only [combinationsStrictlyUpperIndex]
    refine List.Nodup.append ?_ (ih hl.2) ?_
    · refine (nodup_strictlyUpperPairs xs hl.2).map ?_
      intro a b hab
      exact Prod.ext (Prod.mk.inj (Prod.mk.inj hab).2).1 (Prod.mk.inj (Prod.mk.inj hab).2).2
    · intro t h1 h2
      obtain ⟨yz, _, rfl⟩ := List.mem_map.1 h1
      exact hl.1 (mem_of_mem_combinationsStrictlyUpperIndex xs x yz.1 yz.2 h2).1

theorem mem_strictlyUpperPairs {α : Type} (R : α → α → Prop) (l : List α)
    (hl : l.Pairwise R) (hasym : ∀ a b, R a b → ¬ R b a) (a b : α) :
    (a, b) ∈ strictlyUpperPairs l ↔ a ∈ l ∧ b ∈ l ∧ R a b := by
  induction l with
  | nil => simp [strictlyUpperPairs]
  | cons x xs ih =>
    rw [List.pairwise_cons] at hl
    simp only [strictlyUpperPairs, List.mem_append, List.mem_map, Prod.mk.injEq,
      ih hl.2, List.mem_cons]
    constructor
    · rintro (⟨y, hy, rfl, rfl⟩ | ⟨ha, hb, hab⟩)
      · exact ⟨Or.inl rfl, Or.inr hy, hl.1 _ hy⟩
      · exact ⟨Or.inr ha, Or.inr hb, hab⟩
    · rintro ⟨rfl | ha, rfl | hb, hab⟩
      · exact absurd hab (hasym _ _ hab)
      · exact Or.inl ⟨b, hb, rfl, rfl⟩
      · exact absurd (hl.1 _ ha) (hasym _ _ hab)
      · exact Or.inr ⟨ha, hb, hab⟩

theorem mem_combinationsStrictlyUpperIndex {α : Type} (R : α → α → Prop) (l : List α)
    (hl : l.Pairwise R) (hasym : ∀ a b, R a b → ¬ R b a) (a b c : α) :
    (a, b, c) ∈ combinationsStrictlyUpperIndex l ↔
      a ∈ l ∧ b ∈ l ∧ c ∈ l ∧ R a b ∧ R b c := by
  induction l with
  | nil => simp [combinationsStrictlyUpperIndex]
  | cons x xs ih =>
    have hp := mem_strictlyUpperPairs R xs (List.pairwise_cons.1 hl).2 hasym
    rw [List.pairwise_cons] at hl
    simp only [combinationsStrictlyUpperIndex, List.mem_append, List.mem_map, Prod.mk.injEq,
      ih hl.2, List.mem_cons, Prod.exists, hp]
    constructor
    · rintro (⟨y, z, ⟨hy, hz, hyz⟩, rfl, rfl, rfl⟩ | ⟨ha, hb, hc, hab, hbc⟩)
      · exact ⟨Or.inl rfl, Or.inr hy, Or.inr hz, hl.1 _ hy, hyz⟩
      · exact ⟨Or.inr ha, Or.inr hb, Or.inr hc, hab, hbc⟩
    · rintro ⟨ha, hb, hc, hab, hbc⟩
      have hb' : b ∈ xs := by
        rcases hb with rfl | hb
        · rcases ha with rfl | ha
          · exact absurd hab (hasym _ _ hab)
          · exact absurd (hl.1 _ ha) (hasym _ _ hab)
        · exact hb
      have hc' : c ∈ xs := by
        rcases hc with rfl | hc
        · exact absurd (hl.1 _ hb') (hasym _ _ hbc)
        · exact hc
      rcases ha with rfl | ha
      · exact Or.inl ⟨b, c, ⟨hb', hc', hbc⟩, rfl, rfl, rfl⟩
      · exact Or.inr ⟨ha, hb', hc', hab, hbc⟩

theorem pairwise_fst_lt_enumFrom {α : Type} (l : List α) (n : Nat) :
    (l.enumFrom n).Pairwise (fun x y => x.1 < y.1) := by
  induction l generalizing n with
  | nil => simp
  | cons x xs ih =>
    rw [List.enumFrom_cons, List.pairwise_cons]
    refine ⟨fun y hy => ?_, ih (n + 1)⟩
    have := List.le_fst_of_mem_enumFrom hy
    simp only
    omega

theorem exists_sorted_triple (s : Finset ℕ) (h : s.card = 3) :
    ∃ i j k, i < j ∧ j < k ∧ s = {i, j, k} := by
  obtain ⟨x, y, z, hxy, hxz, hyz, rfl⟩ := Finset.card_eq_three.1 h
  have key : ∀ i j k : ℕ, (∀ a, (a = x ∨ a = y ∨ a = z) ↔ (a = i ∨ a = j ∨ a = k)) →
      ({x, y, z} : Finset ℕ) = {i, j, k} := by
    intro i j k hk
    ext a
    simpa using hk a
  rcases Nat.lt_or_gt_of_ne hxy with h1 | h1 <;>
  rcases Nat.lt_or_gt_of_ne hxz with h2 | h2 <;>
  rcases Nat.lt_or_gt_of_ne hyz with h3 | h3
  · exact ⟨x, y, z, h1, h3, key _ _ _ (fun a => by omega)⟩
  · exact ⟨x, z, y, h2, h3, key _ _ _ (fun a => by omega)⟩
  · omega
  · exact ⟨z, x, y, h2, h1, key _ _ _ (fun a => by omega)⟩
  · exact ⟨y, x, z, h1, h2, key _ _ _ (fun a => by omega)⟩
  · omega
  · exact ⟨y, z, x, h3, h2, key _ _ _ (fun a => by omega)⟩
  · exact ⟨z, y, x, h3, h1, key _ _ _ (fun a => by omega)⟩

theorem sorted_triple_unique (i j k a b c : ℕ) (hij : i < j) (hjk : j < k)
    (hab : a < b) (hbc : b < c) (h : ({a, b, c} : Finset ℕ) = {i, j, k}) :
    a = i ∧ b = j ∧ c = k := by
  have hm : ∀ x, (x = a ∨ x = b ∨ x = c) ↔ (x = i ∨ x = j ∨ x = k) := by
    intro x
    have := Finset.ext_iff.1 h x
    simpa using this
  have h1 := hm a
  have h2 := hm b
  have h3 := hm c
  have h4 := hm i
  have h5 := hm j
  have h6 := hm k
  omega

theorem eq_singleton_of_nodup {α : Type} (l : List α) (x : α) (hl : l.Nodup)
    (h : ∀ y, y ∈ l ↔ y = x) : l = [x] := by
  have hp : l.Perm [x] :=
    (List.perm_ext_iff_of_nodup hl (List.nodup_singleton x)).2 (fun y => by simp [h y])
  exact List.perm_singleton.1 hp

/-! ## The triplet loops, pass by pass -/

theorem sameEventTriplet_eq (ext : Collaborators) (task : Task) (isMC : Bool)
    (parts : List FDParticle) (magFieldTesla : ℚ) (multCol : Int) (centCol : ℚ)
    (st : LoopState) (p1 p2 p3 : FDParticle) :
    sameEventTriplet ext task isMC parts magFieldTesla multCol centCol st (p1, p2, p3) =
      if closePairRejected ext.isClosePairSE task parts magFieldTesla
            (ext.getQ3 p1 task.mMassOne p2 task.mMassTwo p3 task.mMassThree) p1 p2 p3 = true ∨
          cleanTriplet ext parts p1 p2 p3 = false then st
      else
        { fills := st.fills ++ sameEventAcceptedFills ext task isMC multCol centCol p1 p2 p3,
          numberOfTriplets :=
            if ext.getQ3 p1 task.mMassOne p2 task.mMassTwo p3 task.mMassThree < 14 / 10
            then st.numberOfTriplets + 1 else st.numberOfTriplets } := by
  simp only [sameEventTriplet, closePairRejected, cleanTriplet, sameEventAcceptedFills]
  cases task.cfg.ConfIsCPR <;>
  cases ext.isClosePairSE p1 p2 parts magFieldTesla
    (ext.getQ3 p1 task.mMassOne p2 task.mMassTwo p3 task.mMassThree) <;>
  cases ext.isClosePairSE p2 p3 parts magFieldTesla
    (ext.getQ3 p1 task.mMassOne p2 task.mMassTwo p3 task.mMassThree) <;>
  cases ext.isClosePairSE p1 p3 parts magFieldTesla
    (ext.getQ3 p1 task.mMassOne p2 task.mMassTwo p3 task.mMassThree) <;>
  cases ext.isCleanPair p1 p2 parts <;>
  cases ext.isCleanPair p2 p3 parts <;>
  cases ext.isCleanPair p1 p3 parts <;>
  simp

theorem mixedEventTriplet_eq (ext : Collaborators) (task : Task) (isMC : Bool)
    (parts : List FDParticle) (magFieldTesla : ℚ) (multCol : Int)
    (fills : List Fill) (p1 p2 p3 : FDParticle) :
    mixedEventTriplet ext task isMC parts magFieldTesla multCol fills (p1, p2, p3) =
      if closePairRejected ext.isClosePairME task parts magFieldTesla
            (ext.getQ3 p1 task.mMassOne p2 task.mMassTwo p3 task.mMassThree) p1 p2 p3 = true
      then fills
      else fills ++ mixedEventAcceptedFills ext task isMC multCol p1 p2 p3 := by
  simp only [mixedEventTriplet, closePairRejected, mixedEventAcceptedFills]
  cases task.cfg.ConfIsCPR <;>
  cases ext.isClosePairME p1 p2 parts magFieldTesla
    (ext.getQ3 p1 task.mMassOne p2 task.mMassTwo p3 task.mMassThree) <;>
  cases ext.isClosePairME p2 p3 parts magFieldTesla
    (ext.getQ3 p1 task.mMassOne p2 task.mMassTwo p3 task.mMassThree) <;>
  cases ext.isClosePairME p1 p3 parts magFieldTesla
    (ext.getQ3 p1 task.mMassOne p2 task.mMassTwo p3 task.mMassThree) <;>
  simp

theorem filter_sameEventAcceptedFills (ext : Collaborators) (task : Task) (isMC : Bool)
    (multCol : Int) (centCol : ℚ) (p1 p2 p3 : FDParticle) :
    (sameEventAcceptedFills ext task isMC multCol centCol p1 p2 p3).filter
        Fill.isSameEventCont =
      [Fill.sameEventContSetTriplet isMC p1 p2 p3 multCol
        (ext.getQ3 p1 task.mMassOne p2 task.mMassTwo p3 task.mMassThree)] := by
  simp only [sameEventAcceptedFills, List.filter_append]
  split_ifs <;> simp [Fill.isSameEventCont]

theorem filter_mixedEventAcceptedFills (ext : Collaborators) (task : Task) (isMC : Bool)
    (multCol : Int) (p1 p2 p3 : FDParticle) :
    (mixedEventAcceptedFills ext task isMC multCol p1 p2 p3).filter
        Fill.isMixedEventCont =
      [Fill.mixedEventContSetTriplet isMC p1 p2 p3 multCol
        (ext.getQ3 p1 task.mMassOne p2 task.mMassTwo p3 task.mMassThree)] := by
  simp only [mixedEventAcceptedFills, List.filter_append]
  split_ifs <;> simp [Fill.isMixedEventCont]

theorem combinationsFullIndex_eq_product {α : Type} (t1 t2 t3 : List α) :
    combinationsFullIndex t1 t2 t3 = t1 ×ˢ (t2 ×ˢ t3) := by
  simp [combinationsFullIndex, SProd.sprod, List.product, List.map_flatMap, List.flatMap_map,
    Function.comp_def]

theorem mem_combinationsFullIndex {α : Type} (t1 t2 t3 : List α) (a b c : α) :
    (a, b, c) ∈ combinationsFullIndex t1 t2 t3 ↔ a ∈ t1 ∧ b ∈ t2 ∧ c ∈ t3 := by
  rw [combinationsFullIndex_eq_product]
  simp [List.mem_product]

theorem length_combinationsFullIndex {α : Type} (t1 t2 t3 : List α) :
    (combinationsFullIndex t1 t2 t3).length = t1.length * t2.length * t3.length := by
  rw [combinationsFullIndex_eq_product]
  rw [List.length_product, List.length_product, Nat.mul_assoc]

theorem nodup_combinationsFullIndex {α : Type} (t1 t2 t3 : List α)
    (h1 : t1.Nodup) (h2 : t2.Nodup) (h3 : t3.Nodup) :
    (combinationsFullIndex t1 t2 t3).Nodup := by
  rw [combinationsFullIndex_eq_product]
  exact h1.product (h2.product h3)

theorem map_combinationsFullIndex {α β : Type} (f : α → β) (t1 t2 t3 : List α) :
    combinationsFullIndex (t1.map f) (t2.map f) (t3.map f) =
      (combinationsFullIndex t1 t2 t3).map (fun t => (f t.1, f t.2.1, f t.2.2)) := by
  simp [combinationsFullIndex, List.map_flatMap, List.flatMap_map, Function.comp_def]

theorem nodup_enum {α : Type} (l : List α) : l.enum.Nodup :=
  (pairwise_fst_lt_enumFrom l 0).imp (fun {x y} hxy he => by rw [he] at hxy; omega)

theorem foldl_fills_forall {σ : Type} (step : List Fill → σ → List Fill) (Q : Fill → Prop)
    (l : List σ)
    (h : ∀ c ∈ l, ∀ fills, ∃ new, step fills c = fills ++ new ∧ ∀ f ∈ new, Q f)
    (fills : List Fill) :
    ∃ new, l.foldl step fills = fills ++ new ∧ ∀ f ∈ new, Q f := by
  induction l generalizing fills with
  | nil => exact ⟨[], by simp, by simp⟩
  | cons c cs ih =>
    obtain ⟨n1, h1, hq1⟩ := h c (List.mem_cons_self _ _) fills
    obtain ⟨n2, h2, hq2⟩ := ih (fun d hd => h d (List.mem_cons_of_mem _ hd)) (fills ++ n1)
    refine ⟨n1 ++ n2, ?_, ?_⟩
    · rw [List.foldl_cons, h1, h2, List.append_assoc]
    · intro f hf
      rcases List.mem_append.1 hf with hf | hf
      · exact hq1 f hf
      · exact hq2 f hf

theorem fdCollisionId_of_mem_sliceByCached (sel : FDParticle → Bool) (table : List FDParticle)
    (id : Int) (p : FDParticle) (h : p ∈ sliceByCached sel table id) :
    p.fdCollisionId = id ∧ sel p = true := by
  simp only [sliceByCached, List.mem_filter, beq_iff_eq] at h
  exact ⟨h.2, h.1.2⟩

theorem mem_mixedEventAcceptedFills_setTriplet (ext : Collaborators) (task : Task)
    (isMC : Bool) (multCol : Int) (p1 p2 p3 : FDParticle)
    (b : Bool) (q1 q2 q3 : FDParticle) (m : Int) (Q3 : ℚ)
    (h : Fill.mixedEventContSetTriplet b q1 q2 q3 m Q3 ∈
      mixedEventAcceptedFills ext task isMC multCol p1 p2 p3) :
    b = isMC ∧ q1 = p1 ∧ q2 = p2 ∧ q3 = p3 ∧ m = multCol ∧
      Q3 = ext.getQ3 p1 task.mMassOne p2 task.mMassTwo p3 task.mMassThree := by
  simp only [mixedEventAcceptedFills] at h
  split_ifs at h <;> simpa using h

theorem doMixedEvent_fills (ext : Collaborators) (task : Task) (isMC : Bool)
    (g1 g2 g3 parts : List FDParticle) (magFieldTesla : ℚ) (multCol : Int)
    (fills : List Fill) :
    ∃ new, doMixedEvent ext task isMC g1 g2 g3 parts magFieldTesla multCol fills =
        fills ++ new ∧
      ∀ f ∈ new, ∀ b q1 q2 q3 m Q3, f = Fill.mixedEventContSetTriplet b q1 q2 q3 m Q3 →
        q1 ∈ g1 ∧ q2 ∈ g2 ∧ q3 ∈ g3 ∧ b = isMC ∧ m = multCol := by
  apply foldl_fills_forall
  rintro ⟨p1, p2, p3⟩ ht fs
  obtain ⟨h1, h2, h3⟩ := (mem_combinationsFullIndex g1 g2 g3 p1 p2 p3).1 ht
  rw [mixedEventTriplet_eq]
  split_ifs
  · exact ⟨[], by simp, by simp⟩
  · refine ⟨_, rfl, ?_⟩
    intro f hf b q1 q2 q3 m Q3 he
    subst he
    obtain ⟨rfl, rfl, rfl, rfl, rfl, _⟩ :=
      mem_mixedEventAcceptedFills_setTriplet ext task isMC multCol p1 p2 p3 _ _ _ _ _ _ hf
    exact ⟨h1, h2, h3, rfl, rfl⟩

theorem mixedEventCollisionTriple_fills (ext : Collaborators) (task : Task) (isMC : Bool)
    (sel : FDParticle → Bool) (table parts : List FDParticle) (fills : List Fill)
    (c : FDCollision × FDCollision × FDCollision) :
    ∃ new, mixedEventCollisionTriple ext task isMC sel table parts fills c = fills ++ new ∧
      ∀ f ∈ new, ∀ b q1 q2 q3 m Q3, f = Fill.mixedEventContSetTriplet b q1 q2 q3 m Q3 →
        q1.fdCollisionId = c.1.globalIndex ∧ q2.fdCollisionId = c.2.1.globalIndex ∧
        q3.fdCollisionId = c.2.2.globalIndex ∧ c.1.magField = c.2.1.magField ∧
        c.2.1.magField = c.2.2.magField ∧ m = c.1.multNtr := by
  simp only [mixedEventCollisionTriple]
  split_ifs with hne
  · refine ⟨_, rfl, ?_⟩
    intro f hf b q1 q2 q3 m Q3 he
    subst he
    simp at hf
  · obtain ⟨new, hnew, hq⟩ := doMixedEvent_fills ext task isMC
      (sliceByCached sel table c.1.globalIndex) (sliceByCached sel table c.2.1.globalIndex)
      (sliceByCached sel table c.2.2.globalIndex) parts c.1.magField c.1.multNtr
      (fills ++ [Fill.hMECollisionBins (ext.getBin c.1.posZ c.1.multNtr)])
    refine ⟨Fill.hMECollisionBins (ext.getBin c.1.posZ c.1.multNtr) :: new, ?_, ?_⟩
    · rw [hnew]; simp
    · intro f hf b q1 q2 q3 m Q3 he
      subst he
      rcases List.mem_cons.1 hf with hf | hf
      · exact Fill.noConfusion hf
      · obtain ⟨h1, h2, h3, _, h5⟩ := hq _ hf _ _ _ _ _ _ rfl
        push_neg at hne
        exact ⟨(fdCollisionId_of_mem_sliceByCached _ _ _ _ h1).1,
          (fdCollisionId_of_mem_sliceByCached _ _ _ _ h2).1,
          (fdCollisionId_of_mem_sliceByCached _ _ _ _ h3).1, hne.1, hne.2.1, h5⟩

theorem SelectedParts_demoParticle (row col : Int) :
    SelectedParts demoExt demoCfg (demoParticle row col) = true := by
  have h1 : (24 &&& 16 : Nat) = 16 := by decide
  simp [SelectedParts, demoExt, demoCfg, demoParticle, kTrack, ncheckbit, h1]
  norm_num

theorem SelectedParts_eq_otherCuts (ext : Collaborators) (cfg : Config) (p : FDParticle) :
    SelectedParts ext cfg p =
      (otherCuts ext cfg p && decide (p.pt < cfg.ConfMaxpT) && decide (p.pt > cfg.ConfMinpT)) := by
  simp only [SelectedParts, otherCuts]
  cases (p.partType == kTrack) <;>
  cases (if p.pt * (ext.nexp p.eta + ext.nexp (-1 * p.eta)) / 2 ≤ cfg.ConfPIDthrMom
    then ncheckbit p.pidcut cfg.ConfTPCPIDBit
    else ncheckbit p.pidcut cfg.ConfTPCTOFPIDBit) <;>
  cases ncheckbit p.cut cfg.ConfCutPart <;>
  cases decide (p.pt < cfg.ConfMaxpT) <;>
  cases decide (p.pt > cfg.ConfMinpT) <;>
  cases (if cfg.ConfDCACutPtDep
    then decide (|p.tempFitVar| ≤ 4 / 1000 + (13 / 1000) / p.pt)
    else decide (p.tempFitVar ≥ cfg.ConfMinDCAxy) &&
      decide (p.tempFitVar ≤ cfg.ConfMaxDCAxy)) <;>
  rfl

theorem combinationsStrictlyUpperIndex_eq_nil {α : Type} (l : List α) (h : l.length < 3) :
    combinationsStrictlyUpperIndex l = [] := by
  apply List.eq_nil_of_length_eq_zero
  rw [length_combinationsStrictlyUpperIndex]
  exact Nat.choose_eq_zero_of_lt h

theorem length_sliceByCached_le (sel : FDParticle → Bool) (table : List FDParticle) (id : Int) :
    (sliceByCached sel table id).length ≤ table.length :=
  (List.length_filter_le _ _).trans (List.length_filter_le _ _)

/-! ## Same-event enumeration -/

/-- C1: for a pool of N selected particles the same-event enumeration of
`doSameEvent` visits exactly C(N,3) = N(N-1)(N-2)/6 candidate triplets. -/
theorem doSameEvent_enumerates_choose_three (pool : List FDParticle) :
    (combinationsStrictlyUpperIndex pool).length = pool.length.choose 3 ∧
    (combinationsStrictlyUpperIndex pool).length =
      pool.length * (pool.length - 1) * (pool.length - 2) / 6 := by
  rw [length_combinationsStrictlyUpperIndex, ← choose_three_eq]
  exact ⟨rfl, rfl⟩

/-- C2: every candidate triplet of `doSameEvent` sits at strictly increasing
pool positions i < j < k, and every 3-element set of pool positions is the
position set of exactly one visited triplet, so no particle is repeated in a
triplet and no two visited triplets are permutations of one another. -/
theorem doSameEvent_triplets_increasing_each_subset_once (pool : List FDParticle) :
    ((combinationsStrictlyUpperIndex pool.enum).map (fun t => (t.1.2, t.2.1.2, t.2.2.2)) =
        combinationsStrictlyUpperIndex pool) ∧
    (∀ t ∈ combinationsStrictlyUpperIndex pool.enum,
        t.1.1 < t.2.1.1 ∧ t.2.1.1 < t.2.2.1 ∧ t.2.2.1 < pool.length ∧
        pool[t.1.1]? = some t.1.2 ∧ pool[t.2.1.1]? = some t.2.1.2 ∧
        pool[t.2.2.1]? = some t.2.2.2) ∧
    (∀ s : Finset ℕ, s ⊆ Finset.range pool.length → s.card = 3 →
        ((combinationsStrictlyUpperIndex pool.enum).filter
          (fun t => decide (({t.1.1, t.2.1.1, t.2.2.1} : Finset ℕ) = s))).length = 1) := by
  have hpw : (pool.enum).Pairwise (fun x y => x.1 < y.1) := pairwise_fst_lt_enumFrom pool 0
  have hnd : (pool.enum).Nodup := hpw.imp (fun {x y} hxy he => by rw [he] at hxy; omega)
  have hmem := mem_combinationsStrictlyUpperIndex (fun x y : ℕ × FDParticle => x.1 < y.1) pool.enum hpw
    (fun a b hab => by omega)
  refine ⟨?_, ?_, ?_⟩
  · have := map_combinationsStrictlyUpperIndex (Prod.snd : ℕ × FDParticle → FDParticle) pool.enum
    rw [List.enum_map_snd] at this
    exact this.symm
  · rintro ⟨a, b, c⟩ ht
    obtain ⟨ha, hb, hc, hab, hbc⟩ := (hmem a b c).1 ht
    have ha' := List.mem_enum_iff_getElem?.1 ha
    have hb' := List.mem_enum_iff_getElem?.1 hb
    have hc' := List.mem_enum_iff_getElem?.1 hc
    have hlt : c.1 < pool.length := by
      by_contra hge
      rw [List.getElem?_eq_none (by omega)] at hc'
      exact Option.noConfusion hc'
    exact ⟨hab, hbc, hlt, ha', hb', hc'⟩
  · intro s hs hcard
    obtain ⟨i, j, k, hij, hjk, rfl⟩ := exists_sorted_triple s hcard
    have hi : i < pool.length := by
      have := hs (show i ∈ ({i, j, k} : Finset ℕ) by simp); simpa using this
    have hj : j < pool.length := by
      have := hs (show j ∈ ({i, j, k} : Finset ℕ) by simp); simpa using this
    have hk : k < pool.length := by
      have := hs (show k ∈ ({i, j, k} : Finset ℕ) by simp); simpa using this
    have hF := eq_singleton_of_nodup
      ((combinationsStrictlyUpperIndex pool.enum).filter
        (fun t => decide (({t.1.1, t.2.1.1, t.2.2.1} : Finset ℕ) = {i, j, k})))
      ((i, pool[i]), (j, pool[j]), (k, pool[k]))
      ((nodup_combinationsStrictlyUpperIndex _ hnd).filter _) ?_
    · rw [hF]; rfl
    · rintro ⟨a, b, c⟩
      simp only [List.mem_filter, decide_eq_true_eq, hmem, List.mem_enum_iff_getElem?]
      constructor
      · rintro ⟨⟨ha, hb, hc, hab, hbc⟩, hset⟩
        obtain ⟨h1, h2, h3⟩ := sorted_triple_unique i j k a.1 b.1 c.1 hij hjk hab hbc hset
        obtain ⟨a1, a2⟩ := a
        obtain ⟨b1, b2⟩ := b
        obtain ⟨c1, c2⟩ := c
        simp only at h1 h2 h3 ha hb hc
        subst h1 h2 h3
        rw [List.getElem?_eq_getElem hi] at ha
        rw [List.getElem?_eq_getElem hj] at hb
        rw [List.getElem?_eq_getElem hk] at hc
        simp only [Option.some.injEq] at ha hb hc
        subst ha hb hc
        rfl
      · intro h
        simp only [Prod.mk.injEq] at h
        obtain ⟨rfl, rfl, rfl⟩ := h
        simp [hij, hjk, List.getElem?_eq_getElem hi, List.getElem?_eq_getElem hj,
          List.getElem?_eq_getElem hk]

/-- C3: one pass of the triplet loop of `doSameEvent` appends exactly one
`sameEventCont.setTriplet` call, carrying the collision multiplicity and the
Q3 of the triplet, when close-pair rejection is off or flags none of the three
pairs and the cleaner passes all three pairs; in every other case the pass
leaves the fills and the counter as they were. -/
theorem doSameEvent_setTriplet_iff_accepted (ext : Collaborators) (task : Task) (isMC : Bool)
    (parts : List FDParticle) (magFieldTesla : ℚ) (multCol : Int) (centCol : ℚ)
    (st : LoopState) (p1 p2 p3 : FDParticle) :
    let Q3 := ext.getQ3 p1 task.mMassOne p2 task.mMassTwo p3 task.mMassThree
    let accepted : Prop :=
      (task.cfg.ConfIsCPR = false ∨
        (ext.isClosePairSE p1 p2 parts magFieldTesla Q3 = false ∧
         ext.isClosePairSE p2 p3 parts magFieldTesla Q3 = false ∧
         ext.isClosePairSE p1 p3 parts magFieldTesla Q3 = false)) ∧
      (ext.isCleanPair p1 p2 parts = true ∧ ext.isCleanPair p2 p3 parts = true ∧
        ext.isCleanPair p1 p3 parts = true)
    let st' := sameEventTriplet ext task isMC parts magFieldTesla multCol centCol st (p1, p2, p3)
    (accepted → ∃ new, st'.fills = st.fills ++ new ∧
        new.filter Fill.isSameEventCont =
          [Fill.sameEventContSetTriplet isMC p1 p2 p3 multCol Q3]) ∧
    (¬ accepted → st' = st) := by
  intro Q3 accepted st'
  have hst := sameEventTriplet_eq ext task isMC parts magFieldTesla multCol centCol st p1 p2 p3
  have hacc : accepted ↔ ¬ (closePairRejected ext.isClosePairSE task parts magFieldTesla
      Q3 p1 p2 p3 = true ∨ cleanTriplet ext parts p1 p2 p3 = false) := by
    simp only [accepted, closePairRejected, cleanTriplet]
    cases task.cfg.ConfIsCPR <;>
    cases ext.isClosePairSE p1 p2 parts magFieldTesla Q3 <;>
    cases ext.isClosePairSE p2 p3 parts magFieldTesla Q3 <;>
    cases ext.isClosePairSE p1 p3 parts magFieldTesla Q3 <;>
    cases ext.isCleanPair p1 p2 parts <;>
    cases ext.isCleanPair p2 p3 parts <;>
    cases ext.isCleanPair p1 p3 parts <;>
    simp
  constructor
  · intro h
    refine ⟨sameEventAcceptedFills ext task isMC multCol centCol p1 p2 p3, ?_,
      filter_sameEventAcceptedFills ext task isMC multCol centCol p1 p2 p3⟩
    simp only [st', hst, if_neg (hacc.1 h)]
  · intro h
    have h2 := not_not.1 (fun hn => h (hacc.2 hn))
    simp only [st', hst, if_pos h2]

/-! ## Mixed-event processing -/

/-- C4: in the four mixed-event process functions a collision triple whose
three magnetic fields are not all equal only fills `hMECollisionBins`: it adds
no `mixedEventCont.setTriplet` call and the loop goes on with the next triple;
when the three fields are equal the triple is handed to `doMixedEvent` once,
with the field of the first collision. -/
theorem processMixedEvent_field_mismatch_skips (ext : Collaborators) (task : Task)
    (isMC : Bool) (sel : FDParticle → Bool) (cols : List FDCollision)
    (table parts : List FDParticle) (fills : List Fill) (c1 c2 c3 : FDCollision) :
    (¬ (c1.magField = c2.magField ∧ c2.magField = c3.magField) →
      mixedEventCollisionTriple ext task isMC sel table parts fills (c1, c2, c3) =
        fills ++ [Fill.hMECollisionBins (ext.getBin c1.posZ c1.multNtr)] ∧
      (mixedEventCollisionTriple ext task isMC sel table parts fills (c1, c2, c3)).filter
          Fill.isMixedEventCont = fills.filter Fill.isMixedEventCont ∧
      ∀ pre post : List (FDCollision × FDCollision × FDCollision),
        (pre ++ (c1, c2, c3) :: post).foldl
            (mixedEventCollisionTriple ext task isMC sel table parts) fills =
          post.foldl (mixedEventCollisionTriple ext task isMC sel table parts)
            (pre.foldl (mixedEventCollisionTriple ext task isMC sel table parts) fills ++
              [Fill.hMECollisionBins (ext.getBin c1.posZ c1.multNtr)])) ∧
    (c1.magField = c2.magField ∧ c2.magField = c3.magField →
      mixedEventCollisionTriple ext task isMC sel table parts fills (c1, c2, c3) =
        doMixedEvent ext task isMC (sliceByCached sel table c1.globalIndex)
          (sliceByCached sel table c2.globalIndex) (sliceByCached sel table c3.globalIndex)
          parts c1.magField c1.multNtr
          (fills ++ [Fill.hMECollisionBins (ext.getBin c1.posZ c1.multNtr)])) ∧
    processMixedEvent ext task cols table parts fills =
      (ext.selfCombinations task.cfg.ConfNEventsMix cols).foldl
        (mixedEventCollisionTriple ext task false (SelectedParts ext task.cfg) table parts)
        fills ∧
    processMixedEventMasked ext task cols table parts fills =
      (ext.selfCombinations task.cfg.ConfNEventsMix
          (cols.filter (PartitionMaskedCol1 task))).foldl
        (mixedEventCollisionTriple ext task false (SelectedParts ext task.cfg) table parts)
        fills ∧
    processMixedEventMC ext task cols table parts fills =
      (ext.selfCombinations task.cfg.ConfNEventsMix cols).foldl
        (mixedEventCollisionTriple ext task true (SelectedPartsMC ext task.cfg) table parts)
        fills ∧
    processMixedEventMCMasked ext task cols table parts fills =
      (ext.selfCombinations task.cfg.ConfNEventsMix
          (cols.filter (PartitionMaskedCol1 task))).foldl
        (mixedEventCollisionTriple ext task true (SelectedPartsMC ext task.cfg) table parts)
        fills := by
  refine ⟨fun h => ?_, fun h => ?_, rfl, rfl, rfl, rfl⟩
  · have hne : c1.magField ≠ c2.magField ∨ c2.magField ≠ c3.magField ∨
        c1.magField ≠ c3.magField := by
      by_contra hc
      push_neg at hc
      exact h ⟨hc.1, hc.2.1⟩
    have hstep : mixedEventCollisionTriple ext task isMC sel table parts fills (c1, c2, c3) =
        fills ++ [Fill.hMECollisionBins (ext.getBin c1.posZ c1.multNtr)] := by
      simp only [mixedEventCollisionTriple, if_pos hne]
    refine ⟨hstep, ?_, ?_⟩
    · rw [hstep, List.filter_append]
      simp [Fill.isMixedEventCont]
    · intro pre post
      rw [List.foldl_append, List.foldl_cons]
      simp only [mixedEventCollisionTriple, if_pos hne]
  · have hne : ¬ (c1.magField ≠ c2.magField ∨ c2.magField ≠ c3.magField ∨
        c1.magField ≠ c3.magField) := by
      rintro (h1 | h1 | h1)
      · exact h1 h.1
      · exact h1 h.2
      · exact h1 (h.1.trans h.2)
    simp only [mixedEventCollisionTriple, if_neg hne]

/-- Witness of C4 at the fields (0.5, 0.5, -0.5). -/
theorem processMixedEvent_field_mismatch_skips_witness :
    ¬ ((demoCollision 0 (1 / 2)).magField = (demoCollision 1 (1 / 2)).magField ∧
        (demoCollision 1 (1 / 2)).magField = (demoCollision 2 (-1 / 2)).magField) ∧
    (mixedEventCollisionTriple demoExt demoTask false (SelectedParts demoExt demoCfg)
        [demoParticle 0 0, demoParticle 1 1, demoParticle 2 2]
        [demoParticle 0 0, demoParticle 1 1, demoParticle 2 2] []
        (demoCollision 0 (1 / 2), demoCollision 1 (1 / 2), demoCollision 2 (-1 / 2))).filter
      Fill.isMixedEventCont = [] :=
  ⟨by norm_num [demoCollision],
   ((processMixedEvent_field_mismatch_skips demoExt demoTask false
      (SelectedParts demoExt demoCfg) [] [demoParticle 0 0, demoParticle 1 1, demoParticle 2 2]
      [demoParticle 0 0, demoParticle 1 1, demoParticle 2 2] []
      (demoCollision 0 (1 / 2)) (demoCollision 1 (1 / 2)) (demoCollision 2 (-1 / 2))).1
      (by norm_num [demoCollision])).2.1⟩

/-- C5: for three pools of sizes n1, n2, n3 the enumeration of `doMixedEvent`
is the full Cartesian product: n1*n2*n3 candidate triplets, p1 from the first
pool, p2 from the second, p3 from the third, and every choice (i, j, k) of
positions visited exactly once. -/
theorem doMixedEvent_enumerates_full_product (g1 g2 g3 : List FDParticle) :
    (combinationsFullIndex g1 g2 g3).length = g1.length * g2.length * g3.length ∧
    (combinationsFullIndex g1.enum g2.enum g3.enum).map
        (fun t => (t.1.2, t.2.1.2, t.2.2.2)) = combinationsFullIndex g1 g2 g3 ∧
    (∀ t ∈ combinationsFullIndex g1.enum g2.enum g3.enum,
        g1[t.1.1]? = some t.1.2 ∧ g2[t.2.1.1]? = some t.2.1.2 ∧
        g3[t.2.2.1]? = some t.2.2.2) ∧
    (∀ i j k : ℕ,
        ((combinationsFullIndex g1.enum g2.enum g3.enum).filter
          (fun t => decide (t.1.1 = i ∧ t.2.1.1 = j ∧ t.2.2.1 = k))).length =
        if i < g1.length ∧ j < g2.length ∧ k < g3.length then 1 else 0) := by
  refine ⟨length_combinationsFullIndex g1 g2 g3, ?_, ?_, ?_⟩
  · have := map_combinationsFullIndex (Prod.snd : ℕ × FDParticle → FDParticle)
      g1.enum g2.enum g3.enum
    simp only [List.enum_map_snd] at this
    exact this.symm
  · rintro ⟨a, b, c⟩ ht
    obtain ⟨ha, hb, hc⟩ := (mem_combinationsFullIndex _ _ _ a b c).1 ht
    exact ⟨List.mem_enum_iff_getElem?.1 ha, List.mem_enum_iff_getElem?.1 hb,
      List.mem_enum_iff_getElem?.1 hc⟩
  · intro i j k
    have hnd := (nodup_combinationsFullIndex _ _ _ (nodup_enum g1) (nodup_enum g2)
      (nodup_enum g3)).filter (fun t => decide (t.1.1 = i ∧ t.2.1.1 = j ∧ t.2.2.1 = k))
    split_ifs with h
    · obtain ⟨hi, hj, hk⟩ := h
      have hF := eq_singleton_of_nodup _ ((i, g1[i]), (j, g2[j]), (k, g3[k])) hnd ?_
      · rw [hF]; rfl
      · rintro ⟨⟨a1, a2⟩, ⟨b1, b2⟩, ⟨c1, c2⟩⟩
        simp only [List.mem_filter, decide_eq_true_eq, mem_combinationsFullIndex,
          List.mem_enum_iff_getElem?, Prod.mk.injEq]
        constructor
        · rintro ⟨⟨ha, hb, hc⟩, rfl, rfl, rfl⟩
          rw [List.getElem?_eq_getElem hi] at ha
          rw [List.getElem?_eq_getElem hj] at hb
          rw [List.getElem?_eq_getElem hk] at hc
          simp only [Option.some.injEq] at ha hb hc
          exact ⟨⟨rfl, ha.symm⟩, ⟨rfl, hb.symm⟩, rfl, hc.symm⟩
        · rintro ⟨⟨rfl, rfl⟩, ⟨rfl, rfl⟩, rfl, rfl⟩
          simp [List.getElem?_eq_getElem hi, List.getElem?_eq_getElem hj,
            List.getElem?_eq_getElem hk]
    · rw [List.length_eq_zero, List.filter_eq_nil_iff]
      rintro ⟨⟨a1, a2⟩, ⟨b1, b2⟩, ⟨c1, c2⟩⟩ ht
      obtain ⟨ha, hb, hc⟩ := (mem_combinationsFullIndex _ _ _ _ _ _).1 ht
      have ha' := List.mem_enum_iff_getElem?.1 ha
      have hb' := List.mem_enum_iff_getElem?.1 hb
      have hc' := List.mem_enum_iff_getElem?.1 hc
      simp only [decide_eq_true_eq]
      rintro ⟨rfl, rfl, rfl⟩
      apply h
      refine ⟨?_, ?_, ?_⟩
      · by_contra hge
        rw [List.getElem?_eq_none (by omega)] at ha'
        exact Option.noConfusion ha'
      · by_contra hge
        rw [List.getElem?_eq_none (by omega)] at hb'
        exact Option.noConfusion hb'
      · by_contra hge
        rw [List.getElem?_eq_none (by omega)] at hc'
        exact Option.noConfusion hc'

/-- C6: when every collision triple yielded by the event mixer consists of
three pairwise different collisions, every triplet that `processMixedEvent`
hands to the mixed-event accumulator has three particles with pairwise
different collision ids (each pool slice holds only particles of its own
collision). -/
theorem processMixedEvent_triplets_from_three_collisions (ext : Collaborators) (task : Task)
    (cols : List FDCollision) (table parts : List FDParticle) (fills : List Fill)
    (hdistinct : ∀ c ∈ ext.selfCombinations task.cfg.ConfNEventsMix cols,
      c.1.globalIndex ≠ c.2.1.globalIndex ∧ c.2.1.globalIndex ≠ c.2.2.globalIndex ∧
      c.1.globalIndex ≠ c.2.2.globalIndex) :
    ∃ new, processMixedEvent ext task cols table parts fills = fills ++ new ∧
      ∀ isMC p1 p2 p3 mult Q3,
        Fill.mixedEventContSetTriplet isMC p1 p2 p3 mult Q3 ∈ new →
        p1.fdCollisionId ≠ p2.fdCollisionId ∧ p2.fdCollisionId ≠ p3.fdCollisionId ∧
        p1.fdCollisionId ≠ p3.fdCollisionId := by
  have key := foldl_fills_forall
    (mixedEventCollisionTriple ext task false (SelectedParts ext task.cfg) table parts)
    (fun f => ∀ b q1 q2 q3 m Q3, f = Fill.mixedEventContSetTriplet b q1 q2 q3 m Q3 →
      q1.fdCollisionId ≠ q2.fdCollisionId ∧ q2.fdCollisionId ≠ q3.fdCollisionId ∧
      q1.fdCollisionId ≠ q3.fdCollisionId)
    (ext.selfCombinations task.cfg.ConfNEventsMix cols) ?_ fills
  · obtain ⟨new, hnew, hq⟩ := key
    exact ⟨new, hnew, fun isMC p1 p2 p3 mult Q3 hmem => hq _ hmem _ _ _ _ _ _ rfl⟩
  · intro c hc fs
    obtain ⟨new, hnew, hq⟩ := mixedEventCollisionTriple_fills ext task false
      (SelectedParts ext task.cfg) table parts fs c
    refine ⟨new, hnew, ?_⟩
    intro f hf b q1 q2 q3 m Q3 he
    obtain ⟨h1, h2, h3, _⟩ := hq f hf b q1 q2 q3 m Q3 he
    obtain ⟨d1, d2, d3⟩ := hdistinct c hc
    rw [h1, h2, h3]
    exact ⟨d1, d2, d3⟩

/-- Witness of C6: three collisions 0, 1, 2 with one selected particle each. -/
theorem processMixedEvent_triplets_from_three_collisions_witness :
    (∀ c ∈ demoExt.selfCombinations demoTask.cfg.ConfNEventsMix
        [demoCollision 0 (1 / 2), demoCollision 1 (1 / 2), demoCollision 2 (1 / 2)],
      c.1.globalIndex ≠ c.2.1.globalIndex ∧ c.2.1.globalIndex ≠ c.2.2.globalIndex ∧
      c.1.globalIndex ≠ c.2.2.globalIndex) ∧
    ∃ new, processMixedEvent demoExt demoTask
        [demoCollision 0 (1 / 2), demoCollision 1 (1 / 2), demoCollision 2 (1 / 2)]
        [demoParticle 0 0, demoParticle 1 1, demoParticle 2 2]
        [demoParticle 0 0, demoParticle 1 1, demoParticle 2 2] [] = [] ++ new ∧
      ∀ isMC p1 p2 p3 mult Q3,
        Fill.mixedEventContSetTriplet isMC p1 p2 p3 mult Q3 ∈ new →
        p1.fdCollisionId ≠ p2.fdCollisionId ∧ p2.fdCollisionId ≠ p3.fdCollisionId ∧
        p1.fdCollisionId ≠ p3.fdCollisionId :=
  ⟨by simp [demoExt, demoCollision, combinationsStrictlyUpperIndex, strictlyUpperPairs],
   processMixedEvent_triplets_from_three_collisions demoExt demoTask
    [demoCollision 0 (1 / 2), demoCollision 1 (1 / 2), demoCollision 2 (1 / 2)]
    [demoParticle 0 0, demoParticle 1 1, demoParticle 2 2]
    [demoParticle 0 0, demoParticle 1 1, demoParticle 2 2] []
    (by simp [demoExt, demoCollision, combinationsStrictlyUpperIndex, strictlyUpperPairs])⟩

/-! ## Small pools, initialisation and the selector -/

/-- Counterexample to C7 as stated: a collision with a single selected
particle has a pool of fewer than 3 particles, yet `processSameEvent` issues a
fill that is not event-level bookkeeping (the `trackHistoALLSelectedParts` QA
fill of that particle). -/
theorem small_pool_track_QA_fill_counterexample :
    (sliceByCached (SelectedParts demoExt demoTask.cfg) [demoParticle 0 0]
        (demoCollision 0 (1 / 2)).globalIndex).length < 3 ∧
    processSameEvent demoExt demoTask (demoCollision 0 (1 / 2)) [demoParticle 0 0]
        [demoParticle 0 0] [] =
      [Fill.hSECollisionBins 0, Fill.eventHistoQA false (demoCollision 0 (1 / 2)),
        Fill.trackHistoALLSelectedParts false (demoParticle 0 0) 10 50] ∧
    ¬ (∀ f ∈ processSameEvent demoExt demoTask (demoCollision 0 (1 / 2)) [demoParticle 0 0]
        [demoParticle 0 0] [], f.isEventLevel = true) := by
  have hs : sliceByCached (SelectedParts demoExt demoTask.cfg) [demoParticle 0 0]
      (demoCollision 0 (1 / 2)).globalIndex = [demoParticle 0 0] := by
    have h := SelectedParts_demoParticle 0 0
    simp only [sliceByCached, demoTask, List.filter, h]
    simp [demoParticle, demoCollision]
  have hp : processSameEvent demoExt demoTask (demoCollision 0 (1 / 2)) [demoParticle 0 0]
        [demoParticle 0 0] [] =
      [Fill.hSECollisionBins 0, Fill.eventHistoQA false (demoCollision 0 (1 / 2)),
        Fill.trackHistoALLSelectedParts false (demoParticle 0 0) 10 50] := by
    simp only [processSameEvent, hs, fillCollision]
    simp [demoExt, demoCollision]
  refine ⟨by rw [hs]; decide, hp, ?_⟩
  rw [hp]
  intro h
  have := h (Fill.trackHistoALLSelectedParts false (demoParticle 0 0) 10 50) (by simp)
  simp [Fill.isEventLevel] at this

/-- C7 (amended): for a collision whose selected pool has fewer than 3
particles the four same-event process functions enumerate no triplet and call
no accumulator; they issue the two event-level fills of `fillCollision` and
then one `trackHistoALLSelectedParts` QA fill per selected particle (in the
Monte Carlo variants each followed by one `hMazzachi` fill), and nothing
else. -/
theorem processSameEvent_small_pool (ext : Collaborators) (task : Task) (col : FDCollision)
    (table parts : List FDParticle) (fills : List Fill)
    (hdata : (sliceByCached (SelectedParts ext task.cfg) table col.globalIndex).length < 3)
    (hmc : (sliceByCached (SelectedPartsMC ext task.cfg) table col.globalIndex).length < 3) :
    processSameEvent ext task col table parts fills =
      fills ++ [Fill.hSECollisionBins (ext.getBin col.posZ col.multNtr),
        Fill.eventHistoQA false col] ++
      (sliceByCached (SelectedParts ext task.cfg) table col.globalIndex).map
        (fun part => Fill.trackHistoALLSelectedParts false part col.multNtr col.multV0M) ∧
    processSameEventMasked ext task col table parts fills =
      processSameEvent ext task col table parts fills ∧
    processSameEventMC ext task col table parts fills =
      fills ++ [Fill.hSECollisionBins (ext.getBin col.posZ col.multNtr),
        Fill.eventHistoQA false col] ++
      (sliceByCached (SelectedPartsMC ext task.cfg) table col.globalIndex).flatMap
        (fun part => [Fill.trackHistoALLSelectedParts true part col.multNtr col.multV0M,
          Fill.hMazzachi part.mcPt ((part.pt - part.mcPt) / part.mcPt)]) ∧
    processSameEventMCMasked ext task col table parts fills =
      processSameEventMC ext task col table parts fills ∧
    (processSameEvent ext task col table parts fills).filter Fill.isSameEventCont =
      fills.filter Fill.isSameEventCont ∧
    (processSameEventMC ext task col table parts fills).filter Fill.isSameEventCont =
      fills.filter Fill.isSameEventCont ∧
    combinationsStrictlyUpperIndex
      (sliceByCached (SelectedParts ext task.cfg) table col.globalIndex) = [] ∧
    combinationsStrictlyUpperIndex
      (sliceByCached (SelectedPartsMC ext task.cfg) table col.globalIndex) = [] := by
  have h1 : processSameEvent ext task col table parts fills =
      fills ++ [Fill.hSECollisionBins (ext.getBin col.posZ col.multNtr),
        Fill.eventHistoQA false col] ++
      (sliceByCached (SelectedParts ext task.cfg) table col.globalIndex).map
        (fun part => Fill.trackHistoALLSelectedParts false part col.multNtr col.multV0M) := by
    simp only [processSameEvent, fillCollision, if_pos hdata]
  have h2 : processSameEventMC ext task col table parts fills =
      fills ++ [Fill.hSECollisionBins (ext.getBin col.posZ col.multNtr),
        Fill.eventHistoQA false col] ++
      (sliceByCached (SelectedPartsMC ext task.cfg) table col.globalIndex).flatMap
        (fun part => [Fill.trackHistoALLSelectedParts true part col.multNtr col.multV0M,
          Fill.hMazzachi part.mcPt ((part.pt - part.mcPt) / part.mcPt)]) := by
    simp only [processSameEventMC, fillCollision, if_pos hmc]
  refine ⟨h1, rfl, h2, rfl, ?_, ?_, combinationsStrictlyUpperIndex_eq_nil _ hdata,
    combinationsStrictlyUpperIndex_eq_nil _ hmc⟩
  · rw [h1, List.filter_append, List.filter_append]
    simp [Fill.isSameEventCont, List.filter_map, Function.comp_def]
  · rw [h2, List.filter_append, List.filter_append]
    simp [Fill.isSameEventCont, List.filter_flatMap]

/-- Witness of C7 (amended): a collision with a single particle in the table. -/
theorem processSameEvent_small_pool_witness :
    (sliceByCached (SelectedParts demoExt demoTask.cfg) [demoParticle 0 0]
        (demoCollision 0 (1 / 2)).globalIndex).length < 3 ∧
    (sliceByCached (SelectedPartsMC demoExt demoTask.cfg) [demoParticle 0 0]
        (demoCollision 0 (1 / 2)).globalIndex).length < 3 ∧
    (processSameEvent demoExt demoTask (demoCollision 0 (1 / 2)) [demoParticle 0 0]
        [demoParticle 0 0] []).filter Fill.isSameEventCont = [] :=
  ⟨Nat.lt_of_le_of_lt (length_sliceByCached_le _ _ _) (by decide),
   Nat.lt_of_le_of_lt (length_sliceByCached_le _ _ _) (by decide),
   (processSameEvent_small_pool demoExt demoTask (demoCollision 0 (1 / 2)) [demoParticle 0 0]
      [demoParticle 0 0] []
      (Nat.lt_of_le_of_lt (length_sliceByCached_le _ _ _) (by decide))
      (Nat.lt_of_le_of_lt (length_sliceByCached_le _ _ _) (by decide))).2.2.2.2.1⟩

/-- C8: the configuration-conflict check that ends `init` reports the fatal
error exactly when one of the four pairs (plain, masked) of process switches
has both switches on; a conflict makes `init` fail, so the run ends without
any fill, and `init` fails with this fatal error whenever the mask derivation
before the check succeeds; without a conflict `init` returns the task; the
default switches do not trigger the check. -/
theorem init_conflict_check (ext : Collaborators) (cfg : Config) (devices : List DeviceSpec)
    (frames : List DataFrame) :
    (checkProcessSwitches cfg = Except.error (InitFailure.fatal
        "Normal and masked processing cannot be activated simultaneously!") ↔
      bothSwitchesOn cfg) ∧
    (checkProcessSwitches cfg = Except.ok () ↔ ¬ bothSwitchesOn cfg) ∧
    (bothSwitchesOn cfg →
      (∃ e, init ext cfg devices = Except.error e) ∧
      (∃ e, runTask ext cfg devices frames = Except.error e)) ∧
    (bothSwitchesOn cfg →
      (∀ index, findMaskIndex ext cfg devices 0 = some index → index < ext.bitMaskWidth) →
      init ext cfg devices = Except.error (InitFailure.fatal
        "Normal and masked processing cannot be activated simultaneously!")) ∧
    (¬ bothSwitchesOn cfg →
      (∀ index, findMaskIndex ext cfg devices 0 = some index → index < ext.bitMaskWidth) →
      ∃ task, init ext cfg devices = Except.ok task ∧ task.cfg = cfg) ∧
    checkProcessSwitches ({} : Config) = Except.ok () ∧
    ¬ bothSwitchesOn ({} : Config) := by
  have hconf : processSwitchConflict cfg = true ↔ bothSwitchesOn cfg := by
    simp only [processSwitchConflict, bothSwitchesOn, Bool.or_eq_true, Bool.and_eq_true]
    tauto
  have hcheck1 : bothSwitchesOn cfg → checkProcessSwitches cfg = Except.error
      (InitFailure.fatal "Normal and masked processing cannot be activated simultaneously!") := by
    intro h
    simp only [checkProcessSwitches, if_pos (hconf.2 h)]
    rfl
  have hcheck2 : ¬ bothSwitchesOn cfg → checkProcessSwitches cfg = Except.ok () := by
    intro h
    have : ¬ processSwitchConflict cfg = true := fun hc => h (hconf.1 hc)
    simp only [checkProcessSwitches, if_neg this]
    rfl
  have hinit : bothSwitchesOn cfg → ∃ e, init ext cfg devices = Except.error e := by
    intro h
    simp only [init, hcheck1 h]
    cases findMaskIndex ext cfg devices 0 with
    | none => exact ⟨_, rfl⟩
    | some index =>
      by_cases hi : index < ext.bitMaskWidth
      · simp only [if_pos hi]; exact ⟨_, rfl⟩
      · simp only [if_neg hi]; exact ⟨_, rfl⟩
  refine ⟨⟨fun h => ?_, hcheck1⟩, ⟨fun h => ?_, hcheck2⟩, fun h => ⟨hinit h, ?_⟩,
    fun h hm => ?_, fun h hm => ?_, ?_, ?_⟩
  · by_contra hn
    rw [hcheck2 hn] at h
    exact Except.noConfusion h
  · intro hn
    rw [hcheck1 hn] at h
    exact Except.noConfusion h
  · obtain ⟨e, he⟩ := hinit h
    exact ⟨e, by simp only [runTask, he]⟩
  · simp only [init, hcheck1 h]
    cases hf : findMaskIndex ext cfg devices 0 with
    | none => rfl
    | some index => simp only [if_pos (hm index hf)]; rfl
  · simp only [init, hcheck2 h]
    cases hf : findMaskIndex ext cfg devices 0 with
    | none => exact ⟨_, rfl, rfl⟩
    | some index => simp only [if_pos (hm index hf)]; exact ⟨_, rfl, rfl⟩
  · rfl
  · simp [bothSwitchesOn]

/-- C9: with ConfMinpT = 0.3, ConfMaxpT = 4.05, the DCA window [-0.1, 0.1] and
the pT-dependent DCA cut off, a track with pT = 0.5, DCA = 0.05, cut mask
equal to ConfCutPart and the PID pattern of its momentum regime set is
accepted by `SelectedParts`, the same particle with pT = 4.2 is rejected, and
under every configuration every particle with pT >= ConfMaxpT is rejected. -/
theorem SelectedParts_worked_example (ext : Collaborators) (cfg : Config) (p : FDParticle)
    (hmin : cfg.ConfMinpT = 3 / 10) (hmax : cfg.ConfMaxpT = 405 / 100)
    (hdcamin : cfg.ConfMinDCAxy = -1 / 10) (hdcamax : cfg.ConfMaxDCAxy = 1 / 10)
    (hdep : cfg.ConfDCACutPtDep = false)
    (htype : p.partType = kTrack) (hpt : p.pt = 1 / 2) (hfit : p.tempFitVar = 5 / 100)
    (hcut : p.cut = cfg.ConfCutPart)
    (hpid : (if p.pt * (ext.nexp p.eta + ext.nexp (-1 * p.eta)) / 2 ≤ cfg.ConfPIDthrMom
      then ncheckbit p.pidcut cfg.ConfTPCPIDBit
      else ncheckbit p.pidcut cfg.ConfTPCTOFPIDBit) = true) :
    SelectedParts ext cfg p = true ∧
    SelectedParts ext cfg { p with pt := 42 / 10 } = false ∧
    (∀ (cfg2 : Config) (q : FDParticle), q.pt ≥ cfg2.ConfMaxpT →
      SelectedParts ext cfg2 q = false) := by
  refine ⟨?_, ?_, ?_⟩
  · have ho : otherCuts ext cfg p = true := by
      simp only [otherCuts, hpid]
      simp only [htype, hcut, hdep, hdcamin, hdcamax, hfit, ncheckbit, Nat.and_self]
      norm_num
    rw [SelectedParts_eq_otherCuts, ho, hpt, hmin, hmax]
    norm_num
  · rw [SelectedParts_eq_otherCuts]
    have : ¬ ((42 : ℚ) / 10 < cfg.ConfMaxpT) := by rw [hmax]; norm_num
    simp [this]
  · intro cfg2 q hq
    rw [SelectedParts_eq_otherCuts]
    have : ¬ (q.pt < cfg2.ConfMaxpT) := not_lt.2 hq
    simp [this]

/-- Witness of C9: the worked example under `demoCfg`. -/
theorem SelectedParts_worked_example_witness :
    SelectedParts demoExt demoCfg (demoParticle 0 0) = true ∧
    SelectedParts demoExt demoCfg { demoParticle 0 0 with pt := 42 / 10 } = false :=
  have h := SelectedParts_worked_example demoExt demoCfg (demoParticle 0 0) rfl rfl rfl rfl rfl
    rfl rfl rfl rfl (by
      have h1 : (24 &&& 16 : Nat) = 16 := by decide
      have h2 : (24 &&& 8 : Nat) = 8 := by decide
      simp [demoExt, demoCfg, demoParticle, ncheckbit, h1, h2])
  ⟨h.1, h.2.1⟩

/-- Counterexample to C10 as stated: a particle whose pT equals ConfMinpT and
which passes every other cut lies in the half-open window [ConfMinpT,
ConfMaxpT) but is rejected by `SelectedParts`. -/
theorem SelectedParts_rejects_pt_equal_to_min :
    otherCuts demoExt demoCfg { demoParticle 0 0 with pt := 3 / 10 } = true ∧
    ({ demoParticle 0 0 with pt := 3 / 10 } : FDParticle).pt = demoCfg.ConfMinpT ∧
    ¬ (SelectedParts demoExt demoCfg { demoParticle 0 0 with pt := 3 / 10 } = true ↔
      demoCfg.ConfMinpT ≤ ({ demoParticle 0 0 with pt := 3 / 10 } : FDParticle).pt ∧
      ({ demoParticle 0 0 with pt := 3 / 10 } : FDParticle).pt < demoCfg.ConfMaxpT) := by
  have h1 : (24 &&& 16 : Nat) = 16 := by decide
  have ho : otherCuts demoExt demoCfg { demoParticle 0 0 with pt := 3 / 10 } = true := by
    simp [otherCuts, demoExt, demoCfg, demoParticle, kTrack, ncheckbit, h1]
    norm_num
  refine ⟨ho, rfl, ?_⟩
  rw [SelectedParts_eq_otherCuts, ho]
  simp [demoCfg, demoParticle]
  norm_num

/-- C10 (amended): the pT cut of `SelectedParts` is the open window
(ConfMinpT, ConfMaxpT): a particle that passes every other cut is accepted
exactly when ConfMinpT < pT < ConfMaxpT, so a particle with pT equal to
ConfMinpT or to ConfMaxpT is rejected. -/
theorem SelectedParts_pt_window_open (ext : Collaborators) (cfg : Config) (p : FDParticle)
    (hother : otherCuts ext cfg p = true) :
    (SelectedParts ext cfg p = true ↔ cfg.ConfMinpT < p.pt ∧ p.pt < cfg.ConfMaxpT) ∧
    (p.pt = cfg.ConfMinpT → SelectedParts ext cfg p = false) ∧
    (p.pt = cfg.ConfMaxpT → SelectedParts ext cfg p = false) := by
  rw [SelectedParts_eq_otherCuts, hother]
  refine ⟨?_, ?_, ?_⟩
  · simp only [Bool.true_and, Bool.and_eq_true, decide_eq_true_eq, gt_iff_lt]
    exact ⟨fun h => ⟨h.2, h.1⟩, fun h => ⟨h.2, h.1⟩⟩
  · intro h
    simp [h]
  · intro h
    simp [h]

/-- Witness of C10 (amended): the demo particle, with pT = 0.5, passes every
other cut of `demoCfg`. -/
theorem SelectedParts_pt_window_open_witness :
    otherCuts demoExt demoCfg (demoParticle 0 0) = true ∧
    (SelectedParts demoExt demoCfg (demoParticle 0 0) = true ↔
      demoCfg.ConfMinpT < (demoParticle 0 0).pt ∧ (demoParticle 0 0).pt < demoCfg.ConfMaxpT) :=
  have ho : otherCuts demoExt demoCfg (demoParticle 0 0) = true := by
    have h1 : (24 &&& 16 : Nat) = 16 := by decide
    simp [otherCuts, demoExt, demoCfg, demoParticle, kTrack, ncheckbit, h1]
    norm_num
  ⟨ho, (SelectedParts_pt_window_open demoExt demoCfg (demoParticle 0 0) ho).1⟩

/-! ## Facts about bit masks -/

theorem ncheckbit_iff (node bit : Nat) : ncheckbit node bit = true ↔ node &&& bit = bit := by
  simp [ncheckbit]

theorem and_eq_iff_testBit (node bit : Nat) :
    node &&& bit = bit ↔ ∀ i, bit.testBit i = true → node.testBit i = true := by
  constructor
  · intro h i hi
    have := congrArg (fun n => n.testBit i) h
    simp only [Nat.testBit_and, hi, Bool.and_true] at this
    exact this
  · intro h
    apply Nat.eq_of_testBit_eq
    intro i
    rw [Nat.testBit_and]
    cases hb : bit.testBit i
    · simp
    · simp [h i hb]

theorem ncheckbit_or (node bit extra : Nat) (h : ncheckbit node bit = true) :
    ncheckbit (node ||| extra) bit = true := by
  rw [ncheckbit_iff, and_eq_iff_testBit] at *
  intro i hi
  rw [Nat.testBit_or, h i hi]
  rfl

/-! ## The selector, cut by cut -/

/-- Counterexample to C11 as stated: a particle whose momentum estimate equals
ConfPIDthrMom is not below the threshold, yet `SelectedParts` accepts it with
only the TPC pattern set (the TPC+TOF pattern is not set), and its decision
changes with ConfTPCPIDBit. -/
theorem SelectedParts_threshold_uses_TPC_counterexample :
    ¬ (thresholdParticle.pt *
        (demoExt.nexp thresholdParticle.eta + demoExt.nexp (-1 * thresholdParticle.eta)) / 2 <
      demoCfg.ConfPIDthrMom) ∧
    SelectedParts demoExt demoCfg thresholdParticle = true ∧
    thresholdParticle.pidcut &&& demoCfg.ConfTPCTOFPIDBit ≠ demoCfg.ConfTPCTOFPIDBit ∧
    SelectedParts demoExt { demoCfg with ConfTPCPIDBit := 32 } thresholdParticle = false := by
  have h1 : (16 &&& 16 : Nat) = 16 := by decide
  have h3 : (16 &&& 32 : Nat) ≠ 32 := by decide
  refine ⟨?_, ?_, ?_, ?_⟩
  · norm_num [thresholdParticle, demoParticle, demoExt, demoCfg]
  · simp [SelectedParts, thresholdParticle, demoExt, demoCfg, demoParticle, kTrack, ncheckbit, h1]
    norm_num
  · simp [thresholdParticle, demoParticle, demoCfg]
  · simp [SelectedParts, thresholdParticle, demoExt, demoCfg, demoParticle, kTrack, ncheckbit, h3]

/-- C11 (amended): with p = pT * (exp(eta) + exp(-eta)) / 2, if p is at or
below ConfPIDthrMom then `SelectedParts` requires all bits of ConfTPCPIDBit in
the PID mask and does not depend on ConfTPCTOFPIDBit; if p is above
ConfPIDthrMom it requires all bits of ConfTPCTOFPIDBit and does not depend on
ConfTPCPIDBit. -/
theorem SelectedParts_pid_regime (ext : Collaborators) (cfg : Config) (p : FDParticle) :
    (p.pt * (ext.nexp p.eta + ext.nexp (-1 * p.eta)) / 2 ≤ cfg.ConfPIDthrMom →
      (SelectedParts ext cfg p = true →
        p.pidcut &&& cfg.ConfTPCPIDBit = cfg.ConfTPCPIDBit) ∧
      (∀ bit, SelectedParts ext { cfg with ConfTPCTOFPIDBit := bit } p =
        SelectedParts ext cfg p)) ∧
    (cfg.ConfPIDthrMom < p.pt * (ext.nexp p.eta + ext.nexp (-1 * p.eta)) / 2 →
      (SelectedParts ext cfg p = true →
        p.pidcut &&& cfg.ConfTPCTOFPIDBit = cfg.ConfTPCTOFPIDBit) ∧
      (∀ bit, SelectedParts ext { cfg with ConfTPCPIDBit := bit } p =
        SelectedParts ext cfg p)) := by
  constructor
  · intro h
    refine ⟨fun hs => ?_, fun bit => ?_⟩
    · simp only [SelectedParts, if_pos h, Bool.and_eq_true] at hs
      exact (ncheckbit_iff _ _).1 hs.1.1.1.1.2
    · simp only [SelectedParts, if_pos h]
  · intro h
    have hn : ¬ (p.pt * (ext.nexp p.eta + ext.nexp (-1 * p.eta)) / 2 ≤ cfg.ConfPIDthrMom) :=
      not_le.2 h
    refine ⟨fun hs => ?_, fun bit => ?_⟩
    · simp only [SelectedParts, if_neg hn, Bool.and_eq_true] at hs
      exact (ncheckbit_iff _ _).1 hs.1.1.1.1.2
    · simp only [SelectedParts, if_neg hn]

/-- C12: exactly one DCA criterion is active in `SelectedParts`.  With
ConfDCACutPtDep on, a particle that passes the other cuts is accepted exactly
when |tempFitVar| <= 0.004 + 0.013 / pT (pT not zero), and the decision does
not depend on ConfMinDCAxy or ConfMaxDCAxy; with ConfDCACutPtDep off it is
accepted exactly when ConfMinDCAxy <= tempFitVar <= ConfMaxDCAxy, whatever
the pT-dependent bound says. -/
theorem SelectedParts_one_DCA_criterion (ext : Collaborators) (cfg : Config) (p : FDParticle) :
    (cfg.ConfDCACutPtDep = true →
      (SelectedParts ext cfg p = true → p.pt ≠ 0 →
        |p.tempFitVar| ≤ 4 / 1000 + (13 / 1000) / p.pt) ∧
      (p.pt ≠ 0 → |p.tempFitVar| ≤ 4 / 1000 + (13 / 1000) / p.pt →
        SelectedParts ext cfg p =
          ((p.partType == kTrack) &&
          (if p.pt * (ext.nexp p.eta + ext.nexp (-1 * p.eta)) / 2 ≤ cfg.ConfPIDthrMom
            then ncheckbit p.pidcut cfg.ConfTPCPIDBit
            else ncheckbit p.pidcut cfg.ConfTPCTOFPIDBit) &&
          ncheckbit p.cut cfg.ConfCutPart &&
          decide (p.pt < cfg.ConfMaxpT) && decide (p.pt > cfg.ConfMinpT))) ∧
      (∀ lo hi, SelectedParts ext { cfg with ConfMinDCAxy := lo, ConfMaxDCAxy := hi } p =
        SelectedParts ext cfg p)) ∧
    (cfg.ConfDCACutPtDep = false →
      (SelectedParts ext cfg p = true →
        cfg.ConfMinDCAxy ≤ p.tempFitVar ∧ p.tempFitVar ≤ cfg.ConfMaxDCAxy) ∧
      (cfg.ConfMinDCAxy ≤ p.tempFitVar → p.tempFitVar ≤ cfg.ConfMaxDCAxy →
        SelectedParts ext cfg p =
          ((p.partType == kTrack) &&
          (if p.pt * (ext.nexp p.eta + ext.nexp (-1 * p.eta)) / 2 ≤ cfg.ConfPIDthrMom
            then ncheckbit p.pidcut cfg.ConfTPCPIDBit
            else ncheckbit p.pidcut cfg.ConfTPCTOFPIDBit) &&
          ncheckbit p.cut cfg.ConfCutPart &&
          decide (p.pt < cfg.ConfMaxpT) && decide (p.pt > cfg.ConfMinpT)))) := by
  constructor
  · intro hdep
    refine ⟨fun hs _ => ?_, fun _ hb => ?_, fun lo hi => ?_⟩
    · simp only [SelectedParts, hdep, if_true, Bool.and_eq_true, decide_eq_true_eq] at hs
      exact hs.2
    · simp only [SelectedParts, hdep, if_true, decide_eq_true hb, Bool.and_true]
    · simp only [SelectedParts, hdep, if_true]
  · intro hdep
    refine ⟨fun hs => ?_, fun h1 h2 => ?_⟩
    · simp only [SelectedParts, hdep, Bool.false_eq_true, if_false, Bool.and_eq_true,
        decide_eq_true_eq, ge_iff_le] at hs
      exact hs.2
    · have h1' : (p.tempFitVar ≥ cfg.ConfMinDCAxy) := h1
      simp only [SelectedParts, hdep, Bool.false_eq_true, if_false, decide_eq_true h1',
        decide_eq_true h2, Bool.and_true]

/-- C13: a particle accepted by `SelectedParts` has every bit of ConfCutPart
set in its cut mask, (cut & ConfCutPart) == ConfCutPart, and stays accepted
when further bits are set in its cut mask. -/
theorem SelectedParts_cut_bits_monotone (ext : Collaborators) (cfg : Config) (p : FDParticle)
    (h : SelectedParts ext cfg p = true) :
    p.cut &&& cfg.ConfCutPart = cfg.ConfCutPart ∧
    (∀ i, cfg.ConfCutPart.testBit i = true → p.cut.testBit i = true) ∧
    (∀ extra, SelectedParts ext cfg { p with cut := p.cut ||| extra } = true) := by
  have hc : ncheckbit p.cut cfg.ConfCutPart = true := by
    simp only [SelectedParts, Bool.and_eq_true] at h
    exact h.1.1.1.2
  refine ⟨(ncheckbit_iff _ _).1 hc, (and_eq_iff_testBit _ _).1 ((ncheckbit_iff _ _).1 hc),
    fun extra => ?_⟩
  have he := ncheckbit_or p.cut cfg.ConfCutPart extra hc
  simp only [SelectedParts, Bool.and_eq_true] at h ⊢
  exact ⟨⟨⟨⟨⟨h.1.1.1.1.1, h.1.1.1.1.2⟩, he⟩, h.1.1.2⟩, h.1.2⟩, h.2⟩

/-- Witness of C13: the demo particle, with bit 0 set in addition. -/
theorem SelectedParts_cut_bits_monotone_witness :
    SelectedParts demoExt demoCfg (demoParticle 0 0) = true ∧
    SelectedParts demoExt demoCfg
      { demoParticle 0 0 with cut := (demoParticle 0 0).cut ||| 1 } = true :=
  ⟨SelectedParts_demoParticle 0 0,
   (SelectedParts_cut_bits_monotone demoExt demoCfg (demoParticle 0 0)
      (SelectedParts_demoParticle 0 0)).2.2 1⟩

/-- C14: the decision of `SelectedParts` depends only on the configuration and
on the type tag, pT, eta, PID mask, cut mask and tempFitVar of the particle:
two particles that agree on these get the same decision, whatever their
collision id, row index and phi, and whether a row belongs to the pool of its
collision does not depend on the other rows of the table. -/
theorem SelectedParts_depends_on_six_attributes (ext : Collaborators) (cfg : Config)
    (p q : FDParticle) (htype : p.partType = q.partType) (hpt : p.pt = q.pt)
    (heta : p.eta = q.eta) (hpid : p.pidcut = q.pidcut) (hcut : p.cut = q.cut)
    (hfit : p.tempFitVar = q.tempFitVar) :
    SelectedParts ext cfg p = SelectedParts ext cfg q ∧
    (∀ table : List FDParticle,
      p ∈ sliceByCached (SelectedParts ext cfg) table p.fdCollisionId ↔
        p ∈ table ∧ SelectedParts ext cfg p = true) := by
  constructor
  · simp only [SelectedParts, htype, hpt, heta, hpid, hcut, hfit]
  · intro table
    simp [sliceByCached, List.mem_filter]

/-- Witness of C14: two demo particles in different collisions, at different
rows and with different phi. -/
theorem SelectedParts_depends_on_six_attributes_witness :
    SelectedParts demoExt demoCfg (demoParticle 0 0) =
      SelectedParts demoExt demoCfg { demoParticle 5 7 with phi := 1 } :=
  (SelectedParts_depends_on_six_attributes demoExt demoCfg (demoParticle 0 0)
    { demoParticle 5 7 with phi := 1 } rfl rfl rfl rfl rfl rfl).1

/-! ## Close-pair rejection and the triplet loops -/

/-- C16: the close-pair decision is symmetric in its two particles,
isClosePair(p1, p2, parts, field, Q3) = isClosePair(p2, p1, parts, field, Q3),
in every mode and for the legacy as well as for the corrected formula. -/
theorem isClosePair_symmetric (e : DetaDphiStar) (p1 p2 : FDParticle)
    (parts : List FDParticle) (magField Q3 : ℚ) :
    e.isClosePair p1 p2 parts magField Q3 = e.isClosePair p2 p1 parts magField Q3 ∧
    (∀ legacy : Bool,
      DetaDphiStar.isClosePair { e with useLegacyFormula := legacy } p1 p2 parts magField Q3 =
      DetaDphiStar.isClosePair { e with useLegacyFormula := legacy } p2 p1 parts magField Q3) := by
  have key : ∀ d : DetaDphiStar,
      d.isClosePair p1 p2 parts magField Q3 = d.isClosePair p2 p1 parts magField Q3 := by
    intro d
    simp only [DetaDphiStar.isClosePair]
    congr 1
    funext x
    rw [abs_sub_comm (d.etaAt p1 magField x), abs_sub_comm (d.phiStar p1 magField x)]
  exact ⟨key e, fun legacy => key _⟩

theorem foldl_sameEventTriplet (ext : Collaborators) (task : Task) (isMC : Bool)
    (parts : List FDParticle) (magFieldTesla : ℚ) (multCol : Int) (centCol : ℚ)
    (l : List (FDParticle × FDParticle × FDParticle)) (st : LoopState) :
    l.foldl (sameEventTriplet ext task isMC parts magFieldTesla multCol centCol) st =
      { fills := st.fills ++
          (l.filter (sameEventAccepted ext task parts magFieldTesla)).flatMap
            (fun t => sameEventAcceptedFills ext task isMC multCol centCol t.1 t.2.1 t.2.2),
        numberOfTriplets := st.numberOfTriplets +
          (((l.filter (sameEventAccepted ext task parts magFieldTesla)).filter
            (fun t => decide (ext.getQ3 t.1 task.mMassOne t.2.1 task.mMassTwo t.2.2
              task.mMassThree < 14 / 10))).length : Int) } := by
  induction l generalizing st with
  | nil => simp
  | cons t ts ih =>
    obtain ⟨p1, p2, p3⟩ := t
    rw [List.foldl_cons, ih, sameEventTriplet_eq]
    by_cases hacc : sameEventAccepted ext task parts magFieldTesla (p1, p2, p3) = true
    · have hno : ¬ (closePairRejected ext.isClosePairSE task parts magFieldTesla
          (ext.getQ3 p1 task.mMassOne p2 task.mMassTwo p3 task.mMassThree) p1 p2 p3 = true ∨
          cleanTriplet ext parts p1 p2 p3 = false) := by
        simp only [sameEventAccepted, Bool.and_eq_true, Bool.not_eq_true'] at hacc
        rintro (h | h)
        · rw [hacc.1] at h; exact Bool.noConfusion h
        · rw [hacc.2] at h; exact Bool.noConfusion h
      rw [if_neg hno, List.filter_cons_of_pos hacc]
      by_cases hq : ext.getQ3 p1 task.mMassOne p2 task.mMassTwo p3 task.mMassThree < 14 / 10
      · rw [List.filter_cons_of_pos (by simpa using hq)]
        simp only [if_pos hq, List.flatMap_cons, List.append_assoc, List.length_cons,
          Nat.cast_add, Nat.cast_one, LoopState.mk.injEq, true_and]
        ring
      · rw [List.filter_cons_of_neg (by simpa using hq)]
        simp only [if_neg hq, List.flatMap_cons, List.append_assoc]
    · have hyes : closePairRejected ext.isClosePairSE task parts magFieldTesla
          (ext.getQ3 p1 task.mMassOne p2 task.mMassTwo p3 task.mMassThree) p1 p2 p3 = true ∨
          cleanTriplet ext parts p1 p2 p3 = false := by
        simp only [sameEventAccepted, Bool.and_eq_true, Bool.not_eq_true', not_and,
          Bool.not_eq_true] at hacc
        cases hc : closePairRejected ext.isClosePairSE task parts magFieldTesla
          (ext.getQ3 p1 task.mMassOne p2 task.mMassTwo p3 task.mMassThree) p1 p2 p3
        · exact Or.inr (hacc hc)
        · exact Or.inl rfl
      rw [if_pos hyes, List.filter_cons_of_neg hacc]

theorem doSameEvent_eq (ext : Collaborators) (task : Task) (isMC : Bool)
    (pool parts : List FDParticle) (magFieldTesla : ℚ) (multCol : Int) (centCol : ℚ)
    (fills : List Fill) :
    doSameEvent ext task isMC pool parts magFieldTesla multCol centCol fills =
      fills ++
        (pool.map (fun part => Fill.trackHistoSelectedParts isMC part multCol centCol) ++
        (Fill.NumberOfTacksPassingSelection pool.length ::
        (((combinationsStrictlyUpperIndex pool).filter
            (sameEventAccepted ext task parts magFieldTesla)).flatMap
          (fun t => sameEventAcceptedFills ext task isMC multCol centCol t.1 t.2.1 t.2.2) ++
        [Fill.hTripletsPerEventBelow14
          ((((combinationsStrictlyUpperIndex pool).filter
              (sameEventAccepted ext task parts magFieldTesla)).filter
            (fun t => decide (ext.getQ3 t.1 task.mMassOne t.2.1 task.mMassTwo t.2.2
              task.mMassThree < 14 / 10))).length : Int)]))) := by
  simp only [doSameEvent, foldl_sameEventTriplet, List.append_assoc, List.singleton_append,
    zero_add, List.cons_append, List.nil_append]

theorem filter_flatMap_sameEventAcceptedFills (ext : Collaborators) (task : Task)
    (isMC : Bool) (multCol : Int) (centCol : ℚ)
    (l : List (FDParticle × FDParticle × FDParticle)) :
    (l.flatMap (fun t => sameEventAcceptedFills ext task isMC multCol centCol
        t.1 t.2.1 t.2.2)).filter Fill.isSameEventCont =
      l.map (fun t => Fill.sameEventContSetTriplet isMC t.1 t.2.1 t.2.2 multCol
        (ext.getQ3 t.1 task.mMassOne t.2.1 task.mMassTwo t.2.2 task.mMassThree)) := by
  induction l with
  | nil => rfl
  | cons t ts ih =>
    rw [List.flatMap_cons, List.filter_append, ih, filter_sameEventAcceptedFills]
    rfl

theorem pairwise_of_mem_strictlyUpperPairs {α : Type} (R : α → α → Prop) (l : List α)
    (hl : l.Pairwise R) (a b : α) (h : (a, b) ∈ strictlyUpperPairs l) : R a b := by
  induction l with
  | nil => simp [strictlyUpperPairs] at h
  | cons x xs ih =>
    rw [List.pairwise_cons] at hl
    simp only [strictlyUpperPairs, List.mem_append, List.mem_map, Prod.mk.injEq] at h
    rcases h with ⟨y, hy, rfl, rfl⟩ | h
    · exact hl.1 _ hy
    · exact ih hl.2 h

theorem pairwise_of_mem_combinationsStrictlyUpperIndex {α : Type} (R : α → α → Prop)
    (l : List α) (hl : l.Pairwise R) (a b c : α)
    (h : (a, b, c) ∈ combinationsStrictlyUpperIndex l) : R a b ∧ R b c ∧ R a c := by
  induction l with
  | nil => simp [combinationsStrictlyUpperIndex] at h
  | cons x xs ih =>
    rw [List.pairwise_cons] at hl
    simp only [combinationsStrictlyUpperIndex, List.mem_append, List.mem_map,
      Prod.mk.injEq] at h
    rcases h with ⟨⟨y, z⟩, hyz, rfl, rfl, rfl⟩ | h
    · have hm := mem_of_mem_strictlyUpperPairs xs y z hyz
      exact ⟨hl.1 _ hm.1, pairwise_of_mem_strictlyUpperPairs R xs hl.2 y z hyz, hl.1 _ hm.2⟩
    · exact ih hl.2 h

theorem processSameEvent_eq_of_pool (ext : Collaborators) (task : Task) (col : FDCollision)
    (table parts : List FDParticle) (fills : List Fill) (pool : List FDParticle)
    (hpool : sliceByCached (SelectedParts ext task.cfg) table col.globalIndex = pool)
    (hlen : ¬ pool.length < 3) :
    processSameEvent ext task col table parts fills =
      fills ++
        (Fill.hSECollisionBins (ext.getBin col.posZ col.multNtr) ::
        (Fill.eventHistoQA false col ::
        (pool.map (fun part =>
            Fill.trackHistoALLSelectedParts false part col.multNtr col.multV0M) ++
        (pool.map (fun part =>
            Fill.trackHistoSelectedParts false part col.multNtr col.multV0M) ++
        (Fill.NumberOfTacksPassingSelection pool.length ::
        (((combinationsStrictlyUpperIndex pool).filter
            (sameEventAccepted ext task parts col.magField)).flatMap
          (fun t => sameEventAcceptedFills ext task false col.multNtr col.multV0M
            t.1 t.2.1 t.2.2) ++
        [Fill.hTripletsPerEventBelow14
          ((((combinationsStrictlyUpperIndex pool).filter
              (sameEventAccepted ext task parts col.magField)).filter
            (fun t => decide (ext.getQ3 t.1 task.mMassOne t.2.1 task.mMassTwo t.2.2
              task.mMassThree < 14 / 10))).length : Int)])))))) := by
  simp only [processSameEvent, hpool, if_neg hlen, doSameEvent_eq, fillCollision,
    List.append_assoc, List.cons_append, List.nil_append]

theorem sliceByCached_demo_three :
    sliceByCached (SelectedParts demoExt demoTask.cfg)
        [demoParticle 0 0, demoParticle 1 0, demoParticle 2 0, demoParticle 3 1]
        (demoCollision 0 (1 / 2)).globalIndex =
      [demoParticle 0 0, demoParticle 1 0, demoParticle 2 0] := by
  have h0 := SelectedParts_demoParticle 0 0
  have h1 := SelectedParts_demoParticle 1 0
  have h2 := SelectedParts_demoParticle 2 0
  have h3 := SelectedParts_demoParticle 3 1
  simp only [sliceByCached, demoTask, List.filter, h0, h1, h2, h3]
  simp [demoParticle, demoCollision]

/-- C17: for a collision with exactly three selected particles whose triplet has
Q3 below 1.4 and below ConfMaxQ3ForkStarPlots, has no close pair (or close-pair
rejection is off) and passes the cleaner, `processSameEvent` issues exactly one
`sameEventCont.setTriplet` call with that Q3, exactly one fill of
`hTripletsPerEventBelow14`, with the value 1, and exactly one fill of each of
`kstartkstarLargestLargest` and `kstartkstarLargestSmallest`. -/
theorem processSameEvent_three_selected_particles (ext : Collaborators) (task : Task)
    (col : FDCollision) (table parts : List FDParticle) (fills : List Fill)
    (a b c : FDParticle)
    (hpool : sliceByCached (SelectedParts ext task.cfg) table col.globalIndex = [a, b, c])
    (hbelow14 : ext.getQ3 a task.mMassOne b task.mMassTwo c task.mMassThree < 14 / 10)
    (hfork : ext.getQ3 a task.mMassOne b task.mMassTwo c task.mMassThree <
      task.cfg.ConfMaxQ3ForkStarPlots)
    (hclose : task.cfg.ConfIsCPR = false ∨
      (ext.isClosePairSE a b parts col.magField
          (ext.getQ3 a task.mMassOne b task.mMassTwo c task.mMassThree) = false ∧
       ext.isClosePairSE b c parts col.magField
          (ext.getQ3 a task.mMassOne b task.mMassTwo c task.mMassThree) = false ∧
       ext.isClosePairSE a c parts col.magField
          (ext.getQ3 a task.mMassOne b task.mMassTwo c task.mMassThree) = false))
    (hclean : ext.isCleanPair a b parts = true ∧ ext.isCleanPair b c parts = true ∧
      ext.isCleanPair a c parts = true) :
    ∃ new, processSameEvent ext task col table parts fills = fills ++ new ∧
      new.filter Fill.isSameEventCont =
        [Fill.sameEventContSetTriplet false a b c col.multNtr
          (ext.getQ3 a task.mMassOne b task.mMassTwo c task.mMassThree)] ∧
      new.filter Fill.isTripletsPerEventBelow14 = [Fill.hTripletsPerEventBelow14 1] ∧
      new.filter Fill.isKstarLargestLargest =
        [Fill.kstartkstarLargestLargest
          ((sortedKij (ext.getkstar a task.mMassOne b task.mMassTwo)
            (ext.getkstar a task.mMassOne c task.mMassThree)
            (ext.getkstar b task.mMassTwo c task.mMassThree)).getD 1 0)
          ((sortedKij (ext.getkstar a task.mMassOne b task.mMassTwo)
            (ext.getkstar a task.mMassOne c task.mMassThree)
            (ext.getkstar b task.mMassTwo c task.mMassThree)).getD 2 0)] ∧
      new.filter Fill.isKstarLargestSmallest =
        [Fill.kstartkstarLargestSmallest
          ((sortedKij (ext.getkstar a task.mMassOne b task.mMassTwo)
            (ext.getkstar a task.mMassOne c task.mMassThree)
            (ext.getkstar b task.mMassTwo c task.mMassThree)).getD 0 0)
          ((sortedKij (ext.getkstar a task.mMassOne b task.mMassTwo)
            (ext.getkstar a task.mMassOne c task.mMassThree)
            (ext.getkstar b task.mMassTwo c task.mMassThree)).getD 2 0)] := by
  have hacc : sameEventAccepted ext task parts col.magField (a, b, c) = true := by
    simp only [sameEventAccepted, closePairRejected, cleanTriplet, hclean.1, hclean.2.1,
      hclean.2.2, Bool.and_true]
    rcases hclose with h | ⟨h1, h2, h3⟩
    · simp [h]
    · simp [h1, h2, h3]
  have hcomb : combinationsStrictlyUpperIndex [a, b, c] = [(a, b, c)] := rfl
  have hlen : ¬ ([a, b, c].length < 3) := by simp
  have hproc := processSameEvent_eq_of_pool ext task col table parts fills [a, b, c] hpool hlen
  have h14 : List.filter (fun t : FDParticle × FDParticle × FDParticle =>
      decide (ext.getQ3 t.1 task.mMassOne t.2.1 task.mMassTwo t.2.2 task.mMassThree < 14 / 10))
      [(a, b, c)] = [(a, b, c)] := by
    simp [hbelow14]
  refine ⟨_, hproc, ?_, ?_, ?_, ?_⟩
  all_goals
    simp only [hcomb, List.filter_cons_of_pos hacc, List.filter_nil, List.flatMap_cons,
      List.flatMap_nil, List.append_nil, sameEventAcceptedFills, if_pos hfork,
      decide_eq_true hbelow14, List.filter_append, List.length_cons, List.length_nil]
    split_ifs <;>
      simp [Fill.isSameEventCont, Fill.isTripletsPerEventBelow14, Fill.isKstarLargestLargest,
        Fill.isKstarLargestSmallest, h14]

/-- Witness of C17: a collision with three selected particles, Q3 = 0.35 and the
cutoff 0.4. -/
theorem processSameEvent_three_selected_particles_witness :
    ∃ new, processSameEvent demoExt demoTask (demoCollision 0 (1 / 2))
        [demoParticle 0 0, demoParticle 1 0, demoParticle 2 0, demoParticle 3 1]
        [demoParticle 0 0, demoParticle 1 0, demoParticle 2 0] [] = [] ++ new ∧
      new.filter Fill.isSameEventCont =
        [Fill.sameEventContSetTriplet false (demoParticle 0 0) (demoParticle 1 0)
          (demoParticle 2 0) 10 (35 / 100)] ∧
      new.filter Fill.isTripletsPerEventBelow14 = [Fill.hTripletsPerEventBelow14 1] :=
  have h := processSameEvent_three_selected_particles demoExt demoTask
    (demoCollision 0 (1 / 2))
    [demoParticle 0 0, demoParticle 1 0, demoParticle 2 0, demoParticle 3 1]
    [demoParticle 0 0, demoParticle 1 0, demoParticle 2 0] []
    (demoParticle 0 0) (demoParticle 1 0) (demoParticle 2 0)
    sliceByCached_demo_three
    (by norm_num [demoExt])
    (by norm_num [demoExt, demoTask, demoCfg])
    (Or.inr ⟨rfl, rfl, rfl⟩)
    (by simp [demoExt, demoParticle])
  match h with
  | ⟨new, h1, h2, h3, _⟩ => ⟨new, h1, h2, h3⟩

/-- C18: in `processMixedEventMasked` and its Monte Carlo variant the
collisions handed to the event mixer are those for which some k in (1, 2, 3)
has ConfTracksInMixedEvent = k and (bitmaskTrack_k & MaskBit) == MaskBit; only
the bitmask of the configured count is consulted. -/
theorem processMixedEventMasked_participation (ext : Collaborators) (task : Task)
    (cols : List FDCollision) (table parts : List FDParticle) (fills : List Fill)
    (col : FDCollision) :
    (PartitionMaskedCol1 task col = true ↔
      ∃ k : ℕ, (k = 1 ∨ k = 2 ∨ k = 3) ∧ task.cfg.ConfTracksInMixedEvent = (k : ℚ) ∧
        bitmaskTrack col k &&& task.MaskBit = task.MaskBit) ∧
    (col ∈ cols.filter (PartitionMaskedCol1 task) ↔
      col ∈ cols ∧ ∃ k : ℕ, (k = 1 ∨ k = 2 ∨ k = 3) ∧
        task.cfg.ConfTracksInMixedEvent = (k : ℚ) ∧
        bitmaskTrack col k &&& task.MaskBit = task.MaskBit) ∧
    processMixedEventMasked ext task cols table parts fills =
      (ext.selfCombinations task.cfg.ConfNEventsMix
          (cols.filter (PartitionMaskedCol1 task))).foldl
        (mixedEventCollisionTriple ext task false (SelectedParts ext task.cfg) table parts)
        fills ∧
    processMixedEventMCMasked ext task cols table parts fills =
      (ext.selfCombinations task.cfg.ConfNEventsMix
          (cols.filter (PartitionMaskedCol1 task))).foldl
        (mixedEventCollisionTriple ext task true (SelectedPartsMC ext task.cfg) table parts)
        fills ∧
    (task.cfg.ConfTracksInMixedEvent = 1 → ∀ two three,
      PartitionMaskedCol1 task { col with bitmaskTrackTwo := two, bitmaskTrackThree := three } =
        PartitionMaskedCol1 task col) ∧
    (task.cfg.ConfTracksInMixedEvent = 2 → ∀ one three,
      PartitionMaskedCol1 task { col with bitmaskTrackOne := one, bitmaskTrackThree := three } =
        PartitionMaskedCol1 task col) ∧
    (task.cfg.ConfTracksInMixedEvent = 3 → ∀ one two,
      PartitionMaskedCol1 task { col with bitmaskTrackOne := one, bitmaskTrackTwo := two } =
        PartitionMaskedCol1 task col) ∧
    (task.cfg.ConfTracksInMixedEvent ≠ 1 → task.cfg.ConfTracksInMixedEvent ≠ 2 →
      task.cfg.ConfTracksInMixedEvent ≠ 3 → PartitionMaskedCol1 task col = false) := by
  have hiff : PartitionMaskedCol1 task col = true ↔
      ∃ k : ℕ, (k = 1 ∨ k = 2 ∨ k = 3) ∧ task.cfg.ConfTracksInMixedEvent = (k : ℚ) ∧
        bitmaskTrack col k &&& task.MaskBit = task.MaskBit := by
    simp only [PartitionMaskedCol1, Bool.or_eq_true, Bool.and_eq_true, decide_eq_true_eq,
      beq_iff_eq]
    constructor
    · rintro ((⟨h1, h2⟩ | ⟨h1, h2⟩) | ⟨h1, h2⟩)
      · exact ⟨1, Or.inl rfl, by simpa using h1, by simpa [bitmaskTrack] using h2⟩
      · exact ⟨2, Or.inr (Or.inl rfl), by simpa using h1, by simpa [bitmaskTrack] using h2⟩
      · exact ⟨3, Or.inr (Or.inr rfl), by simpa using h1, by simpa [bitmaskTrack] using h2⟩
    · rintro ⟨k, (rfl | rfl | rfl), h1, h2⟩
      · exact Or.inl (Or.inl ⟨by simpa using h1, by simpa [bitmaskTrack] using h2⟩)
      · exact Or.inl (Or.inr ⟨by simpa using h1, by simpa [bitmaskTrack] using h2⟩)
      · exact Or.inr ⟨by simpa using h1, by simpa [bitmaskTrack] using h2⟩
  refine ⟨hiff, ?_, rfl, rfl, ?_, ?_, ?_, ?_⟩
  · rw [List.mem_filter, hiff]
  · intro h two three
    simp [PartitionMaskedCol1, h]
  · intro h one three
    simp [PartitionMaskedCol1, h]
  · intro h one two
    simp [PartitionMaskedCol1, h]
  · intro h1 h2 h3
    simp [PartitionMaskedCol1, h1, h2, h3]

/-- C19: one pass of the triplet loop of `doMixedEvent` appends exactly one
`mixedEventCont.setTriplet` call when close-pair rejection is off or flags none
of the three pairs, and otherwise leaves the fills as they were; neither the
pass nor any mixed-event process function depends on the identity cleaner
`isCleanPair`. -/
theorem doMixedEvent_setTriplet_iff_accepted (ext : Collaborators) (task : Task)
    (isMC : Bool) (cols : List FDCollision) (table parts : List FDParticle)
    (magFieldTesla : ℚ) (multCol : Int)
    (fills : List Fill) (p1 p2 p3 : FDParticle) :
    let Q3 := ext.getQ3 p1 task.mMassOne p2 task.mMassTwo p3 task.mMassThree
    let accepted : Prop :=
      task.cfg.ConfIsCPR = false ∨
        (ext.isClosePairME p1 p2 parts magFieldTesla Q3 = false ∧
         ext.isClosePairME p2 p3 parts magFieldTesla Q3 = false ∧
         ext.isClosePairME p1 p3 parts magFieldTesla Q3 = false)
    let fills' := mixedEventTriplet ext task isMC parts magFieldTesla multCol fills (p1, p2, p3)
    (accepted → ∃ new, fills' = fills ++ new ∧
        new.filter Fill.isMixedEventCont =
          [Fill.mixedEventContSetTriplet isMC p1 p2 p3 multCol Q3]) ∧
    (¬ accepted → fills' = fills) ∧
    (∀ cleaner : FDParticle → FDParticle → List FDParticle → Bool,
      mixedEventTriplet { ext with isCleanPair := cleaner } task isMC parts magFieldTesla
        multCol fills (p1, p2, p3) = fills' ∧
      processMixedEvent { ext with isCleanPair := cleaner } task cols table parts fills =
        processMixedEvent ext task cols table parts fills ∧
      processMixedEventMasked { ext with isCleanPair := cleaner } task cols table parts fills =
        processMixedEventMasked ext task cols table parts fills ∧
      processMixedEventMC { ext with isCleanPair := cleaner } task cols table parts fills =
        processMixedEventMC ext task cols table parts fills ∧
      processMixedEventMCMasked { ext with isCleanPair := cleaner } task cols table parts fills =
        processMixedEventMCMasked ext task cols table parts fills) := by
  intro Q3 accepted fills'
  have hst := mixedEventTriplet_eq ext task isMC parts magFieldTesla multCol fills p1 p2 p3
  have hacc : accepted ↔ ¬ (closePairRejected ext.isClosePairME task parts magFieldTesla
      Q3 p1 p2 p3 = true) := by
    simp only [accepted, closePairRejected]
    cases task.cfg.ConfIsCPR <;>
    cases ext.isClosePairME p1 p2 parts magFieldTesla Q3 <;>
    cases ext.isClosePairME p2 p3 parts magFieldTesla Q3 <;>
    cases ext.isClosePairME p1 p3 parts magFieldTesla Q3 <;>
    simp
  refine ⟨fun h => ?_, fun h => ?_, fun cleaner => ⟨rfl, rfl, rfl, rfl, rfl⟩⟩
  · refine ⟨mixedEventAcceptedFills ext task isMC multCol p1 p2 p3, ?_,
      filter_mixedEventAcceptedFills ext task isMC multCol p1 p2 p3⟩
    simp only [fills', hst, if_neg (hacc.1 h)]
  · have h2 := not_not.1 (fun hn => h (hacc.2 hn))
    simp only [fills', hst, if_pos h2]

/-- C20: if `isCleanPair` returns false only for two particles with the same
(collision, index) identity and the pool holds particles of pairwise different
identity, then the cleaner passes every triplet enumerated by `doSameEvent`,
and with ConfIsCPR off `doSameEvent` issues exactly C(N,3)
`sameEventCont.setTriplet` calls for a pool of N particles. -/
theorem doSameEvent_clean_pool_counts_all (ext : Collaborators) (task : Task) (isMC : Bool)
    (pool parts : List FDParticle) (magFieldTesla : ℚ) (multCol : Int) (centCol : ℚ)
    (fills : List Fill)
    (hcleaner : ∀ p q ps, ext.isCleanPair p q ps = false →
      p.fdCollisionId = q.fdCollisionId ∧ p.globalIndex = q.globalIndex)
    (hpool : pool.Pairwise (fun p q =>
      ¬ (p.fdCollisionId = q.fdCollisionId ∧ p.globalIndex = q.globalIndex))) :
    (∀ t ∈ combinationsStrictlyUpperIndex pool, cleanTriplet ext parts t.1 t.2.1 t.2.2 = true) ∧
    (task.cfg.ConfIsCPR = false →
      ((doSameEvent ext task isMC pool parts magFieldTesla multCol centCol fills).filter
          Fill.isSameEventCont).length =
        (fills.filter Fill.isSameEventCont).length + pool.length.choose 3) := by
  have hclean : ∀ t ∈ combinationsStrictlyUpperIndex pool,
      cleanTriplet ext parts t.1 t.2.1 t.2.2 = true := by
    rintro ⟨a, b, c⟩ ht
    obtain ⟨hab, hbc, hac⟩ := pairwise_of_mem_combinationsStrictlyUpperIndex _ pool hpool a b c ht
    have h1 : ext.isCleanPair a b parts = true := by
      cases h : ext.isCleanPair a b parts
      · exact absurd (hcleaner a b parts h) hab
      · rfl
    have h2 : ext.isCleanPair b c parts = true := by
      cases h : ext.isCleanPair b c parts
      · exact absurd (hcleaner b c parts h) hbc
      · rfl
    have h3 : ext.isCleanPair a c parts = true := by
      cases h : ext.isCleanPair a c parts
      · exact absurd (hcleaner a c parts h) hac
      · rfl
    simp [cleanTriplet, h1, h2, h3]
  refine ⟨hclean, fun hcpr => ?_⟩
  have hall : (combinationsStrictlyUpperIndex pool).filter
      (sameEventAccepted ext task parts magFieldTesla) = combinationsStrictlyUpperIndex pool := by
    rw [List.filter_eq_self]
    intro t ht
    simp [sameEventAccepted, closePairRejected, hcpr, hclean t ht]
  rw [doSameEvent_eq, hall]
  simp only [List.filter_append, List.filter_cons, List.length_append,
    filter_flatMap_sameEventAcceptedFills, List.length_map,
    length_combinationsStrictlyUpperIndex]
  simp [Fill.isSameEventCont, List.filter_map, Function.comp_def,
    length_combinationsStrictlyUpperIndex]

/-- Witness of C20: four particles at different rows of one collision, the
cleaner of `demoExt` and close-pair rejection off. -/
theorem doSameEvent_clean_pool_counts_all_witness :
    ((doSameEvent demoExt demoTaskNoCPR false
        [demoParticle 0 0, demoParticle 1 0, demoParticle 2 0, demoParticle 3 0]
        [demoParticle 0 0, demoParticle 1 0, demoParticle 2 0, demoParticle 3 0]
        (1 / 2) 10 50 []).filter Fill.isSameEventCont).length = 0 + Nat.choose 4 3 :=
  (doSameEvent_clean_pool_counts_all demoExt demoTaskNoCPR false
    [demoParticle 0 0, demoParticle 1 0, demoParticle 2 0, demoParticle 3 0]
    [demoParticle 0 0, demoParticle 1 0, demoParticle 2 0, demoParticle 3 0]
    (1 / 2) 10 50 []
    (by
      intro p q ps h
      have hpq : p = q := by simpa [demoExt] using h
      subst hpq
      exact ⟨rfl, rfl⟩)
    (by simp [demoParticle])).2 rfl

/-! ## Facts about the sorted k* values -/

theorem sortedKij_eq (a b c : ℚ) :
    sortedKij a b c = [minimumKij a b c, medianKij a b c, maximumKij a b c] := by
  simp only [sortedKij, List.insertionSort, List.orderedInsert, minimumKij, medianKij,
    maximumKij, min_def, max_def]
  split_ifs <;>
    (try simp only [List.orderedInsert]) <;>
    (try split_ifs) <;>
    (try simp only [List.cons.injEq, and_true, true_and]) <;>
    (try constructorm* _ ∧ _) <;>
    (try linarith)

theorem getD_sortedKij (a b c : ℚ) :
    (sortedKij a b c).getD 0 0 = minimumKij a b c ∧
    (sortedKij a b c).getD 1 0 = medianKij a b c ∧
    (sortedKij a b c).getD 2 0 = maximumKij a b c := by
  rw [sortedKij_eq]
  exact ⟨rfl, rfl, rfl⟩

theorem minimumKij_le_medianKij (a b c : ℚ) : minimumKij a b c ≤ medianKij a b c := by
  simp only [minimumKij, medianKij, min_def, max_def]
  split_ifs <;> linarith

theorem medianKij_le_maximumKij (a b c : ℚ) : medianKij a b c ≤ maximumKij a b c := by
  simp only [maximumKij, medianKij, min_def, max_def]
  split_ifs <;> linarith

theorem sortedKij_perm (a b c : ℚ) :
    sortedKij a c b = sortedKij a b c ∧ sortedKij b a c = sortedKij a b c ∧
    sortedKij b c a = sortedKij a b c ∧ sortedKij c a b = sortedKij a b c ∧
    sortedKij c b a = sortedKij a b c := by
  have key : ∀ x y z : ℚ, List.Perm [x, y, z] [a, b, c] → sortedKij x y z = sortedKij a b c := by
    intro x y z h
    apply List.eq_of_perm_of_sorted (r := fun u v : ℚ => u ≤ v)
    · exact ((List.perm_insertionSort _ _).trans h).trans (List.perm_insertionSort _ _).symm
    · exact List.sorted_insertionSort _ _
    · exact List.sorted_insertionSort _ _
  refine ⟨key _ _ _ ?_, key _ _ _ ?_, key _ _ _ ?_, key _ _ _ ?_, key _ _ _ ?_⟩
  · exact (List.Perm.swap b c []).cons a
  · exact List.Perm.swap a b [c]
  · exact ((List.Perm.swap a c []).cons b).trans (List.Perm.swap a b [c])
  · exact (List.Perm.swap a c [b]).trans ((List.Perm.swap b c []).cons a)
  · exact ((List.Perm.swap a b []).cons c).trans
      ((List.Perm.swap a c [b]).trans ((List.Perm.swap b c []).cons a))

theorem filter_sameEventAcceptedFills_below14 (ext : Collaborators) (task : Task)
    (isMC : Bool) (multCol : Int) (centCol : ℚ) (p1 p2 p3 : FDParticle) :
    (sameEventAcceptedFills ext task isMC multCol centCol p1 p2 p3).filter
        Fill.isTripletsPerEventBelow14 = [] := by
  simp only [sameEventAcceptedFills, List.filter_append]
  split_ifs <;> simp [Fill.isTripletsPerEventBelow14]

theorem filter_flatMap_sameEventAcceptedFills_below14 (ext : Collaborators) (task : Task)
    (isMC : Bool) (multCol : Int) (centCol : ℚ)
    (l : List (FDParticle × FDParticle × FDParticle)) :
    (l.flatMap (fun t => sameEventAcceptedFills ext task isMC multCol centCol
        t.1 t.2.1 t.2.2)).filter Fill.isTripletsPerEventBelow14 = [] := by
  induction l with
  | nil => rfl
  | cons t ts ih =>
    rw [List.flatMap_cons, List.filter_append, ih, filter_sameEventAcceptedFills_below14]
    rfl

theorem hMECollisionBins_not_mem_mixedEventAcceptedFills (ext : Collaborators) (task : Task)
    (isMC : Bool) (multCol : Int) (p1 p2 p3 : FDParticle) (bin : Int) :
    Fill.hMECollisionBins bin ∉ mixedEventAcceptedFills ext task isMC multCol p1 p2 p3 := by
  intro h
  simp only [mixedEventAcceptedFills] at h
  split_ifs at h <;> simp at h

theorem doMixedEvent_fills_first_collision (ext : Collaborators) (task : Task) (isMC : Bool)
    (g1 g2 g3 parts : List FDParticle) (magFieldTesla : ℚ) (multCol : Int)
    (fills : List Fill) :
    ∃ new, doMixedEvent ext task isMC g1 g2 g3 parts magFieldTesla multCol fills =
        fills ++ new ∧
      ∀ f ∈ new, (∀ bin, f ≠ Fill.hMECollisionBins bin) ∧
        ∀ b q1 q2 q3 m Q3, f = Fill.mixedEventContSetTriplet b q1 q2 q3 m Q3 → m = multCol := by
  apply foldl_fills_forall
  rintro ⟨p1, p2, p3⟩ _ fs
  rw [mixedEventTriplet_eq]
  split_ifs
  · exact ⟨[], by simp, by simp⟩
  · refine ⟨_, rfl, ?_⟩
    intro f hf
    refine ⟨fun bin he => ?_, fun b q1 q2 q3 m Q3 he => ?_⟩
    · subst he
      exact hMECollisionBins_not_mem_mixedEventAcceptedFills ext task isMC multCol p1 p2 p3 bin hf
    · subst he
      exact (mem_mixedEventAcceptedFills_setTriplet ext task isMC multCol p1 p2 p3
        _ _ _ _ _ _ hf).2.2.2.2.1

/-! ## Sorted k* diagnostics, triplet counter, defaults and frame effects -/

/-- C21: for a triplet that survives close-pair rejection and cleaning,
`doSameEvent` fills `kstartkstarLargestLargest` with (median, maximum) and
`kstartkstarLargestSmallest` with (minimum, maximum) of k12, k13, k23 when
Q3 < ConfMaxQ3ForkStarPlots and fills neither otherwise; `doMixedEvent` does
the same with the ME histograms for a triplet that survives close-pair
rejection; in every such fill the first coordinate is at most the second. -/
theorem sortedKstar_fills (ext : Collaborators) (task : Task) (isMC : Bool)
    (parts : List FDParticle) (magFieldTesla : ℚ) (multCol : Int) (centCol : ℚ)
    (st : LoopState) (fills : List Fill) (p1 p2 p3 : FDParticle) :
    let Q3 := ext.getQ3 p1 task.mMassOne p2 task.mMassTwo p3 task.mMassThree
    let k12 := ext.getkstar p1 task.mMassOne p2 task.mMassTwo
    let k13 := ext.getkstar p1 task.mMassOne p3 task.mMassThree
    let k23 := ext.getkstar p2 task.mMassTwo p3 task.mMassThree
    (sameEventAccepted ext task parts magFieldTesla (p1, p2, p3) = true →
      ∃ new, (sameEventTriplet ext task isMC parts magFieldTesla multCol centCol st
          (p1, p2, p3)).fills = st.fills ++ new ∧
        new.filter Fill.isKstarLargestLargest =
          (if Q3 < task.cfg.ConfMaxQ3ForkStarPlots then
            [Fill.kstartkstarLargestLargest (medianKij k12 k13 k23) (maximumKij k12 k13 k23)]
           else []) ∧
        new.filter Fill.isKstarLargestSmallest =
          (if Q3 < task.cfg.ConfMaxQ3ForkStarPlots then
            [Fill.kstartkstarLargestSmallest (minimumKij k12 k13 k23) (maximumKij k12 k13 k23)]
           else [])) ∧
    (mixedEventAccepted ext task parts magFieldTesla (p1, p2, p3) = true →
      ∃ new, mixedEventTriplet ext task isMC parts magFieldTesla multCol fills (p1, p2, p3) =
          fills ++ new ∧
        new.filter Fill.isKstarLargestLargestME =
          (if Q3 < task.cfg.ConfMaxQ3ForkStarPlots then
            [Fill.kstartkstarLargestLargestME (medianKij k12 k13 k23) (maximumKij k12 k13 k23)]
           else []) ∧
        new.filter Fill.isKstarLargestSmallestME =
          (if Q3 < task.cfg.ConfMaxQ3ForkStarPlots then
            [Fill.kstartkstarLargestSmallestME (minimumKij k12 k13 k23)
              (maximumKij k12 k13 k23)]
           else [])) ∧
    medianKij k12 k13 k23 ≤ maximumKij k12 k13 k23 ∧
    minimumKij k12 k13 k23 ≤ maximumKij k12 k13 k23 ∧
    minimumKij k12 k13 k23 ≤ k12 ∧ minimumKij k12 k13 k23 ≤ k13 ∧
    minimumKij k12 k13 k23 ≤ k23 ∧ k12 ≤ maximumKij k12 k13 k23 ∧
    k13 ≤ maximumKij k12 k13 k23 ∧ k23 ≤ maximumKij k12 k13 k23 := by
  intro Q3 k12 k13 k23
  obtain ⟨g0, g1, g2⟩ := getD_sortedKij k12 k13 k23
  refine ⟨fun hacc => ?_, fun hacc => ?_, medianKij_le_maximumKij _ _ _,
    (minimumKij_le_medianKij _ _ _).trans (medianKij_le_maximumKij _ _ _), ?_, ?_, ?_, ?_, ?_, ?_⟩
  · have hno : ¬ (closePairRejected ext.isClosePairSE task parts magFieldTesla
        (ext.getQ3 p1 task.mMassOne p2 task.mMassTwo p3 task.mMassThree) p1 p2 p3 = true ∨
        cleanTriplet ext parts p1 p2 p3 = false) := by
      simp only [sameEventAccepted, Bool.and_eq_true, Bool.not_eq_true'] at hacc
      rintro (h | h)
      · rw [hacc.1] at h; exact Bool.noConfusion h
      · rw [hacc.2] at h; exact Bool.noConfusion h
    refine ⟨sameEventAcceptedFills ext task isMC multCol centCol p1 p2 p3, ?_, ?_, ?_⟩
    · rw [sameEventTriplet_eq, if_neg hno]
    · simp only [sameEventAcceptedFills, List.filter_append, g1, g2]
      split_ifs <;> simp [Fill.isKstarLargestLargest, Q3, k12, k13, k23]
    · simp only [sameEventAcceptedFills, List.filter_append, g0, g2]
      split_ifs <;> simp [Fill.isKstarLargestSmallest, Q3, k12, k13, k23]
  · have hno : ¬ (closePairRejected ext.isClosePairME task parts magFieldTesla
        (ext.getQ3 p1 task.mMassOne p2 task.mMassTwo p3 task.mMassThree) p1 p2 p3 = true) := by
      simp only [mixedEventAccepted, Bool.not_eq_true'] at hacc
      intro h
      rw [hacc] at h; exact Bool.noConfusion h
    refine ⟨mixedEventAcceptedFills ext task isMC multCol p1 p2 p3, ?_, ?_, ?_⟩
    · rw [mixedEventTriplet_eq, if_neg hno]
    · simp only [mixedEventAcceptedFills, List.filter_append, g1, g2]
      split_ifs <;> simp [Fill.isKstarLargestLargestME, Q3, k12, k13, k23]
    · simp only [mixedEventAcceptedFills, List.filter_append, g0, g2]
      split_ifs <;> simp [Fill.isKstarLargestSmallestME, Q3, k12, k13, k23]
  · exact min_le_left _ _
  · exact (min_le_right _ _).trans (min_le_left _ _)
  · exact (min_le_right _ _).trans (min_le_right _ _)
  · exact le_max_left _ _
  · exact (le_max_left _ _).trans (le_max_right _ _)
  · exact (le_max_right _ _).trans (le_max_right _ _)

/-- C22: the sorted k* values are the same for every permutation of the three
pairwise values (k12, k13, k23); hence, when `getkstar` gives the same value
for a pair of particles of one mass in either order and the three masses are
equal, the values filled into the two sorted-k* histograms are the same for
all six orders in which p1, p2, p3 can be delivered. -/
theorem sortedKstar_order_independent (ext : Collaborators) (task : Task)
    (p1 p2 p3 : FDParticle) (a b c : ℚ) :
    (sortedKij a c b = sortedKij a b c ∧ sortedKij b a c = sortedKij a b c ∧
      sortedKij b c a = sortedKij a b c ∧ sortedKij c a b = sortedKij a b c ∧
      sortedKij c b a = sortedKij a b c) ∧
    ((∀ p q m, ext.getkstar p m q m = ext.getkstar q m p m) →
      task.mMassOne = task.mMassTwo → task.mMassTwo = task.mMassThree →
      let sorted := fun q1 q2 q3 : FDParticle =>
        sortedKij (ext.getkstar q1 task.mMassOne q2 task.mMassTwo)
          (ext.getkstar q1 task.mMassOne q3 task.mMassThree)
          (ext.getkstar q2 task.mMassTwo q3 task.mMassThree)
      sorted p1 p3 p2 = sorted p1 p2 p3 ∧ sorted p2 p1 p3 = sorted p1 p2 p3 ∧
      sorted p2 p3 p1 = sorted p1 p2 p3 ∧ sorted p3 p1 p2 = sorted p1 p2 p3 ∧
      sorted p3 p2 p1 = sorted p1 p2 p3) := by
  refine ⟨sortedKij_perm a b c, ?_⟩
  intro hsym h12 h23 sorted
  simp only [sorted, ← h23, ← h12]
  obtain ⟨s1, s2, s3, s4, s5⟩ := sortedKij_perm (ext.getkstar p1 task.mMassOne p2 task.mMassOne)
    (ext.getkstar p1 task.mMassOne p3 task.mMassOne)
    (ext.getkstar p2 task.mMassOne p3 task.mMassOne)
  refine ⟨?_, ?_, ?_, ?_, ?_⟩
  · rw [hsym p3 p2 task.mMassOne]; exact s2
  · rw [hsym p2 p1 task.mMassOne]; exact s1
  · rw [hsym p2 p1 task.mMassOne, hsym p3 p1 task.mMassOne]; exact s4
  · rw [hsym p3 p1 task.mMassOne, hsym p3 p2 task.mMassOne]; exact s3
  · rw [hsym p3 p2 task.mMassOne, hsym p3 p1 task.mMassOne, hsym p2 p1 task.mMassOne]
    exact s5

/-- C23: every call of `doSameEvent` fills `hTripletsPerEventBelow14` exactly
once, as its last fill, with the number of enumerated triplets that pass
close-pair rejection and cleaning and have Q3 < 1.4; this number lies between
0 and C(N,3) for a pool of N particles. -/
theorem doSameEvent_triplets_below14 (ext : Collaborators) (task : Task) (isMC : Bool)
    (pool parts : List FDParticle) (magFieldTesla : ℚ) (multCol : Int) (centCol : ℚ)
    (fills : List Fill) :
    ∃ pre, ∃ n : ℕ,
      doSameEvent ext task isMC pool parts magFieldTesla multCol centCol fills =
        fills ++ pre ++ [Fill.hTripletsPerEventBelow14 n] ∧
      pre.filter Fill.isTripletsPerEventBelow14 = [] ∧
      n = ((combinationsStrictlyUpperIndex pool).filter (fun t =>
        sameEventAccepted ext task parts magFieldTesla t &&
        decide (ext.getQ3 t.1 task.mMassOne t.2.1 task.mMassTwo t.2.2 task.mMassThree <
          14 / 10))).length ∧
      n ≤ pool.length.choose 3 := by
  refine ⟨pool.map (fun part => Fill.trackHistoSelectedParts isMC part multCol centCol) ++
      (Fill.NumberOfTacksPassingSelection pool.length ::
        ((combinationsStrictlyUpperIndex pool).filter
            (sameEventAccepted ext task parts magFieldTesla)).flatMap
          (fun t => sameEventAcceptedFills ext task isMC multCol centCol t.1 t.2.1 t.2.2)),
    (((combinationsStrictlyUpperIndex pool).filter
        (sameEventAccepted ext task parts magFieldTesla)).filter
      (fun t => decide (ext.getQ3 t.1 task.mMassOne t.2.1 task.mMassTwo t.2.2
        task.mMassThree < 14 / 10))).length, ?_, ?_, ?_, ?_⟩
  · rw [doSameEvent_eq]
    simp only [List.cons_append, List.append_assoc]
  · rw [List.filter_append, List.filter_cons, filter_flatMap_sameEventAcceptedFills_below14]
    simp [Fill.isTripletsPerEventBelow14, List.filter_map, Function.comp_def]
  · rw [List.filter_filter]
    congr 2
    funext t
    exact Bool.and_comm _ _
  · rw [← length_combinationsStrictlyUpperIndex]
    exact ((List.length_filter_le _ _).trans (List.length_filter_le _ _))

/-- C24: under the default configuration (ConfMinDCAxy = 0.1, ConfMaxDCAxy =
-0.1, ConfDCACutPtDep off) `SelectedParts` rejects every particle and every
selected pool is empty; in general, with ConfDCACutPtDep off and ConfMinDCAxy
above ConfMaxDCAxy, every particle is rejected and every pool is empty. -/
theorem SelectedParts_default_window_empty (ext : Collaborators) (cfg : Config)
    (p : FDParticle) (table : List FDParticle) (id : Int) :
    ({} : Config).ConfMinDCAxy = 1 / 10 ∧ ({} : Config).ConfMaxDCAxy = -1 / 10 ∧
    ({} : Config).ConfDCACutPtDep = false ∧
    ¬ (({} : Config).ConfMinDCAxy ≤ p.tempFitVar ∧ p.tempFitVar ≤ ({} : Config).ConfMaxDCAxy) ∧
    SelectedParts ext {} p = false ∧
    sliceByCached (SelectedParts ext {}) table id = [] ∧
    (cfg.ConfDCACutPtDep = false → cfg.ConfMinDCAxy > cfg.ConfMaxDCAxy →
      SelectedParts ext cfg p = false ∧ sliceByCached (SelectedParts ext cfg) table id = []) := by
  have hgen : ∀ c : Config, c.ConfDCACutPtDep = false → c.ConfMinDCAxy > c.ConfMaxDCAxy →
      ∀ q, SelectedParts ext c q = false := by
    intro c hdep hgt q
    have hw : ¬ (q.tempFitVar ≥ c.ConfMinDCAxy ∧ q.tempFitVar ≤ c.ConfMaxDCAxy) := by
      rintro ⟨h1, h2⟩
      exact absurd (lt_of_lt_of_le hgt h1) (not_lt.2 h2)
    simp only [SelectedParts, hdep, Bool.false_eq_true, if_false]
    have : (decide (q.tempFitVar ≥ c.ConfMinDCAxy) && decide (q.tempFitVar ≤ c.ConfMaxDCAxy)) =
        false := by
      rw [Bool.and_eq_false_iff, decide_eq_false_iff_not, decide_eq_false_iff_not]
      by_contra hc
      push_neg at hc
      exact hw hc
    rw [this, Bool.and_false]
  have hslice : ∀ c : Config, (∀ q, SelectedParts ext c q = false) →
      sliceByCached (SelectedParts ext c) table id = [] := by
    intro c hc
    simp [sliceByCached, hc]
  have hdef : ({} : Config).ConfMinDCAxy > ({} : Config).ConfMaxDCAxy := by
    show (-1 / 10 : ℚ) < 1 / 10
    norm_num
  refine ⟨rfl, rfl, rfl, ?_, hgen {} rfl hdef p, hslice {} (hgen {} rfl hdef),
    fun hdep hgt => ⟨hgen cfg hdep hgt p, hslice cfg (hgen cfg hdep hgt)⟩⟩
  rintro ⟨h1, h2⟩
  exact absurd (lt_of_lt_of_le hdef h1) (not_lt.2 h2)

/-- C25, the code at the failing input: a track with eta = 0, inside
|eta| <= ConfRejectEtaAt0 = 0.02, is accepted by `SelectedParts`, and the
decision of `SelectedParts` is the same for every value of ConfRejectEtaAt0. -/
theorem SelectedParts_ignores_ConfRejectEtaAt0 (ext : Collaborators) (cfg : Config)
    (p : FDParticle) (reject : ℚ) :
    |(demoParticle 0 0).eta| ≤ demoCfg.ConfRejectEtaAt0 ∧
    SelectedParts demoExt demoCfg (demoParticle 0 0) = true ∧
    SelectedParts ext { cfg with ConfRejectEtaAt0 := reject } p = SelectedParts ext cfg p := by
  refine ⟨?_, SelectedParts_demoParticle 0 0, rfl⟩
  norm_num [demoParticle, demoCfg]

/-- C26: the data selector `SelectedParts` and the Monte Carlo selector
`SelectedPartsMC` accept exactly the same particles under every
configuration. -/
theorem SelectedParts_eq_SelectedPartsMC (ext : Collaborators) (cfg : Config)
    (p : FDParticle) :
    (SelectedParts ext cfg p = true ↔ SelectedPartsMC ext cfg p = true) ∧
    SelectedParts ext cfg = SelectedPartsMC ext cfg := by
  have h : SelectedParts ext cfg = SelectedPartsMC ext cfg := by
    funext q
    simp only [SelectedParts, SelectedPartsMC]
  exact ⟨by rw [h], h⟩

/-- C28: in the loop body shared by the four mixed-event process functions the
bin filled into `hMECollisionBins`, the multiplicity of every accumulated
triplet and the magnetic field handed on are those of the first collision:
replacing the multiplicity and the vertex position of the second and third
collision of every iterated triple changes no fill at all. -/
theorem processMixedEvent_first_collision_only (ext : Collaborators) (task : Task)
    (isMC : Bool) (sel : FDParticle → Bool) (table parts : List FDParticle)
    (fills : List Fill) (c1 c2 c3 : FDCollision)
    (triples : List (FDCollision × FDCollision × FDCollision))
    (mult2 mult3 : FDCollision → Int) (posZ2 posZ3 : FDCollision → ℚ) :
    mixedEventCollisionTriple ext task isMC sel table parts fills
        (c1, { c2 with multNtr := mult2 c2, posZ := posZ2 c2 },
          { c3 with multNtr := mult3 c3, posZ := posZ3 c3 }) =
      mixedEventCollisionTriple ext task isMC sel table parts fills (c1, c2, c3) ∧
    (triples.map (fun c => (c.1, { c.2.1 with multNtr := mult2 c.2.1, posZ := posZ2 c.2.1 },
        { c.2.2 with multNtr := mult3 c.2.2, posZ := posZ3 c.2.2 }))).foldl
        (mixedEventCollisionTriple ext task isMC sel table parts) fills =
      triples.foldl (mixedEventCollisionTriple ext task isMC sel table parts) fills ∧
    (∃ new, mixedEventCollisionTriple ext task isMC sel table parts fills (c1, c2, c3) =
        fills ++ Fill.hMECollisionBins (ext.getBin c1.posZ c1.multNtr) :: new ∧
      (∀ bin, Fill.hMECollisionBins bin ∉ new) ∧
      (∀ b q1 q2 q3 m Q3, Fill.mixedEventContSetTriplet b q1 q2 q3 m Q3 ∈ new →
        m = c1.multNtr)) ∧
    (c1.magField = c2.magField ∧ c2.magField = c3.magField →
      mixedEventCollisionTriple ext task isMC sel table parts fills (c1, c2, c3) =
        doMixedEvent ext task isMC (sliceByCached sel table c1.globalIndex)
          (sliceByCached sel table c2.globalIndex) (sliceByCached sel table c3.globalIndex)
          parts c1.magField c1.multNtr
          (fills ++ [Fill.hMECollisionBins (ext.getBin c1.posZ c1.multNtr)])) := by
  refine ⟨rfl, ?_, ?_, ?_⟩
  · induction triples generalizing fills with
    | nil => rfl
    | cons c cs ih =>
      rw [List.map_cons, List.foldl_cons, List.foldl_cons, ih]
      rfl
  · simp only [mixedEventCollisionTriple]
    split_ifs with hne
    · exact ⟨[], by simp, by simp, by simp⟩
    · obtain ⟨new, hnew, hq⟩ := doMixedEvent_fills_first_collision ext task isMC
        (sliceByCached sel table c1.globalIndex) (sliceByCached sel table c2.globalIndex)
        (sliceByCached sel table c3.globalIndex) parts c1.magField c1.multNtr
        (fills ++ [Fill.hMECollisionBins (ext.getBin c1.posZ c1.multNtr)])
      refine ⟨new, ?_, fun bin hmem => (hq _ hmem).1 bin rfl,
        fun b q1 q2 q3 m Q3 hmem => (hq _ hmem).2 b q1 q2 q3 m Q3 rfl⟩
      rw [hnew, List.append_assoc]
      rfl
  · intro h
    have hne : ¬ (c1.magField ≠ c2.magField ∨ c2.magField ≠ c3.magField ∨
        c1.magField ≠ c3.magField) := by
      rintro (h1 | h1 | h1)
      · exact h1 h.1
      · exact h1 h.2
      · exact h1 (h.1.trans h.2)
    simp only [mixedEventCollisionTriple, if_neg hne]

end FemtoDream

/-! ## utilsMcGen.h: theorems -/

namespace hf_mc_gen

theorem mapM_option_spec {α β : Type} (f : α → Option β) (l : List α) (rows : List β)
    (h : l.mapM f = some rows) :
    rows.length = l.length ∧ ∀ r ∈ rows, ∃ x ∈ l, f x = some r := by
  induction l generalizing rows with
  | nil =>
    simp only [List.mapM_nil] at h
    cases h
    exact ⟨rfl, by simp⟩
  | cons a as ih =>
    rw [List.mapM_cons] at h
    cases hfa : f a with
    | none => rw [hfa] at h; exact Option.noConfusion h
    | some b =>
      cases hrest : as.mapM f with
      | none => rw [hfa, hrest] at h; exact Option.noConfusion h
      | some bs =>
        rw [hfa, hrest] at h
        cases h
        obtain ⟨hl, hm⟩ := ih bs hrest
        refine ⟨by simp [hl], ?_⟩
        intro r hr
        rcases List.mem_cons.1 hr with rfl | hr
        · exact ⟨a, List.mem_cons_self _ _, hfa⟩
        · obtain ⟨x, hx, hfx⟩ := hm r hr
          exact ⟨x, List.mem_cons_of_mem _ hx, hfx⟩

theorem daughterLoop_spec (env : Environment) (mcParticles : List McParticle)
    (l : List Int) (indexGenD0 v : Int) (h : daughterLoop env mcParticles l indexGenD0 = some v) :
    ((∃ iD ∈ l, ∃ cand, rawIteratorAt mcParticles iD = some cand ∧ |cand.pdgCode| = env.kD0) →
      v = 0 ∨ v = 1) ∧
    ((¬ ∃ iD ∈ l, ∃ cand, rawIteratorAt mcParticles iD = some cand ∧ |cand.pdgCode| = env.kD0) →
      v = indexGenD0) := by
  induction l generalizing indexGenD0 with
  | nil =>
    simp only [daughterLoop, Option.some.injEq] at h
    exact ⟨by simp, fun _ => h.symm⟩
  | cons iD rest ih =>
    simp only [daughterLoop] at h
    cases hraw : rawIteratorAt mcParticles iD with
    | none => rw [hraw] at h; exact Option.noConfusion h
    | some cand =>
      rw [hraw] at h
      simp only at h
      by_cases hd : |cand.pdgCode| = env.kD0
      · rw [if_pos hd] at h
        obtain ⟨h1, h2⟩ := ih _ h
        refine ⟨fun _ => ?_, fun hno => absurd ⟨iD, List.mem_cons_self _ _, cand, hraw, hd⟩ hno⟩
        by_cases hrest : ∃ iD ∈ rest, ∃ cand,
            rawIteratorAt mcParticles iD = some cand ∧ |cand.pdgCode| = env.kD0
        · exact h1 hrest
        · rw [h2 hrest]
          split_ifs
          · exact Or.inr rfl
          · exact Or.inl rfl
      · rw [if_neg hd] at h
        obtain ⟨h1, h2⟩ := ih _ h
        constructor
        · rintro ⟨j, hj, c, hc, hcd⟩
          rcases List.mem_cons.1 hj with rfl | hj
          · rw [hraw] at hc
            cases hc
            exact absurd hcd hd
          · exact h1 ⟨j, hj, c, hc, hcd⟩
        · intro hno
          exact h2 (fun ⟨j, hj, c, hc, hcd⟩ => hno ⟨j, List.mem_cons_of_mem _ hj, c, hc, hcd⟩)

/-- C27, the code at the failing input and in general: for a generated B+
matched as B+ -> D0bar pi+ whose D0bar is not matched as D0bar -> K+ pi-,
`fillMcMatchGenBplus` writes the flag 1 = signB * 2^BplusToD0Pi, not 0.  In
general one row is written per particle, the origin is always 0, and the flag
of a matched B is signB * 2^BplusToD0Pi as soon as one of its listed daughters
is a D0 or D0bar, whatever the matching of that daughter returns. -/
theorem fillMcMatchGenBplus_flag_without_D0_decay (env : Environment)
    (mcParticles : List McParticle) (particle : McParticle) (rows : List (Int × Int))
    (row : Int × Int) :
    ((demoEnv.isMatchedMCGen demoParticles ⟨521⟩ demoEnv.kBPlus
        [-demoEnv.kD0, demoEnv.kPiPlus] true 1).matched = true ∧
      (demoEnv.isMatchedMCGen demoParticles ⟨-421⟩ demoEnv.kD0
        [-demoEnv.kKPlus, demoEnv.kPiPlus] true 1).matched = false ∧
      fillMcMatchGenBplus demoEnv demoParticles = some [(1, 0), (0, 0), (0, 0)]) ∧
    (fillMcMatchGenBplus env mcParticles = some rows →
      rows.length = mcParticles.length ∧ ∀ r ∈ rows, r.2 = 0) ∧
    (matchGenBplus env mcParticles particle = some row →
      row.2 = 0 ∧
      (row.1 ≠ 0 →
        (env.isMatchedMCGen mcParticles particle env.kBPlus
          [-env.kD0, env.kPiPlus] true 1).matched = true ∧
        ∃ iD ∈ (env.isMatchedMCGen mcParticles particle env.kBPlus
            [-env.kD0, env.kPiPlus] true 1).listIndexDaughters,
          ∃ cand, rawIteratorAt mcParticles iD = some cand ∧ |cand.pdgCode| = env.kD0) ∧
      ((env.isMatchedMCGen mcParticles particle env.kBPlus
          [-env.kD0, env.kPiPlus] true 1).matched = true →
        (∃ iD ∈ (env.isMatchedMCGen mcParticles particle env.kBPlus
            [-env.kD0, env.kPiPlus] true 1).listIndexDaughters,
          ∃ cand, rawIteratorAt mcParticles iD = some cand ∧ |cand.pdgCode| = env.kD0) →
        row.1 = toInt8 ((env.isMatchedMCGen mcParticles particle env.kBPlus
          [-env.kD0, env.kPiPlus] true 1).sign * 2 ^ env.BplusToD0Pi))) := by
  have hrow : ∀ r, matchGenBplus env mcParticles particle = some r →
      r.2 = 0 ∧
      (r.1 ≠ 0 →
        (env.isMatchedMCGen mcParticles particle env.kBPlus
          [-env.kD0, env.kPiPlus] true 1).matched = true ∧
        ∃ iD ∈ (env.isMatchedMCGen mcParticles particle env.kBPlus
            [-env.kD0, env.kPiPlus] true 1).listIndexDaughters,
          ∃ cand, rawIteratorAt mcParticles iD = some cand ∧ |cand.pdgCode| = env.kD0) ∧
      ((env.isMatchedMCGen mcParticles particle env.kBPlus
          [-env.kD0, env.kPiPlus] true 1).matched = true →
        (∃ iD ∈ (env.isMatchedMCGen mcParticles particle env.kBPlus
            [-env.kD0, env.kPiPlus] true 1).listIndexDaughters,
          ∃ cand, rawIteratorAt mcParticles iD = some cand ∧ |cand.pdgCode| = env.kD0) →
        r.1 = toInt8 ((env.isMatchedMCGen mcParticles particle env.kBPlus
          [-env.kD0, env.kPiPlus] true 1).sign * 2 ^ env.BplusToD0Pi)) := by
    intro r hr
    simp only [matchGenBplus] at hr
    cases hB : (env.isMatchedMCGen mcParticles particle env.kBPlus
        [-env.kD0, env.kPiPlus] true 1).matched with
    | false =>
      simp only [hB, Bool.false_eq_true, if_false, Option.some.injEq] at hr
      subst hr
      exact ⟨rfl, fun h => absurd rfl h, fun h => Bool.noConfusion h⟩
    | true =>
      simp only [hB, if_true] at hr
      cases hloop : daughterLoop env mcParticles (env.isMatchedMCGen mcParticles particle
          env.kBPlus [-env.kD0, env.kPiPlus] true 1).listIndexDaughters (-1) with
      | none => rw [hloop] at hr; exact Option.noConfusion hr
      | some v =>
        rw [hloop] at hr
        simp only at hr
        obtain ⟨h1, h2⟩ := daughterLoop_spec env mcParticles _ _ _ hloop
        by_cases hex : ∃ iD ∈ (env.isMatchedMCGen mcParticles particle env.kBPlus
            [-env.kD0, env.kPiPlus] true 1).listIndexDaughters,
            ∃ cand, rawIteratorAt mcParticles iD = some cand ∧ |cand.pdgCode| = env.kD0
        · have hv : v > -1 := by rcases h1 hex with rfl | rfl <;> decide
          rw [if_pos hv] at hr
          cases hr
          exact ⟨rfl, fun _ => ⟨rfl, hex⟩, fun _ _ => rfl⟩
        · have hv : ¬ v > -1 := by rw [h2 hex]; decide
          rw [if_neg hv] at hr
          cases hr
          exact ⟨rfl, fun h => absurd rfl h, fun _ h => absurd h hex⟩
  refine ⟨⟨by decide, by decide, by decide⟩, ?_, hrow row⟩
  intro h
  obtain ⟨hl, hm⟩ := mapM_option_spec _ _ _ h
  refine ⟨hl, fun r hr => ?_⟩
  obtain ⟨x, _, hx⟩ := hm r hr
  simp only [matchGenBplus] at hx
  split_ifs at hx
  · split at hx
    · exact Option.noConfusion hx
    · split_ifs at hx <;> cases hx <;> rfl
  · cases hx; rfl

end hf_mc_gen

/-! ## jetsubstructureoutput.cxx: theorems -/

namespace JetSubstructureOutputTask

theorem foldl_invariant_zero {σ α : Type} (f : σ → α → σ) (Inv : σ → Prop) (zero : σ → Prop)
    (hit : α → Prop) (l : List α)
    (hstep : ∀ s x, Inv s → Inv (f s x) ∧ (zero (f s x) ↔ zero s ∧ ¬ hit x))
    (s : σ) (hs : Inv s) :
    Inv (l.foldl f s) ∧ (zero (l.foldl f s) ↔ zero s ∧ ¬ ∃ x ∈ l, hit x) := by
  induction l generalizing s with
  | nil => exact ⟨hs, by simp⟩
  | cons x xs ih =>
    obtain ⟨h1, h2⟩ := hstep s x hs
    obtain ⟨h3, h4⟩ := ih (f s x) h1
    refine ⟨h3, ?_⟩
    rw [List.foldl_cons, h4, h2]
    constructor
    · rintro ⟨⟨hz, hx⟩, hxs⟩
      refine ⟨hz, ?_⟩
      rintro ⟨y, hy, hhit⟩
      rcases List.mem_cons.1 hy with rfl | hy
      · exact hx hhit
      · exact hxs ⟨y, hy, hhit⟩
    · rintro ⟨hz, hno⟩
      exact ⟨⟨hz, fun hx => hno ⟨x, List.mem_cons_self _ _, hx⟩⟩,
        fun ⟨y, hy, hhit⟩ => hno ⟨y, List.mem_cons_of_mem _ hy, hhit⟩⟩

theorem radiusStep_data (out0 : Output) (collision : JetCollision) (jet : Jet)
    (s : ChargedState) (jetRadiiValue : ℚ) (hs : DataInvariant out0 collision s) :
    DataInvariant out0 collision (radiusStep false collision jet s jetRadiiValue) ∧
    ((radiusStep false collision jet s jetRadiiValue).nJetInCollision = 0 ↔
      s.nJetInCollision = 0 ∧ ¬ jet.r = roundHalfAway (jetRadiiValue * 100)) := by
  obtain ⟨hn0, new, hlog, hzero, hpos⟩ := hs
  by_cases hm : jet.r = roundHalfAway (jetRadiiValue * 100)
  · by_cases hn : s.nJetInCollision = 0
    · have hnew := hzero hn
      subst hnew
      simp only [radiusStep, if_pos hm, Bool.not_false, if_true, hn, fillJetTables, hlog,
        List.append_nil, lastIndex, List.filter_append]
      refine ⟨⟨by norm_num, _, by simp only [List.append_assoc]; rfl, by norm_num, fun _ => ?_⟩,
        by simp [hm]⟩
      refine ⟨by simp [Row.isCollisionOutput], rfl, by simp [Row.isCollisionOutput], ?_⟩
      intro ci d pt phi eta y r n hmem
      simp only [List.cons_append, List.nil_append, List.mem_cons, List.mem_singleton,
        Row.jetOutput.injEq, List.not_mem_nil, or_false, false_or] at hmem
      simp only [List.filter_cons, Row.isCollisionOutput, if_true, List.filter_nil,
        List.length_append, List.length_cons, List.length_nil] at hmem
      rcases hmem with h | h
      · exact Row.noConfusion h
      · rcases h with h | h
        · rw [h.1]; push_cast; ring
        · exact Row.noConfusion h
    · obtain ⟨hci, hhead, hfilt, hjets⟩ := hpos hn
      simp only [radiusStep, if_pos hm, Bool.not_false, if_true, if_neg hn, fillJetTables, hlog]
      have hne : ¬ s.nJetInCollision + 1 = 0 := by omega
      refine ⟨⟨show 0 ≤ s.nJetInCollision + 1 by linarith, new ++ _,
        by simp only [List.append_assoc]; rfl,
        fun h => absurd h hne, fun _ => ⟨hci, ?_, ?_, ?_⟩⟩, ?_⟩
      · cases new with
        | nil => simp at hhead
        | cons a as => simpa using hhead
      · simp only [List.filter_append, hfilt]
        simp [Row.isCollisionOutput]
      · intro ci d pt phi eta y r n hmem
        simp only [List.mem_append, List.mem_cons, List.mem_singleton, List.not_mem_nil,
          or_false] at hmem
        rcases hmem with h | h | h
        · exact hjets ci d pt phi eta y r n h
        · simp only [Row.jetOutput.injEq] at h
          rw [h.1]; exact hci
        · exact Row.noConfusion h
      · constructor
        · intro h; exact absurd h hne
        · intro h; exact absurd h.1 hn
  · simp only [radiusStep, if_neg hm]
    exact ⟨⟨hn0, new, hlog, hzero, hpos⟩, by simp [hm]⟩

theorem jetStep_data (cfg : JetConfig) (out0 : Output) (collision : JetCollision)
    (jetPtMin : ℚ) (s : ChargedState) (jet : Jet) (hs : DataInvariant out0 collision s) :
    DataInvariant out0 collision (jetStep cfg false collision jetPtMin s jet) ∧
    ((jetStep cfg false collision jetPtMin s jet).nJetInCollision = 0 ↔
      s.nJetInCollision = 0 ∧
        ¬ ∃ rad ∈ cfg.jetRadiiValues, jetPasses cfg jetPtMin jet rad) := by
  by_cases hpt : jet.pt < jetPtMin
  · simp only [jetStep, if_pos hpt]
    refine ⟨hs, ?_⟩
    simp only [jetPasses, ge_iff_le, not_le.2 hpt, false_and, and_false, exists_false,
      not_false_eq_true, and_true]
  · cases heta : cfg.isInEtaAcceptance jet cfg.jetEtaMin cfg.jetEtaMax cfg.trackEtaMin
        cfg.trackEtaMax
    · simp only [jetStep, if_neg hpt, heta, Bool.not_false, if_true]
      refine ⟨hs, ?_⟩
      simp [jetPasses, heta]
    · simp only [jetStep, if_neg hpt, heta, Bool.not_true, Bool.false_eq_true, if_false]
      have h := foldl_invariant_zero (radiusStep false collision jet)
        (DataInvariant out0 collision) (fun s => s.nJetInCollision = 0)
        (fun rad => jet.r = roundHalfAway (rad * 100)) cfg.jetRadiiValues
        (fun s x hsx => radiusStep_data out0 collision jet s x hsx) s hs
      refine ⟨h.1, h.2.trans ?_⟩
      simp only [jetPasses, heta, ge_iff_le, not_lt.1 hpt, true_and]

theorem radiusStep_mc (out0 : Output) (collision : JetCollision) (jet : Jet)
    (s : ChargedState) (jetRadiiValue : ℚ) (hs : McInvariant out0 s) :
    McInvariant out0 (radiusStep true collision jet s jetRadiiValue) := by
  obtain ⟨hci, new, hlog, hfilt, hjets⟩ := hs
  by_cases hm : jet.r = roundHalfAway (jetRadiiValue * 100)
  · simp only [radiusStep, if_pos hm, Bool.not_true, Bool.false_eq_true, if_false,
      fillJetTables, hlog]
    refine ⟨hci, new ++ _, by simp only [List.append_assoc]; rfl, ?_, ?_⟩
    · simp only [List.filter_append, hfilt]
      simp [Row.isCollisionOutput]
    · intro ci d pt phi eta y r n hmem
      simp only [List.mem_append, List.mem_cons, List.mem_singleton, List.not_mem_nil,
        or_false] at hmem
      rcases hmem with h | h | h
      · exact hjets ci d pt phi eta y r n h
      · simp only [Row.jetOutput.injEq] at h
        rw [h.1]; exact hci
      · exact Row.noConfusion h
  · simp only [radiusStep, if_neg hm]
    exact ⟨hci, new, hlog, hfilt, hjets⟩

theorem foldl_invariant {σ α : Type} (f : σ → α → σ) (Inv : σ → Prop) (l : List α)
    (hstep : ∀ s x, Inv s → Inv (f s x)) (s : σ) (hs : Inv s) : Inv (l.foldl f s) := by
  induction l generalizing s with
  | nil => exact hs
  | cons x xs ih => exact ih (f s x) (hstep s x hs)

theorem jetStep_mc (cfg : JetConfig) (out0 : Output) (collision : JetCollision)
    (jetPtMin : ℚ) (s : ChargedState) (jet : Jet) (hs : McInvariant out0 s) :
    McInvariant out0 (jetStep cfg true collision jetPtMin s jet) := by
  simp only [jetStep]
  split_ifs
  · exact hs
  · exact hs
  · exact foldl_invariant _ _ _ (fun s x hsx => radiusStep_mc out0 collision jet s x hsx) s hs

/-- C29: in `analyseCharged<false>` the collision output row of a collision is
written exactly once when at least one jet passes the filters (pt >= jetPtMin,
eta acceptance, r equal to round(100 * radius) for a configured radius) and is
not written otherwise (then nothing is written); it is the first row written,
and every jet row written carries the index of that row in the collision
output table.  In `analyseCharged<true>` no collision row is written and
every jet row carries the collision index -1. -/
theorem analyseCharged_collision_row (cfg : JetConfig) (collision : JetCollision)
    (jets : List Jet) (out : Output) (jetPtMin : ℚ) :
    (∃ new, (analyseCharged cfg false collision jets out jetPtMin).log = out.log ++ new ∧
      ((∃ jet ∈ jets, ∃ rad ∈ cfg.jetRadiiValues, jetPasses cfg jetPtMin jet rad) →
        new.filter Row.isCollisionOutput =
          [Row.collisionOutput collision.posZ collision.centrality collision.eventSel] ∧
        new.head? = some (Row.collisionOutput collision.posZ collision.centrality
          collision.eventSel) ∧
        ((out.log ++ new).filter Row.isCollisionOutput)[
            (out.log.filter Row.isCollisionOutput).length]? =
          some (Row.collisionOutput collision.posZ collision.centrality collision.eventSel) ∧
        ∀ ci d pt phi eta y r n, Row.jetOutput ci d pt phi eta y r n ∈ new →
          ci = ((out.log.filter Row.isCollisionOutput).length : Int)) ∧
      ((¬ ∃ jet ∈ jets, ∃ rad ∈ cfg.jetRadiiValues, jetPasses cfg jetPtMin jet rad) →
        new = [])) ∧
    (∃ new, (analyseCharged cfg true collision jets out jetPtMin).log = out.log ++ new ∧
      new.filter Row.isCollisionOutput = [] ∧
      ∀ ci d pt phi eta y r n, Row.jetOutput ci d pt phi eta y r n ∈ new → ci = -1) := by
  constructor
  · have hinit : DataInvariant out collision ⟨out, 0, -1⟩ :=
      ⟨le_refl _, [], by simp, fun _ => rfl, fun h => absurd rfl h⟩
    obtain ⟨⟨_, new, hlog, hzero, hpos⟩, hiff⟩ := foldl_invariant_zero
      (jetStep cfg false collision jetPtMin) (DataInvariant out collision)
      (fun s => s.nJetInCollision = 0)
      (fun jet => ∃ rad ∈ cfg.jetRadiiValues, jetPasses cfg jetPtMin jet rad) jets
      (fun s x hsx => jetStep_data cfg out collision jetPtMin s x hsx) ⟨out, 0, -1⟩ hinit
    refine ⟨new, hlog, fun hany => ?_, fun hnone => ?_⟩
    · have hne : (jets.foldl (jetStep cfg false collision jetPtMin)
          ⟨out, 0, -1⟩).nJetInCollision ≠ 0 := fun h => (hiff.1 h).2 hany
      obtain ⟨_, hhead, hfilt, hjets⟩ := hpos hne
      refine ⟨hfilt, hhead, ?_, hjets⟩
      rw [List.filter_append, hfilt]
      simp
    · exact hzero (hiff.2 ⟨rfl, hnone⟩)
  · have hinit : McInvariant out ⟨out, 0, -1⟩ := ⟨rfl, [], by simp, rfl, by simp⟩
    obtain ⟨_, new, hlog, hfilt, hjets⟩ := foldl_invariant
      (jetStep cfg true collision jetPtMin) (McInvariant out) jets
      (fun s x hsx => jetStep_mc cfg out collision jetPtMin s x hsx) ⟨out, 0, -1⟩ hinit
    exact ⟨new, hlog, hfilt, hjets⟩

end JetSubstructureOutputTask

namespace JetSubstructureOutputTask

theorem foldl_countStep (flags : EventSelectionFlags) (bcs : List JBC) (c : BCCounters) :
    bcs.foldl (countStep flags) c =
      ⟨c.readBCCounter + (bcs.length : Int),
        c.readBCWithTVXCounter +
          ((bcs.filter (fun bc => bc.selection_bit flags.kIsTriggerTVX)).length : Int),
        c.readBCWithTVXAndITSROFBAndNoTFBCounter +
          ((bcs.filter (fun bc => bc.selection_bit flags.kIsTriggerTVX &&
            (bc.selection_bit flags.kNoITSROFrameBorder &&
              bc.selection_bit flags.kNoTimeFrameBorder))).length : Int)⟩ := by
  induction bcs generalizing c with
  | nil => simp
  | cons bc rest ih =>
    rw [List.foldl_cons, ih]
    cases h1 : bc.selection_bit flags.kIsTriggerTVX <;>
      cases h2 : bc.selection_bit flags.kNoITSROFrameBorder <;>
      cases h3 : bc.selection_bit flags.kNoTimeFrameBorder <;>
      simp [countStep, h1, h2, h3, List.filter_cons] <;> omega

theorem partialSum_zero (v span : List Int) : partialSum v span 0 = v := by
  apply List.ext_getElem?
  intro j
  simp only [partialSum, Nat.not_lt_zero, if_false, List.getElem?_map, List.getElem?_range]
  by_cases hj : j < v.length
  · simp [List.getElem?_range, hj, List.getD_eq_getElem?_getD, List.getElem?_eq_getElem hj]
  · rw [List.getElem?_eq_none (by simpa using not_lt.1 hj), List.getElem?_eq_none (not_lt.1 hj)]
    rfl

theorem partialSum_length (v span : List Int) (k : Nat) :
    (partialSum v span k).length = v.length := by
  simp [partialSum]

theorem addAt_partialSum (v span : List Int) (k : Nat) (hv : k < v.length)
    (hs : k < span.length) :
    addAt (partialSum v span k) span k = some (partialSum v span (k + 1)) := by
  have h1 : (partialSum v span k)[k]? = some (v.getD k 0) := by
    simp [partialSum, List.getElem?_range, hv]
  have h2 : span[k]? = some (span.getD k 0) := by
    simp [List.getD_eq_getElem?_getD, List.getElem?_eq_getElem hs]
  simp only [addAt, h1, h2]
  congr 1
  apply List.ext_getElem?
  intro j
  rw [List.getElem?_set]
  by_cases hkj : k = j
  · subst hkj
    simp [partialSum, hv, List.getElem?_range]
  · simp only [if_neg hkj]
    by_cases hj : j < v.length
    · have hiff : j < k + 1 ↔ j < k := by omega
      simp [partialSum, List.getElem?_range, hj, hiff]
    · rw [List.getElem?_eq_none (by simpa [partialSum] using not_lt.1 hj),
        List.getElem?_eq_none (by simpa [partialSum] using not_lt.1 hj)]

theorem foldl_indexStep (bcCount : BCCount) (p : PreviousCounts) (k : Nat)
    (h1 : k ≤ p.previousReadCounts.length)
    (h2 : k ≤ p.previousReadCountsWithTVX.length)
    (h3 : k ≤ p.previousReadCountsWithTVXAndITSROFBAndNoTFB.length)
    (s1 : k ≤ bcCount.readCounts.length)
    (s2 : k ≤ bcCount.readCountsWithTVX.length)
    (s3 : k ≤ bcCount.readCountsWithTVXAndITSROFBAndNoTFB.length) :
    (List.range k).foldl (indexStep bcCount) (some p) =
      some ⟨partialSum p.previousReadCounts bcCount.readCounts k,
        partialSum p.previousReadCountsWithTVX bcCount.readCountsWithTVX k,
        partialSum p.previousReadCountsWithTVXAndITSROFBAndNoTFB
          bcCount.readCountsWithTVXAndITSROFBAndNoTFB k,
        p.iPreviousDataFrame⟩ := by
  induction k with
  | zero => simp [partialSum_zero]
  | succ k ih =>
    rw [List.range_succ, List.foldl_append,
      ih (by omega) (by omega) (by omega) (by omega) (by omega) (by omega)]
    simp only [List.foldl_cons, List.foldl_nil, indexStep]
    rw [addAt_partialSum _ _ k (by omega) (by omega),
      addAt_partialSum _ _ k (by omega) (by omega),
      addAt_partialSum _ _ k (by omega) (by omega)]

theorem partialSum_full (v span : List Int) :
    partialSum v span v.length =
      (List.range v.length).map (fun i => v.getD i 0 + span.getD i 0) := by
  simp only [partialSum]
  apply List.map_congr_left
  intro i hi
  rw [if_pos (List.mem_range.1 hi)]

theorem foldl_bcCountStep (L : Nat) (bcCounts : List BCCount) (p : PreviousCounts)
    (hi : 0 < p.iPreviousDataFrame)
    (h1 : p.previousReadCounts.length = L)
    (h2 : p.previousReadCountsWithTVX.length = L)
    (h3 : p.previousReadCountsWithTVXAndITSROFBAndNoTFB.length = L)
    (hlen : ∀ r ∈ bcCounts, r.readCounts.length = L ∧ r.readCountsWithTVX.length = L ∧
      r.readCountsWithTVXAndITSROFBAndNoTFB.length = L) :
    bcCounts.foldl bcCountStep (some p) =
      some ⟨(List.range L).map (fun i => p.previousReadCounts.getD i 0 +
          (bcCounts.map (fun r => r.readCounts.getD i 0)).sum),
        (List.range L).map (fun i => p.previousReadCountsWithTVX.getD i 0 +
          (bcCounts.map (fun r => r.readCountsWithTVX.getD i 0)).sum),
        (List.range L).map (fun i => p.previousReadCountsWithTVXAndITSROFBAndNoTFB.getD i 0 +
          (bcCounts.map (fun r => r.readCountsWithTVXAndITSROFBAndNoTFB.getD i 0)).sum),
        p.iPreviousDataFrame + (bcCounts.length : Int)⟩ := by
  induction bcCounts generalizing p with
  | nil =>
    have e : ∀ v : List Int, v.length = L → (List.range L).map (fun i => v.getD i 0) = v := by
      intro v hv
      have := partialSum_zero v []
      simp only [partialSum, Nat.not_lt_zero, if_false, hv] at this
      exact this
    simp only [List.foldl_nil, List.map_nil, List.sum_nil, add_zero, List.length_nil,
      Nat.cast_zero, e _ h1, e _ h2, e _ h3]
  | cons r rest ih =>
    obtain ⟨r1, r2, r3⟩ := hlen r (List.mem_cons_self _ _)
    have hne : ¬ p.iPreviousDataFrame = 0 := by omega
    have hstep := foldl_indexStep r p L (by omega) (by omega) (by omega) (by omega) (by omega)
      (by omega)
    rw [List.foldl_cons]
    simp only [bcCountStep, if_neg hne, h1, hstep, Option.map_some']
    rw [ih _ (by show 0 < p.iPreviousDataFrame + 1; omega) (by simp [partialSum_length, h1])
      (by simp [partialSum_length, h2]) (by simp [partialSum_length, h3])
      (fun x hx => hlen x (List.mem_cons_of_mem _ hx))]
    have e : ∀ (v s : List Int) (f : Nat → Int), v.length = L →
        (List.range L).map (fun i => (partialSum v s L).getD i 0 + f i) =
          (List.range L).map (fun i => v.getD i 0 + (s.getD i 0 + f i)) := by
      intro v s f hv
      apply List.map_congr_left
      intro i hi
      have hiL := List.mem_range.1 hi
      have : (partialSum v s L).getD i 0 = v.getD i 0 + s.getD i 0 := by
        simp [partialSum, List.getD_eq_getElem?_getD, List.getElem?_range, hv, hiL]
      rw [this, add_assoc]
    simp only [e _ _ _ h1, e _ _ _ h2, e _ _ _ h3, List.map_cons, List.sum_cons, List.length_cons,
      Nat.cast_add, Nat.cast_one]
    congr 2
    omega

/-- C30: when all rows of `bcCounts` hold vectors of one common length `L`
(`L` = 0 when there are no rows), `processCountBCs` reads no index out of
range and writes exactly one row; each of its three vectors has length
`L + 1`, its first `L` entries are the element-wise sums over all rows of
`bcCounts`, and its last entry is the count of this data frame: of all BCs, of
BCs with the TVX trigger bit, and of BCs with TVX and both border bits, with
third <= second <= first = number of BCs read. -/
theorem processCountBCs_common_length (flags : EventSelectionFlags) (bcs : List JBC)
    (bcCounts : List BCCount) (L : Nat)
    (hlen : ∀ r ∈ bcCounts, r.readCounts.length = L ∧ r.readCountsWithTVX.length = L ∧
      r.readCountsWithTVXAndITSROFBAndNoTFB.length = L)
    (hL : bcCounts = [] → L = 0) :
    let first : Int := bcs.length
    let second : Int := (bcs.filter (fun bc => bc.selection_bit flags.kIsTriggerTVX)).length
    let third : Int := (bcs.filter (fun bc => bc.selection_bit flags.kIsTriggerTVX &&
      (bc.selection_bit flags.kNoITSROFrameBorder &&
        bc.selection_bit flags.kNoTimeFrameBorder))).length
    let v1 := columnSums L BCCount.readCounts bcCounts ++ [first]
    let v2 := columnSums L BCCount.readCountsWithTVX bcCounts ++ [second]
    let v3 := columnSums L BCCount.readCountsWithTVXAndITSROFBAndNoTFB bcCounts ++ [third]
    processCountBCs flags bcs bcCounts = some [(v1, v2, v3)] ∧
    v1.length = L + 1 ∧ v2.length = L + 1 ∧ v3.length = L + 1 ∧
    (∀ i, i < L →
      v1[i]? = some ((bcCounts.map (fun r => r.readCounts.getD i 0)).sum) ∧
      v2[i]? = some ((bcCounts.map (fun r => r.readCountsWithTVX.getD i 0)).sum) ∧
      v3[i]? = some ((bcCounts.map
        (fun r => r.readCountsWithTVXAndITSROFBAndNoTFB.getD i 0)).sum)) ∧
    v1[L]? = some first ∧ v2[L]? = some second ∧ v3[L]? = some third ∧
    0 ≤ third ∧ third ≤ second ∧ second ≤ first := by
  intro first second third v1 v2 v3
  have hlenCol : ∀ column : BCCount → List Int, (columnSums L column bcCounts).length = L := by
    intro column
    simp [columnSums]
  have hget : ∀ (column : BCCount → List Int) (x : Int) (i : Nat), i < L →
      (columnSums L column bcCounts ++ [x])[i]? =
        some ((bcCounts.map (fun r => (column r).getD i 0)).sum) := by
    intro column x i hi
    rw [List.getElem?_append_left (by rw [hlenCol]; exact hi)]
    simp [columnSums, List.getElem?_range, hi]
  have hlast : ∀ (column : BCCount → List Int) (x : Int),
      (columnSums L column bcCounts ++ [x])[L]? = some x := by
    intro column x
    rw [List.getElem?_append_right (by rw [hlenCol])]
    simp [hlenCol]
  refine ⟨?_, by simp [v1, hlenCol], by simp [v2, hlenCol], by simp [v3, hlenCol],
    fun i hi => ⟨hget _ _ i hi, hget _ _ i hi, hget _ _ i hi⟩, hlast _ _, hlast _ _, hlast _ _,
    Int.natCast_nonneg _, ?_, ?_⟩
  · have hc := foldl_countStep flags bcs ⟨0, 0, 0⟩
    cases bcCounts with
    | nil =>
      have hL0 := hL rfl
      subst hL0
      simp only [processCountBCs, hc, List.foldl_nil, zero_add, v1, v2, v3, columnSums,
        List.range_zero, List.map_nil, List.nil_append, first, second, third]
    | cons r rest =>
      obtain ⟨r1, r2, r3⟩ := hlen r (List.mem_cons_self _ _)
      have hrest := foldl_bcCountStep L rest
        ⟨r.readCounts, r.readCountsWithTVX, r.readCountsWithTVXAndITSROFBAndNoTFB, 1⟩
        Int.one_pos r1 r2 r3 (fun x hx => hlen x (List.mem_cons_of_mem _ hx))
      have hfirst : bcCountStep (some ⟨[], [], [], 0⟩) r =
          some ⟨r.readCounts, r.readCountsWithTVX, r.readCountsWithTVXAndITSROFBAndNoTFB, 1⟩ := by
        simp [bcCountStep]
      simp only [processCountBCs, hc, List.foldl_cons, hfirst, hrest, zero_add, v1, v2, v3,
        columnSums, List.map_cons, List.sum_cons, first, second, third]
  · have hsplit : bcs.filter (fun bc => bc.selection_bit flags.kIsTriggerTVX &&
        (bc.selection_bit flags.kNoITSROFrameBorder &&
          bc.selection_bit flags.kNoTimeFrameBorder)) =
        (bcs.filter (fun bc => bc.selection_bit flags.kIsTriggerTVX)).filter
          (fun bc => bc.selection_bit flags.kNoITSROFrameBorder &&
            bc.selection_bit flags.kNoTimeFrameBorder) := by
      rw [List.filter_filter]
      congr 1
      funext bc
      exact Bool.and_comm _ _
    show ((List.filter _ bcs).length : Int) ≤ ((List.filter _ bcs).length : Int)
    rw [hsplit]
    exact Int.ofNat_le.2 (List.length_filter_le _ _)
  · exact Int.ofNat_le.2 (List.length_filter_le _ _)

/-- The theorem `processCountBCs_common_length` applies to two BCs and two rows
of `bcCounts` with vectors of length 1. -/
theorem processCountBCs_common_length_witness :
    (∀ r ∈ demoBCCounts, r.readCounts.length = 1 ∧ r.readCountsWithTVX.length = 1 ∧
      r.readCountsWithTVXAndITSROFBAndNoTFB.length = 1) ∧
    (demoBCCounts = [] → 1 = 0) ∧
    processCountBCs ⟨4, 5, 6⟩ demoBCs demoBCCounts = some [([3, 2], [2, 1], [1, 1])] :=
  ⟨by decide, fun h => absurd h (by simp [demoBCCounts]),
    (processCountBCs_common_length ⟨4, 5, 6⟩ demoBCs demoBCCounts 1 (by decide)
      (fun h => absurd h (by simp [demoBCCounts]))).1.trans (by decide)⟩

end JetSubstructureOutputTask
